import Mathlib

/-!
# LPCUSB: standard-request handler and SCSI engine

A shallow embedding of `target/usbstdreq.c` (descriptor lookup, endpoint
activation, chapter-9 dispatcher) and `target/examples/msc_scsi.c`
(SCSI command and data phases), with the properties proved about them.

Conventions of the embedding.

* Bytes and machine words are natural numbers; `U32` arithmetic that can
  wrap is reduced modulo `2^32` where the source computes it.
* The registered descriptor table is a finite byte sequence `List Nat`; a
  pointer into it is an offset.  A load outside the sequence yields 0.
* The table scans are loops; they are embedded with a fuel argument, and the
  entry points supply `length + 1`, which is shown to be enough for every
  table.  `none` stands for fuel exhaustion only.
* A writable buffer reached through a pointer (`pbData`, `abBlockBuf`) is
  modelled by its contents, a function from byte offset to byte.
* The hardware-control primitives and the block device are external; calls
  to them are recorded in order, and what they return is part of the state.
-/

namespace LpcUsb

/-! ## Descriptor table -/

/-- Byte load `mem[i]`; outside the byte sequence the load yields 0. -/
def rdByte (mem : List Nat) (i : Nat) : Nat := mem.getD i 0

/-- Offset of the length field in every descriptor. -/
abbrev DESC_bLength : Nat := 0
/-- Offset of the type field in every descriptor. -/
abbrev DESC_bDescriptorType : Nat := 1
/-- Offset of the total-length field of a configuration descriptor. -/
abbrev CONF_DESC_wTotalLength : Nat := 2
/-- Offset of the configuration value of a configuration descriptor. -/
abbrev CONF_DESC_bConfigurationValue : Nat := 5
/-- Offset of the alternate setting of an interface descriptor. -/
abbrev INTF_DESC_bAlternateSetting : Nat := 3
/-- Offset of the endpoint address of an endpoint descriptor. -/
abbrev ENDP_DESC_bEndpointAddress : Nat := 2
/-- Offset of the maximum packet size of an endpoint descriptor. -/
abbrev ENDP_DESC_wMaxPacketSize : Nat := 4

/-- Descriptor type DEVICE. -/
abbrev DESC_DEVICE : Nat := 1
/-- Descriptor type CONFIGURATION. -/
abbrev DESC_CONFIGURATION : Nat := 2
/-- Descriptor type STRING. -/
abbrev DESC_STRING : Nat := 3
/-- Descriptor type INTERFACE. -/
abbrev DESC_INTERFACE : Nat := 4
/-- Descriptor type ENDPOINT. -/
abbrev DESC_ENDPOINT : Nat := 5

/-- Macro `GET_DESC_TYPE(x) = ((x)>>8)&0xFF`. -/
def GET_DESC_TYPE (x : Nat) : Nat := (x >>> 8) &&& 0xFF
/-- Macro `GET_DESC_INDEX(x) = (x)&0xFF`. -/
def GET_DESC_INDEX (x : Nat) : Nat := x &&& 0xFF

/-- Outcome of `USBGetDescriptor`: `found p len` is the return value `true`
with `*ppbData = pabDescrip + p` and `*piLen = len`; `notFound` is the return
value `false`, the two outputs untouched. -/
inductive DescLookup where
  | found (pbData : Nat) (iLen : Nat)
  | notFound
  deriving DecidableEq, Repr

/-- The `while` loop of `USBGetDescriptor`, at table offset `pab` with running
index `iCurIndex`. -/
def getDescLoop (pabDescrip : List Nat) (bType bIndex : Nat) :
    Nat → Nat → Nat → Option DescLookup
  | 0, _, _ => none
  | fuel + 1, pab, iCurIndex =>
    if rdByte pabDescrip (pab + DESC_bLength) ≠ 0 then
      if rdByte pabDescrip (pab + DESC_bDescriptorType) = bType then
        if iCurIndex = bIndex then
          if bType = DESC_CONFIGURATION then
            some (.found pab
              (rdByte pabDescrip (pab + CONF_DESC_wTotalLength) |||
                (rdByte pabDescrip (pab + CONF_DESC_wTotalLength + 1) <<< 8)))
          else
            some (.found pab (rdByte pabDescrip (pab + DESC_bLength)))
        else
          getDescLoop pabDescrip bType bIndex fuel
            (pab + rdByte pabDescrip (pab + DESC_bLength)) (iCurIndex + 1)
      else
        getDescLoop pabDescrip bType bIndex fuel
          (pab + rdByte pabDescrip (pab + DESC_bLength)) iCurIndex
    else
      some .notFound

/-- Function `USBGetDescriptor` over the registered table `pabDescrip`. -/
def USBGetDescriptor (pabDescrip : List Nat) (wTypeIndex : Nat) (_wLangID : Nat) :
    Option DescLookup :=
  getDescLoop pabDescrip (GET_DESC_TYPE wTypeIndex) (GET_DESC_INDEX wTypeIndex)
    (pabDescrip.length + 1) 0 0

/-! ### Well-formed tables -/

/-- A descriptor record: at least the two header bytes, every element a byte,
and the length field (byte 0) equal to the number of bytes of the record. -/
def IsRecord (r : List Nat) : Prop :=
  2 ≤ r.length ∧ r.head? = some r.length ∧ ∀ b ∈ r, b < 256

instance (r : List Nat) : Decidable (IsRecord r) :=
  inferInstanceAs (Decidable (2 ≤ r.length ∧ r.head? = some r.length ∧ ∀ b ∈ r, b < 256))

/-- Type field (byte 1) of a record. -/
def recType (r : List Nat) : Nat := r.getD 1 0

/-- The bytes of a chain of records followed by the zero-length terminator and
whatever lies behind it. -/
def tableOf (rs : List (List Nat)) (rest : List Nat) : List Nat :=
  rs.flatten ++ 0 :: rest

/-! ## Hardware-control interface and request environment -/

/-- Modelled from the spec: the hardware-control capability
(set-device-address, set-device-configured, configure-endpoint,
get-endpoint-halt-status, set-endpoint-halt), implemented in `usbhw_lpc.c`,
which is outside the sources at hand.  A value is one call of a primitive, with
the argument expressions of the call site. -/
inductive HwCall where
  | USBHwConfigDevice (fConfigured : Bool)
  | USBHwEPConfig (bEP : Nat) (wMaxPacketSize : Nat)
  | USBHwSetAddress (bAddr : Nat)
  | USBHwEPGetStatus (bEP : Nat)
  | USBHwEPStall (bEP : Nat) (fStall : Bool)
  deriving DecidableEq, Repr

/-- The `while` loop of `USBSetConfiguration`; `hw` is the sequence of
hardware calls issued so far. -/
def setConfLoop (pabDescrip : List Nat) (bConfigIndex bAltSetting : Nat) :
    Nat → Nat → Nat → Nat → List HwCall → Option (List HwCall)
  | 0, _, _, _, _ => none
  | fuel + 1, pab, bCurConfig, bCurAltSetting, hw =>
    if rdByte pabDescrip (pab + DESC_bLength) ≠ 0 then
      if rdByte pabDescrip (pab + DESC_bDescriptorType) = DESC_CONFIGURATION then
        setConfLoop pabDescrip bConfigIndex bAltSetting fuel
          (pab + rdByte pabDescrip (pab + DESC_bLength))
          (rdByte pabDescrip (pab + CONF_DESC_bConfigurationValue)) bCurAltSetting hw
      else if rdByte pabDescrip (pab + DESC_bDescriptorType) = DESC_INTERFACE then
        setConfLoop pabDescrip bConfigIndex bAltSetting fuel
          (pab + rdByte pabDescrip (pab + DESC_bLength))
          bCurConfig (rdByte pabDescrip (pab + INTF_DESC_bAlternateSetting)) hw
      else if rdByte pabDescrip (pab + DESC_bDescriptorType) = DESC_ENDPOINT then
        if bCurConfig = bConfigIndex ∧ bCurAltSetting = bAltSetting then
          setConfLoop pabDescrip bConfigIndex bAltSetting fuel
            (pab + rdByte pabDescrip (pab + DESC_bLength)) bCurConfig bCurAltSetting
            (hw ++ [HwCall.USBHwEPConfig
              (rdByte pabDescrip (pab + ENDP_DESC_bEndpointAddress))
              (rdByte pabDescrip (pab + ENDP_DESC_wMaxPacketSize) |||
                (rdByte pabDescrip (pab + ENDP_DESC_wMaxPacketSize + 1) <<< 8))])
        else
          setConfLoop pabDescrip bConfigIndex bAltSetting fuel
            (pab + rdByte pabDescrip (pab + DESC_bLength)) bCurConfig bCurAltSetting hw
      else
        setConfLoop pabDescrip bConfigIndex bAltSetting fuel
          (pab + rdByte pabDescrip (pab + DESC_bLength)) bCurConfig bCurAltSetting hw
    else
      some hw

/-- Function `USBSetConfiguration`: the return value and the hardware calls,
appended to those issued before (`hw`). -/
def USBSetConfiguration (pabDescrip : List Nat) (bConfigIndex bAltSetting : Nat)
    (hw : List HwCall) : Option (Bool × List HwCall) :=
  if bConfigIndex = 0 then
    some (true, hw ++ [HwCall.USBHwConfigDevice false])
  else
    match setConfLoop pabDescrip bConfigIndex bAltSetting (pabDescrip.length + 1) 0 0xFF 0xFF hw with
    | none => none
    | some hw1 => some (true, hw1 ++ [HwCall.USBHwConfigDevice true])

/-- Setup packet `TSetupPacket`. -/
structure TSetupPacket where
  bmRequestType : Nat
  bRequest : Nat
  wValue : Nat
  wIndex : Nat
  wLength : Nat

/-- Macro `REQTYPE_GET_RECIP(x) = (x)&0x1F`. -/
def REQTYPE_GET_RECIP (x : Nat) : Nat := x &&& 0x1F

abbrev REQTYPE_RECIP_DEVICE : Nat := 0
abbrev REQTYPE_RECIP_INTERFACE : Nat := 1
abbrev REQTYPE_RECIP_ENDPOINT : Nat := 2

abbrev REQ_GET_STATUS : Nat := 0x00
abbrev REQ_CLEAR_FEATURE : Nat := 0x01
abbrev REQ_SET_FEATURE : Nat := 0x03
abbrev REQ_SET_ADDRESS : Nat := 0x05
abbrev REQ_GET_DESCRIPTOR : Nat := 0x06
abbrev REQ_SET_DESCRIPTOR : Nat := 0x07
abbrev REQ_GET_CONFIGURATION : Nat := 0x08
abbrev REQ_SET_CONFIGURATION : Nat := 0x09
abbrev REQ_GET_INTERFACE : Nat := 0x0A
abbrev REQ_SET_INTERFACE : Nat := 0x0B
abbrev REQ_SYNCH_FRAME : Nat := 0x0C

abbrev FEA_ENDPOINT_HALT : Nat := 0x00
abbrev FEA_REMOTE_WAKEUP : Nat := 0x01
abbrev FEA_TEST_MODE : Nat := 0x02

/-- Store `m[i] = v` into a buffer given by its contents. -/
def wrByte (m : Nat → Nat) (i v : Nat) : Nat → Nat :=
  fun j => if j = i then v else m j

/-- What a request handler works on besides the setup packet: the two in/out
parameters and the hardware.  `iLen` is `*piLen`; `pbData` is the contents of
the memory `*ppbData` points to; `hwCalls` is the sequence of hardware-control
calls issued so far; `epStatus bEP` is the value `USBHwEPGetStatus(bEP)`
returns. -/
structure Env where
  iLen : Int
  pbData : Nat → Nat
  hwCalls : List HwCall
  epStatus : Nat → Nat

/-- Type `TFnHandleRequest` of a request handler: its return value and its
effect on the environment.  A handler does not re-enter this module. -/
abbrev TFnHandleRequest := TSetupPacket → Env → Bool × Env

/-- The static variables of `usbstdreq.c` used by the request handlers. -/
structure StdReq where
  bConfiguration : Nat
  pfnHandleCustomReq : Option TFnHandleRequest
  pabDescrip : List Nat

/-- Function `USBRegisterDescriptors`. -/
def USBRegisterDescriptors (s : StdReq) (pabDescriptors : List Nat) : StdReq :=
  { s with pabDescrip := pabDescriptors }

/-- Function `USBRegisterCustomReqHandler`; `none` is the NULL pointer. -/
def USBRegisterCustomReqHandler (s : StdReq) (pfnHandler : Option TFnHandleRequest) : StdReq :=
  { s with pfnHandleCustomReq := pfnHandler }

/-- Function `HandleStdDeviceReq`. -/
def HandleStdDeviceReq (s : StdReq) (pSetup : TSetupPacket) (e : Env) :
    Option (Bool × StdReq × Env) :=
  if pSetup.bRequest = REQ_GET_STATUS then
    some (true, s, { e with pbData := wrByte (wrByte e.pbData 0 0) 1 0, iLen := 2 })
  else if pSetup.bRequest = REQ_SET_ADDRESS then
    some (true, s, { e with hwCalls := e.hwCalls ++ [HwCall.USBHwSetAddress pSetup.wValue] })
  else if pSetup.bRequest = REQ_GET_DESCRIPTOR then
    match USBGetDescriptor s.pabDescrip pSetup.wValue pSetup.wIndex with
    | none => none
    | some (DescLookup.found pab len) =>
      some (true, s, { e with iLen := len, pbData := fun i => rdByte s.pabDescrip (pab + i) })
    | some DescLookup.notFound => some (false, s, e)
  else if pSetup.bRequest = REQ_GET_CONFIGURATION then
    some (true, s, { e with pbData := wrByte e.pbData 0 s.bConfiguration, iLen := 1 })
  else if pSetup.bRequest = REQ_SET_CONFIGURATION then
    match USBSetConfiguration s.pabDescrip (pSetup.wValue &&& 0xFF) 0 e.hwCalls with
    | none => none
    | some (false, hw) => some (false, s, { e with hwCalls := hw })
    | some (true, hw) =>
      some (true, { s with bConfiguration := pSetup.wValue &&& 0xFF }, { e with hwCalls := hw })
  else if pSetup.bRequest = REQ_CLEAR_FEATURE ∨ pSetup.bRequest = REQ_SET_FEATURE then
    some (false, s, e)
  else if pSetup.bRequest = REQ_SET_DESCRIPTOR then
    some (false, s, e)
  else
    some (false, s, e)

/-- Function `HandleStdInterfaceReq`. -/
def HandleStdInterfaceReq (s : StdReq) (pSetup : TSetupPacket) (e : Env) :
    Option (Bool × StdReq × Env) :=
  if pSetup.bRequest = REQ_GET_STATUS then
    some (true, s, { e with pbData := wrByte (wrByte e.pbData 0 0) 1 0, iLen := 2 })
  else if pSetup.bRequest = REQ_CLEAR_FEATURE ∨ pSetup.bRequest = REQ_SET_FEATURE then
    some (false, s, e)
  else if pSetup.bRequest = REQ_GET_INTERFACE then
    some (true, s, { e with pbData := wrByte e.pbData 0 0, iLen := 1 })
  else if pSetup.bRequest = REQ_SET_INTERFACE then
    if pSetup.wValue ≠ 0 then
      some (false, s, e)
    else
      some (true, s, { e with iLen := 0 })
  else
    some (false, s, e)

/-- Function `HandleStdEndPointReq`.  The mask `EP_STATUS_STALLED` is defined
in `usbapi.h`, outside the sources at hand, and is a parameter. -/
def HandleStdEndPointReq (EP_STATUS_STALLED : Nat) (s : StdReq) (pSetup : TSetupPacket)
    (e : Env) : Option (Bool × StdReq × Env) :=
  if pSetup.bRequest = REQ_GET_STATUS then
    some (true, s,
      { e with
        hwCalls := e.hwCalls ++ [HwCall.USBHwEPGetStatus pSetup.wIndex]
        pbData := wrByte
          (wrByte e.pbData 0 (if e.epStatus pSetup.wIndex &&& EP_STATUS_STALLED ≠ 0 then 1 else 0))
          1 0
        iLen := 2 })
  else if pSetup.bRequest = REQ_CLEAR_FEATURE then
    if pSetup.wValue = FEA_ENDPOINT_HALT then
      some (true, s, { e with hwCalls := e.hwCalls ++ [HwCall.USBHwEPStall pSetup.wIndex false] })
    else
      some (false, s, e)
  else if pSetup.bRequest = REQ_SET_FEATURE then
    if pSetup.wValue = FEA_ENDPOINT_HALT then
      some (true, s, { e with hwCalls := e.hwCalls ++ [HwCall.USBHwEPStall pSetup.wIndex true] })
    else
      some (false, s, e)
  else if pSetup.bRequest = REQ_SYNCH_FRAME then
    some (false, s, e)
  else
    some (false, s, e)

/-- The recipient `switch` of `USBHandleStandardRequest`. -/
def dispatchStd (EP_STATUS_STALLED : Nat) (s : StdReq) (pSetup : TSetupPacket) (e : Env) :
    Option (Bool × StdReq × Env) :=
  if REQTYPE_GET_RECIP pSetup.bmRequestType = REQTYPE_RECIP_DEVICE then
    HandleStdDeviceReq s pSetup e
  else if REQTYPE_GET_RECIP pSetup.bmRequestType = REQTYPE_RECIP_INTERFACE then
    HandleStdInterfaceReq s pSetup e
  else if REQTYPE_GET_RECIP pSetup.bmRequestType = REQTYPE_RECIP_ENDPOINT then
    HandleStdEndPointReq EP_STATUS_STALLED s pSetup e
  else
    some (false, s, e)

/-- Function `USBHandleStandardRequest`: the custom handler first, when one is
installed; the chapter-9 handlers when there is none or it returns false. -/
def USBHandleStandardRequest (EP_STATUS_STALLED : Nat) (s : StdReq) (pSetup : TSetupPacket)
    (e : Env) : Option (Bool × StdReq × Env) :=
  match s.pfnHandleCustomReq with
  | none => dispatchStd EP_STATUS_STALLED s pSetup e
  | some pfn =>
    if (pfn pSetup e).1 = true then
      some (true, s, (pfn pSetup e).2)
    else
      dispatchStd EP_STATUS_STALLED s pSetup (pfn pSetup e).2

/-! ## SCSI engine -/

abbrev BLOCKSIZE : Nat := 512
abbrev INVALID_FIELD_IN_CDB : Nat := 0x052400
abbrev INVALID_CMD_OPCODE : Nat := 0x052000

/-- Table `abInquiry` (the vendor, product and revision strings as character
codes). -/
def abInquiry : List Nat :=
  [0x00, 0x80, 0x04, 0x02, 0x1F, 0x00, 0x00, 0x00,
   76, 80, 67, 85, 83, 66, 32, 32,
   77, 97, 115, 115, 32, 115, 116, 111,
   114, 97, 103, 101, 32, 32, 32, 32,
   48, 46, 49, 32]

/-- Table `abSense`. -/
def abSense : List Nat :=
  [0x70, 0x00, 0xFF, 0x00, 0x00, 0x00, 0x00, 0x0A,
   0x00, 0x00, 0x00, 0x00, 0xFF, 0xFF, 0x00, 0x00,
   0x00, 0x00]

/-- Modelled from the spec: the macro `MIN` of `type.h`, a header outside the
sources at hand; the response length is min(18, requested). -/
def MIN (x y : Nat) : Nat := if x < y then x else y

/-- Library call `memcpy(dst, src, n)` on buffers given by their contents. -/
def memcpy (dst src : Nat → Nat) (n : Nat) : Nat → Nat :=
  fun i => if i < n then src i else dst i

/-- Pointer arithmetic `buf + off` on a buffer given by its contents. -/
def ptrAdd (buf : Nat → Nat) (off : Nat) : Nat → Nat :=
  fun i => buf (off + i)

/-- Library call `memcpy(dst + off, src, n)`: the contents of `dst` afterwards. -/
def memcpyAt (dst : Nat → Nat) (off : Nat) (src : Nat → Nat) (n : Nat) : Nat → Nat :=
  fun i => if off ≤ i ∧ i < off + n then src (i - off) else dst i

/-- Modelled from the spec: the block-device capability behind `blockdev.h`,
which is outside the sources at hand: read-block(index)->bytes|error,
write-block(index, bytes)->ok|error, get-size()->blockCount.  `blocks b i` is
byte `i` of block `b`; `readOk` and `writeOk` tell which calls succeed;
`dwNumBlocks` is what get-size reports. -/
structure BlockDev where
  blocks : Nat → Nat → Nat
  readOk : Nat → Bool
  writeOk : Nat → Bool
  dwNumBlocks : Nat

/-- Modelled from the spec: read-block(index)->bytes|error.  The status is
negative on error; a successful read fills the 512 bytes of `pbBuf`, a failed
one leaves them. -/
def BlockDevRead (d : BlockDev) (dwAddress : Nat) (pbBuf : Nat → Nat) : Int × (Nat → Nat) :=
  if d.readOk dwAddress = true then (0, memcpy pbBuf (d.blocks dwAddress) 512)
  else (-1, pbBuf)

/-- Modelled from the spec: write-block(index, bytes)->ok|error.  The status is
negative on error; a successful write stores the 512 bytes of `pbBuf` as the
block, a failed one leaves the device as it was. -/
def BlockDevWrite (d : BlockDev) (dwAddress : Nat) (pbBuf : Nat → Nat) : Int × BlockDev :=
  if d.writeOk dwAddress = true then
    (0, { d with blocks := fun b => if b = dwAddress then memcpy (d.blocks b) pbBuf 512
                                    else d.blocks b })
  else (-1, d)

/-- One call of the block device: a read of a block, or a write of a block
with the 512 bytes handed over. -/
inductive DevOp where
  | read (dwAddress : Nat)
  | write (dwAddress : Nat) (payload : List Nat)
  deriving DecidableEq, Repr

/-- The block index a block-device call addresses. -/
def opAddress : DevOp → Nat
  | DevOp.read a => a
  | DevOp.write a _ => a

/-- The 512 bytes of a block buffer. -/
def blockBytes (buf : Nat → Nat) : List Nat := (List.range 512).map buf

/-- The static variables of `msc_scsi.c` together with the block device and the
sequence of block-device calls issued so far. -/
structure ScsiState where
  dwSense : Nat
  abBlockBuf : Nat → Nat
  dev : BlockDev
  ops : List DevOp

/-- Function `SCSIReset`. -/
def SCSIReset (s : ScsiState) : ScsiState := { s with dwSense := 0 }

/-- Modelled from the spec: the type `U32` of `type.h`, a header outside the
sources at hand, is an unsigned 32-bit integer (the LBA is a "32-bit
big-endian" field, the sense word is written as eight hex digits).  `U32 x` is
the value `x` as a `U32` holds it. -/
def U32 (x : Nat) : Nat := x % 2 ^ 32

/-- Conversion of a `U32` value to `int`. -/
def U32toInt (x : Nat) : Int := if x < 2 ^ 31 then (x : Int) else (x : Int) - 2 ^ 32

/-- Outputs of `SCSIHandleCmd`: return value, `*piRspLen`, `*pfDevIn`, and the
state afterwards. -/
structure CmdResult where
  ok : Bool
  iRspLen : Int
  fDevIn : Bool
  state : ScsiState

/-- The 32-bit big-endian LBA in bytes 2..5 of a CDB. -/
def cdbLBA (pbCDB : List Nat) : Nat :=
  U32 ((rdByte pbCDB 2 <<< 24) ||| (rdByte pbCDB 3 <<< 16) ||| (rdByte pbCDB 4 <<< 8) |||
    rdByte pbCDB 5)

/-- The 16-bit big-endian block count in bytes 7..8 of a CDB. -/
def cdbLen (pbCDB : List Nat) : Nat :=
  U32 ((rdByte pbCDB 7 <<< 8) ||| rdByte pbCDB 8)

/-- Function `SCSIHandleCmd`.  Byte 4 of the CDB is `pCDB->bLength`. -/
def SCSIHandleCmd (s : ScsiState) (pbCDB : List Nat) (_iCDBLen : Nat) : CmdResult :=
  if rdByte pbCDB 0 = 0x00 then
    { ok := true, iRspLen := 0, fDevIn := true, state := s }
  else if rdByte pbCDB 0 = 0x03 then
    { ok := true, iRspLen := (MIN 18 (rdByte pbCDB 4) : Nat), fDevIn := true, state := s }
  else if rdByte pbCDB 0 = 0x12 then
    { ok := true, iRspLen := (MIN 36 (rdByte pbCDB 4) : Nat), fDevIn := true, state := s }
  else if rdByte pbCDB 0 = 0x25 then
    { ok := true, iRspLen := 8, fDevIn := true, state := s }
  else if rdByte pbCDB 0 = 0x28 then
    { ok := true, iRspLen := U32toInt (U32 (cdbLen pbCDB * BLOCKSIZE)), fDevIn := true,
      state := s }
  else if rdByte pbCDB 0 = 0x2A then
    { ok := true, iRspLen := U32toInt (U32 (cdbLen pbCDB * BLOCKSIZE)), fDevIn := false,
      state := s }
  else
    { ok := false, iRspLen := 0, fDevIn := true,
      state := { s with dwSense := INVALID_CMD_OPCODE } }

/-- Outputs of `SCSIHandleData`: return value, the state afterwards, and the
contents of the buffer `pbData` afterwards. -/
structure DataResult where
  ok : Bool
  state : ScsiState
  pbData : Nat → Nat

/-- Function `SCSIHandleData`; `dwOffset` is a `U32` value. -/
def SCSIHandleData (s : ScsiState) (pbCDB : List Nat) (_iCDBLen : Nat) (pbData : Nat → Nat)
    (dwOffset : Nat) : DataResult :=
  if rdByte pbCDB 0 = 0x00 then
    { ok := decide (s.dwSense = 0), state := s, pbData := pbData }
  else if rdByte pbCDB 0 = 0x03 then
    { ok := true
      state := { s with dwSense := 0 }
      pbData :=
        wrByte
          (wrByte
            (wrByte (memcpy pbData (rdByte abSense) 18) 2 ((s.dwSense >>> 16) &&& 0xFF))
            12 ((s.dwSense >>> 8) &&& 0xFF))
          13 ((s.dwSense >>> 0) &&& 0xFF) }
  else if rdByte pbCDB 0 = 0x12 then
    { ok := true, state := s, pbData := memcpy pbData (rdByte abInquiry) abInquiry.length }
  else if rdByte pbCDB 0 = 0x25 then
    let dwNumBlocks := s.dev.dwNumBlocks
    let dwMaxBlock := U32 (dwNumBlocks + (2 ^ 32 - 1)) / 512
    { ok := true
      state := s
      pbData :=
        wrByte (wrByte (wrByte (wrByte (wrByte (wrByte (wrByte (wrByte pbData
          0 ((dwMaxBlock >>> 24) &&& 0xFF))
          1 ((dwMaxBlock >>> 16) &&& 0xFF))
          2 ((dwMaxBlock >>> 8) &&& 0xFF))
          3 ((dwMaxBlock >>> 0) &&& 0xFF))
          4 ((BLOCKSIZE >>> 24) &&& 0xFF))
          5 ((BLOCKSIZE >>> 16) &&& 0xFF))
          6 ((BLOCKSIZE >>> 8) &&& 0xFF))
          7 ((BLOCKSIZE >>> 0) &&& 0xFF) }
  else if rdByte pbCDB 0 = 0x28 then
    let dwLBA := cdbLBA pbCDB
    let dwBufPos := dwOffset &&& 511
    if dwBufPos = 0 then
      let dwBlockNr := U32 (dwLBA + dwOffset / 512)
      let r := BlockDevRead s.dev dwBlockNr s.abBlockBuf
      if r.1 < 0 then
        { ok := false
          state := { s with abBlockBuf := r.2, ops := s.ops ++ [DevOp.read dwBlockNr] }
          pbData := pbData }
      else
        { ok := true
          state := { s with abBlockBuf := r.2, ops := s.ops ++ [DevOp.read dwBlockNr] }
          pbData := memcpy pbData (ptrAdd r.2 dwBufPos) 64 }
    else
      { ok := true, state := s, pbData := memcpy pbData (ptrAdd s.abBlockBuf dwBufPos) 64 }
  else if rdByte pbCDB 0 = 0x2A then
    let dwLBA := cdbLBA pbCDB
    let dwBufPos := dwOffset &&& 511
    let buf := memcpyAt s.abBlockBuf dwBufPos pbData 64
    if dwBufPos = 512 - 64 then
      let dwBlockNr := U32 (dwLBA + dwOffset / 512)
      let r := BlockDevWrite s.dev dwBlockNr buf
      if r.1 < 0 then
        { ok := false
          state := { s with abBlockBuf := buf, dev := r.2,
                            ops := s.ops ++ [DevOp.write dwBlockNr (blockBytes buf)] }
          pbData := pbData }
      else
        { ok := true
          state := { s with abBlockBuf := buf, dev := r.2,
                            ops := s.ops ++ [DevOp.write dwBlockNr (blockBytes buf)] }
          pbData := pbData }
    else
      { ok := true, state := { s with abBlockBuf := buf }, pbData := pbData }
  else
    { ok := false, state := s, pbData := pbData }

/-- What one data-phase call did: its return value, the contents of the chunk
buffer afterwards, and the block-device calls issued during the call. -/
structure ChunkOutcome where
  ok : Bool
  pbData : Nat → Nat
  issued : List DevOp

/-- The data phase of one command as its caller drives it: `SCSIHandleData` is
called once per chunk, call `i` (counted from `first`) at offset `64 * i` with
the chunk buffer `chunk i`. -/
def dataPhase (pbCDB : List Nat) (iCDBLen : Nat) (chunk : Nat → Nat → Nat) :
    Nat → Nat → ScsiState → ScsiState × List ChunkOutcome
  | 0, _, s => (s, [])
  | count + 1, first, s =>
    let r := SCSIHandleData s pbCDB iCDBLen (chunk first) (64 * first)
    let rest := dataPhase pbCDB iCDBLen chunk count (first + 1) r.state
    (rest.1, { ok := r.ok, pbData := r.pbData, issued := r.state.ops.drop s.ops.length } :: rest.2)

/-! ## Endpoint activation as a walk over records -/

/-- The typed records hold the fields the activation walk reads: a
configuration record its configuration value (byte 5), an interface record its
alternate setting (byte 3), an endpoint record its address and maximum packet
size (bytes 2, 4 and 5). -/
def HasFields (r : List Nat) : Prop :=
  (recType r = DESC_CONFIGURATION → 6 ≤ r.length) ∧
  (recType r = DESC_INTERFACE → 4 ≤ r.length) ∧
  (recType r = DESC_ENDPOINT → 6 ≤ r.length)

instance (r : List Nat) : Decidable (HasFields r) :=
  inferInstanceAs (Decidable ((recType r = DESC_CONFIGURATION → 6 ≤ r.length) ∧
    (recType r = DESC_INTERFACE → 4 ≤ r.length) ∧ (recType r = DESC_ENDPOINT → 6 ≤ r.length)))

/-- The configure-endpoint call for an endpoint record: address byte 2,
maximum packet size byte 4 | byte 5 << 8. -/
def epConfigCall (r : List Nat) : HwCall :=
  HwCall.USBHwEPConfig (r.getD 2 0) (r.getD 4 0 ||| (r.getD 5 0 <<< 8))

/-- The configure-endpoint calls in the words of the specification: one call
for each endpoint record at which the most recently seen configuration record
has configuration value `k` and the most recently seen interface record has
alternate setting 0.  `lastCfg` and `lastIntf` are the most recently seen
configuration and interface records, `none` while none has been seen. -/
def claimedEndpointCalls (k : Nat) :
    List (List Nat) → Option (List Nat) → Option (List Nat) → List HwCall
  | [], _, _ => []
  | r :: rs, lastCfg, lastIntf =>
    if recType r = DESC_CONFIGURATION then claimedEndpointCalls k rs (some r) lastIntf
    else if recType r = DESC_INTERFACE then claimedEndpointCalls k rs lastCfg (some r)
    else if recType r = DESC_ENDPOINT then
      if lastCfg.map (fun c => c.getD 5 0) = some k ∧ lastIntf.map (fun i => i.getD 3 0) = some 0
      then epConfigCall r :: claimedEndpointCalls k rs lastCfg lastIntf
      else claimedEndpointCalls k rs lastCfg lastIntf
    else claimedEndpointCalls k rs lastCfg lastIntf

/-- The configure-endpoint calls with the running context of the source: the
configuration value of the most recently seen configuration record, or 0xFF
while none has been seen, and the alternate setting of the most recently seen
interface record, or 0xFF while none has been seen. -/
def activeEndpointCalls (k : Nat) :
    List (List Nat) → Option (List Nat) → Option (List Nat) → List HwCall
  | [], _, _ => []
  | r :: rs, lastCfg, lastIntf =>
    if recType r = DESC_CONFIGURATION then activeEndpointCalls k rs (some r) lastIntf
    else if recType r = DESC_INTERFACE then activeEndpointCalls k rs lastCfg (some r)
    else if recType r = DESC_ENDPOINT then
      if (lastCfg.map (fun c => c.getD 5 0)).getD 0xFF = k ∧
          (lastIntf.map (fun i => i.getD 3 0)).getD 0xFF = 0
      then epConfigCall r :: activeEndpointCalls k rs lastCfg lastIntf
      else activeEndpointCalls k rs lastCfg lastIntf
    else activeEndpointCalls k rs lastCfg lastIntf

/-! ## The custom-handler step -/

/-- No custom handler pre-empts the request: none is installed, or the
installed one returns false. -/
def NoPreempt (s : StdReq) (pSetup : TSetupPacket) (e : Env) : Prop :=
  ∀ pfn, s.pfnHandleCustomReq = some pfn → (pfn pSetup e).1 = false

/-- The environment the chapter-9 handlers start from: the one the caller
passes, after the effects of the custom handler when one is installed. -/
def afterCustom (s : StdReq) (pSetup : TSetupPacket) (e : Env) : Env :=
  match s.pfnHandleCustomReq with
  | none => e
  | some pfn => (pfn pSetup e).2

/-! ## Sample tables, states and packets -/

/-- A table with two configurations: configuration 1 with two bulk endpoints,
configuration 2 with one. -/
def sampleRecords : List (List Nat) :=
  [[9, 2, 32, 0, 1, 1, 0, 0x80, 50], [9, 4, 0, 0, 2, 8, 6, 80, 0],
   [7, 5, 0x81, 2, 64, 0, 0], [7, 5, 0x02, 2, 64, 0, 0],
   [9, 2, 25, 0, 1, 2, 0, 0x80, 50], [9, 4, 0, 0, 1, 8, 6, 80, 0],
   [7, 5, 0x81, 2, 8, 0, 0]]

/-- An interface record and an endpoint record with no configuration record
before them. -/
def strayRecords : List (List Nat) :=
  [[9, 4, 0, 0, 1, 8, 6, 80, 0], [7, 5, 0x81, 2, 64, 0, 0]]

/-- A device with the sample table registered, unconfigured, no custom handler. -/
def sampleStdReq : StdReq :=
  { bConfiguration := 0, pfnHandleCustomReq := none, pabDescrip := tableOf sampleRecords [] }

/-- An environment with a zeroed data buffer, no hardware call issued yet, and
endpoint 0x81 reporting status 2. -/
def sampleEnv : Env :=
  { iLen := 0, pbData := fun _ => 0, hwCalls := [],
    epStatus := fun bEP => if bEP = 0x81 then 2 else 0 }

/-- A custom handler that claims every request and answers with one byte 7. -/
def sampleHandler : TFnHandleRequest :=
  fun _ e => (true, { e with iLen := 1, pbData := fun _ => 7 })

/-- A standard request of the given recipient, request code, value and index. -/
def stdPacket (recip bRequest wValue wIndex : Nat) : TSetupPacket :=
  { bmRequestType := recip, bRequest := bRequest, wValue := wValue, wIndex := wIndex,
    wLength := 0 }

/-- A SCSI state with no sense condition, a zeroed block buffer, no call issued
yet, and a device of 1000 blocks whose reads and writes succeed; byte `i` of
block `b` is `(b + i) mod 256`. -/
def sampleScsi : ScsiState :=
  { dwSense := 0, abBlockBuf := fun _ => 0, ops := [],
    dev := { blocks := fun b i => (b + i) % 256, readOk := fun _ => true,
             writeOk := fun _ => true, dwNumBlocks := 1000 } }

/-! ## Streaming outcomes -/

/-- What call `i` of a READ(10) data phase at LBA `dwLBA` delivers: success,
the 64 bytes at position `64 * (i mod 8)` of block `(dwLBA + i / 8) mod 2^32` (`U32 (dwLBA + i / 8)`)
in the chunk buffer, and a block-device read of that block when `i` starts a
block, no block-device call otherwise. -/
def read10Outcome (dev : BlockDev) (dwLBA : Nat) (chunk : Nat → Nat → Nat) (i : Nat) :
    ChunkOutcome :=
  { ok := true
    pbData := memcpy (chunk i)
      (fun j => dev.blocks (U32 (dwLBA + i / 8)) (64 * (i % 8) + j)) 64
    issued := if i % 8 = 0 then [DevOp.read (U32 (dwLBA + i / 8))] else [] }

/-- The 512 bytes made of chunks `8 * j .. 8 * j + 7`, 64 bytes of each, in
order. -/
def blockOfChunks (chunk : Nat → Nat → Nat) (j : Nat) : List Nat :=
  (List.range 512).map (fun k => chunk (8 * j + k / 64) (k % 64))

/-- What call `i` of a WRITE(10) data phase at LBA `dwLBA` does: success, the
chunk buffer untouched, and a block-device write of block
`(dwLBA + i / 8) mod 2^32` (`U32 (dwLBA + i / 8)`) with the eight chunks of that block as payload when
`i` is the eighth chunk of a block, no block-device call otherwise. -/
def write10Outcome (dwLBA : Nat) (chunk : Nat → Nat → Nat) (i : Nat) : ChunkOutcome :=
  { ok := true
    pbData := chunk i
    issued := if i % 8 = 7 then
        [DevOp.write (U32 (dwLBA + i / 8)) (blockOfChunks chunk (i / 8))]
      else [] }

/-- A READ(10) CDB and a WRITE(10) CDB for 2 blocks at LBA 0xFFFFFFFF. -/
def read10LastLBA : List Nat := [0x28, 0, 0xFF, 0xFF, 0xFF, 0xFF, 0, 0, 2, 0]
def write10LastLBA : List Nat := [0x2A, 0, 0xFF, 0xFF, 0xFF, 0xFF, 0, 0, 2, 0]

/-- A SCSI state like `sampleScsi` but with the sense condition
INVALID_CMD_OPCODE outstanding. -/
def senseScsi : ScsiState := { sampleScsi with dwSense := INVALID_CMD_OPCODE }

/-- The four bytes of a 32-bit value, most significant first. -/
def bigEndian32 (x : Nat) : List Nat :=
  [x / 2 ^ 24 % 256, x / 2 ^ 16 % 256, x / 2 ^ 8 % 256, x % 256]

/-! ## Descriptor builder -/

/-- Library calls `malloc(n)` (`p = none`) and `realloc(p, n)`: the block
returned, as its `n` bytes.  The bytes of the old block are kept, as far as
they fit; every other byte is indeterminate, and `junk i` stands for what
offset `i` of the block happens to hold.  The allocation is taken to succeed. -/
def realloc (p : Option (List Nat)) (n : Nat) (junk : Nat → Nat) : List Nat :=
  (p.getD []).take n ++
    (List.range (n - (p.getD []).length)).map (fun i => junk ((p.getD []).length + i))

/-- Library call `memcpy(dst + add - sub, src, n)` into a heap block given by
its bytes: the bytes of `dst` afterwards.  What the copy would store outside
the block is outside the model and dropped. -/
def memcpyTo (dst : List Nat) (add sub : Nat) (src : List Nat) (n : Nat) : List Nat :=
  (List.range dst.length).map
    (fun i => if add ≤ i + sub ∧ i + sub < add + n then rdByte src (i + sub - add)
              else rdByte dst i)

/-- The global variables of the descriptor builder in `usbstdreq.c`.  A pointer
is `none` (NULL) or the bytes of the heap block it points to; the sizes are
`uint16_t`, the two counters `uint8_t`. -/
structure Builder where
  USBDescriptor : Option (List Nat)
  USBConfigDescriptor : Option (List Nat)
  USBInterfaceDescriptor : Option (List Nat)
  USBStringDescriptors : Option (List Nat)
  descriptorSize : Nat
  configSize : Nat
  interfaceSize : Nat
  stringSize : Nat
  configNum : Nat
  interfaceNum : Nat

/-- The builder variables with their initializers. -/
def builderInit : Builder :=
  { USBDescriptor := none, USBConfigDescriptor := none, USBInterfaceDescriptor := none,
    USBStringDescriptors := none, descriptorSize := 0, configSize := 0, interfaceSize := 0,
    stringSize := 0, configNum := 1, interfaceNum := 0 }

/-- Function `setDeviceDescriptor`; `desc` is the 18 bytes of the structure
passed by value. -/
def setDeviceDescriptor (b : Builder) (desc : List Nat) (junk : Nat → Nat) : Builder :=
  { b with
    USBDescriptor := some (((memcpyTo (realloc none 0x12 junk) 0 0 desc 0x12).set 0 0x12).set 1 0x01)
    descriptorSize := 0x12
    configNum := 1 }

/-- Function `expandDescriptor`; the parameter `size` is a `uint8_t`. -/
def expandDescriptor (b : Builder) (size : Nat) (junk : Nat → Nat) : Builder :=
  { b with
    USBDescriptor := some (realloc b.USBDescriptor (b.descriptorSize + size % 256) junk)
    descriptorSize := (b.descriptorSize + size % 256) % 65536 }

/-- Function `expandConfigDescriptor`; the parameter `size` is a `uint8_t`. -/
def expandConfigDescriptor (b : Builder) (size : Nat) (junk : Nat → Nat) : Builder :=
  { b with
    USBConfigDescriptor := some (realloc b.USBConfigDescriptor (b.configSize + size % 256) junk)
    configSize := (b.configSize + size % 256) % 65536 }

/-- Function `initConfigDescriptor`; `desc` is the 9 bytes of the structure
passed by value. -/
def initConfigDescriptor (b : Builder) (desc : List Nat) (junk : Nat → Nat) : Builder :=
  { b with
    USBConfigDescriptor := some
      (((((memcpyTo (realloc none 0x09 junk) 0 0 desc 0x09).set 0 0x09).set 1 0x02).set 4 0).set 5
        b.configNum)
    configSize := 0x09
    interfaceNum := 0
    configNum := (b.configNum + 1) % 256 }

/-- Function `finalizeConfigDescriptor`.  The two bytes of `configSize` are
copied into the total-length field least significant byte first (the target is
little-endian). -/
def finalizeConfigDescriptor (b : Builder) (junk : Nat → Nat) : Builder :=
  match b.USBConfigDescriptor with
  | none => b
  | some cfg =>
    let b1 := expandDescriptor b b.configSize junk
    let cfg1 := (cfg.set 2 (b1.configSize % 256)).set 3 (b1.configSize / 256 % 256)
    { b1 with
      USBDescriptor := some
        (memcpyTo (b1.USBDescriptor.getD []) b1.descriptorSize b1.configSize cfg1 b1.configSize)
      USBConfigDescriptor := none }

/-- Function `initInterfaceDescriptor`; `desc` is the 9 bytes of the structure
passed by value.  Without an open configuration the accesses to
`USBConfigDescriptor[4]` go through a null pointer; the load is taken as 0 and
the store is dropped. -/
def initInterfaceDescriptor (b : Builder) (desc : List Nat) (junk : Nat → Nat) : Builder :=
  { b with
    USBInterfaceDescriptor := some
      (((((memcpyTo (realloc none 0x09 junk) 0 0 desc 0x09).set 0 0x09).set 1 0x04).set 2
        (rdByte (b.USBConfigDescriptor.getD []) 4)).set 4 0)
    interfaceSize := 0x09
    USBConfigDescriptor :=
      b.USBConfigDescriptor.map (fun cfg => cfg.set 4 ((rdByte cfg 4 + 1) % 256)) }

/-- Function `finalizeInterfaceDescriptor`. -/
def finalizeInterfaceDescriptor (b : Builder) (junk : Nat → Nat) : Builder :=
  match b.USBInterfaceDescriptor with
  | none => b
  | some intf =>
    let b1 := expandConfigDescriptor b b.interfaceSize junk
    { b1 with
      USBConfigDescriptor := some
        (memcpyTo (b1.USBConfigDescriptor.getD []) b1.configSize b1.interfaceSize intf
          b1.interfaceSize)
      USBInterfaceDescriptor := none }

/-- Function `addStringDescriptor`; `string` is the bytes at the pointer passed,
`len` a `uint8_t`. -/
def addStringDescriptor (b : Builder) (string : List Nat) (len : Nat) (junk : Nat → Nat) :
    Builder :=
  { b with
    USBStringDescriptors := some
      (memcpyTo
        (((realloc b.USBStringDescriptors (b.stringSize + len % 256 + 2) junk).set b.stringSize
          (len % 256)).set (b.stringSize + 1) 0x03)
        (b.stringSize + 2) 0 string (len % 256))
    stringSize := (b.stringSize + len % 256 + 2) % 65536 }

/-- Function `setUSBDescriptor`, together with the registration it ends in:
the builder variables and the request-handler variables afterwards. -/
def setUSBDescriptor (b : Builder) (s : StdReq) (junk : Nat → Nat) : Builder × StdReq :=
  match b.USBDescriptor with
  | none => (b, s)
  | some _ =>
    let b1 :=
      match b.USBConfigDescriptor with
      | none => b
      | some cfg =>
        if ¬ ((rdByte cfg 2 + rdByte cfg 3) >>> 8 < 25 ∨ rdByte cfg 4 < 1) then
          finalizeConfigDescriptor (expandDescriptor b b.configSize junk) junk
        else b
    let b2 :=
      match b1.USBStringDescriptors with
      | none => b1
      | some str =>
        { b1 with
          USBDescriptor := some
            (memcpyTo (realloc b1.USBDescriptor (b1.descriptorSize + b1.stringSize) junk) 0 0 str
              b1.stringSize)
          USBStringDescriptors := none }
    (b2, USBRegisterDescriptors s (b2.USBDescriptor.getD []))

/-- A device descriptor as an application supplies it (USB 2.0, vendor 0xFFFF,
product 0x0005, one configuration); bytes 0 and 1 are left 0. -/
def sampleDeviceDesc : List Nat :=
  [0, 0, 0x00, 0x02, 0x00, 0x00, 0x00, 0x40, 0xFF, 0xFF, 0x05, 0x00, 0x00, 0x01, 0x01, 0x02,
   0x03, 0x01]

/-- A configuration structure and an interface structure as an application
supplies them. -/
def sampleConfigDesc : List Nat := [0, 0, 0, 0, 0, 0, 0, 0x80, 50]
def sampleInterfaceDesc : List Nat := [0, 0, 0, 0, 0, 8, 6, 80, 0]

/-- An interface record of 128 bytes: the 9-byte header and 17 endpoint records. -/
def sampleInterfaceBlock (k : Nat) : List Nat :=
  [9, 4, k, 0, 17, 8, 6, 80, 0] ++
    ((List.range 17).map (fun e => [7, 5, e + 1, 2, 64, 0, 0])).flatten

/-- A configuration staging region of 265 bytes: the 9-byte header and two
interface records of 128 bytes. -/
def sampleBigConfig : List Nat :=
  [9, 2, 0, 0, 2, 1, 0, 0x80, 50] ++ sampleInterfaceBlock 0 ++ sampleInterfaceBlock 1

/-- The builder after `setDeviceDescriptor` of the sample device descriptor. -/
def sampleBuilderDevice : Builder :=
  setDeviceDescriptor builderInit sampleDeviceDesc (fun _ => 0xAA)

/-- The builder with the 18-byte device table and the 265-byte configuration
staging region open. -/
def sampleBuilderBigConfig : Builder :=
  { sampleBuilderDevice with USBConfigDescriptor := some sampleBigConfig, configSize := 265,
                             configNum := 2 }

/-- The builder after the device descriptor, a configuration begun and an
interface begun. -/
def sampleBuilderInterface : Builder :=
  initInterfaceDescriptor
    (initConfigDescriptor sampleBuilderDevice sampleConfigDesc (fun _ => 0xAA))
    sampleInterfaceDesc (fun _ => 0xAA)

/-- The builder after the device descriptor and one string block, the language
identifier 0x0409. -/
def sampleBuilderString : Builder :=
  addStringDescriptor sampleBuilderDevice [0x09, 0x04] 2 (fun _ => 0xAA)

/-! ## Further notions for the frame properties -/

/-- Whether a hardware call is the set-endpoint-halt primitive `USBHwEPStall`. -/
def isStall : HwCall → Bool
  | HwCall.USBHwEPStall _ _ => true
  | _ => false

/-- A SCSI state like `sampleScsi` on a device whose reads and writes all fail,
with the sense word 0x052400 set before. -/
def failingScsi : ScsiState :=
  { sampleScsi with
    dwSense := INVALID_FIELD_IN_CDB
    dev := { sampleScsi.dev with readOk := fun _ => false, writeOk := fun _ => false } }

/-! ## The table scans with an iteration counter -/

/-- The `while` loop of `USBGetDescriptor` as in `getDescLoop`, with a counter
`n` of the executions of the loop body added to the result. -/
def getDescLoopCount (pabDescrip : List Nat) (bType bIndex : Nat) :
    Nat → Nat → Nat → Nat → Option (DescLookup × Nat)
  | 0, _, _, _ => none
  | fuel + 1, pab, iCurIndex, n =>
    if rdByte pabDescrip (pab + DESC_bLength) ≠ 0 then
      if rdByte pabDescrip (pab + DESC_bDescriptorType) = bType then
        if iCurIndex = bIndex then
          if bType = DESC_CONFIGURATION then
            some (.found pab
              (rdByte pabDescrip (pab + CONF_DESC_wTotalLength) |||
                (rdByte pabDescrip (pab + CONF_DESC_wTotalLength + 1) <<< 8)), n + 1)
          else
            some (.found pab (rdByte pabDescrip (pab + DESC_bLength)), n + 1)
        else
          getDescLoopCount pabDescrip bType bIndex fuel
            (pab + rdByte pabDescrip (pab + DESC_bLength)) (iCurIndex + 1) (n + 1)
      else
        getDescLoopCount pabDescrip bType bIndex fuel
          (pab + rdByte pabDescrip (pab + DESC_bLength)) iCurIndex (n + 1)
    else
      some (.notFound, n)

/-- Function `USBGetDescriptor` with the number of loop iterations. -/
def USBGetDescriptorCount (pabDescrip : List Nat) (wTypeIndex : Nat) (_wLangID : Nat) :
    Option (DescLookup × Nat) :=
  getDescLoopCount pabDescrip (GET_DESC_TYPE wTypeIndex) (GET_DESC_INDEX wTypeIndex)
    (pabDescrip.length + 1) 0 0 0

/-- The `while` loop of `USBSetConfiguration` as in `setConfLoop`, with a
counter `n` of the executions of the loop body added to the result. -/
def setConfLoopCount (pabDescrip : List Nat) (bConfigIndex bAltSetting : Nat) :
    Nat → Nat → Nat → Nat → List HwCall → Nat → Option (List HwCall × Nat)
  | 0, _, _, _, _, _ => none
  | fuel + 1, pab, bCurConfig, bCurAltSetting, hw, n =>
    if rdByte pabDescrip (pab + DESC_bLength) ≠ 0 then
      if rdByte pabDescrip (pab + DESC_bDescriptorType) = DESC_CONFIGURATION then
        setConfLoopCount pabDescrip bConfigIndex bAltSetting fuel
          (pab + rdByte pabDescrip (pab + DESC_bLength))
          (rdByte pabDescrip (pab + CONF_DESC_bConfigurationValue)) bCurAltSetting hw (n + 1)
      else if rdByte pabDescrip (pab + DESC_bDescriptorType) = DESC_INTERFACE then
        setConfLoopCount pabDescrip bConfigIndex bAltSetting fuel
          (pab + rdByte pabDescrip (pab + DESC_bLength))
          bCurConfig (rdByte pabDescrip (pab + INTF_DESC_bAlternateSetting)) hw (n + 1)
      else if rdByte pabDescrip (pab + DESC_bDescriptorType) = DESC_ENDPOINT then
        if bCurConfig = bConfigIndex ∧ bCurAltSetting = bAltSetting then
          setConfLoopCount pabDescrip bConfigIndex bAltSetting fuel
            (pab + rdByte pabDescrip (pab + DESC_bLength)) bCurConfig bCurAltSetting
            (hw ++ [HwCall.USBHwEPConfig
              (rdByte pabDescrip (pab + ENDP_DESC_bEndpointAddress))
              (rdByte pabDescrip (pab + ENDP_DESC_wMaxPacketSize) |||
                (rdByte pabDescrip (pab + ENDP_DESC_wMaxPacketSize + 1) <<< 8))]) (n + 1)
        else
          setConfLoopCount pabDescrip bConfigIndex bAltSetting fuel
            (pab + rdByte pabDescrip (pab + DESC_bLength)) bCurConfig bCurAltSetting hw (n + 1)
      else
        setConfLoopCount pabDescrip bConfigIndex bAltSetting fuel
          (pab + rdByte pabDescrip (pab + DESC_bLength)) bCurConfig bCurAltSetting hw (n + 1)
    else
      some (hw, n)

/-- Function `USBSetConfiguration` with the number of loop iterations. -/
def USBSetConfigurationCount (pabDescrip : List Nat) (bConfigIndex bAltSetting : Nat)
    (hw : List HwCall) : Option ((Bool × List HwCall) × Nat) :=
  if bConfigIndex = 0 then
    some ((true, hw ++ [HwCall.USBHwConfigDevice false]), 0)
  else
    match setConfLoopCount pabDescrip bConfigIndex bAltSetting (pabDescrip.length + 1) 0 0xFF 0xFF
        hw 0 with
    | none => none
    | some (hw1, n) => some ((true, hw1 ++ [HwCall.USBHwConfigDevice true]), n)

/-! ## The remaining builder functions -/

/-- Store `blk[add - sub] = v` into a heap block given by its bytes.  A store
before the start of the block or behind its end is outside the model and
dropped. -/
def setAt (blk : List Nat) (add sub v : Nat) : List Nat :=
  if sub ≤ add then blk.set (add - sub) v else blk

/-- Function `expandInterfaceDescriptor`; the parameter `size` is a `uint8_t`. -/
def expandInterfaceDescriptor (b : Builder) (size : Nat) (junk : Nat → Nat) : Builder :=
  { b with
    USBInterfaceDescriptor := some
      (realloc b.USBInterfaceDescriptor (b.interfaceSize + size % 256) junk)
    interfaceSize := (b.interfaceSize + size % 256) % 65536 }

/-- Function `addEndpointDescriptor`; `desc` is the 7 bytes of the structure
passed by value. -/
def addEndpointDescriptor (b : Builder) (desc : List Nat) (junk : Nat → Nat) : Builder :=
  match b.USBInterfaceDescriptor with
  | none => b
  | some _ =>
    let b1 := expandInterfaceDescriptor b 0x07 junk
    let blk1 := memcpyTo (b1.USBInterfaceDescriptor.getD []) b1.interfaceSize 0x07 desc 0x07
    let blk2 := setAt (setAt blk1 b1.interfaceSize 0x07 0x07) (b1.interfaceSize + 1) 0x07 0x05
    { b1 with USBInterfaceDescriptor := some (blk2.set 4 ((rdByte blk2 4 + 1) % 256)) }

/-- Function `addFunctionalDescriptor`; `desc` is the bytes of the structure
passed by value: `bLength`, `bDescriptorType`, then the array `data`.  For
`bLength` below 2 the count `desc.bLength-2` is negative and the copy is
outside the model; it is taken as copying nothing. -/
def addFunctionalDescriptor (b : Builder) (desc : List Nat) (junk : Nat → Nat) : Builder :=
  match b.USBInterfaceDescriptor with
  | none => b
  | some _ =>
    let b1 := expandInterfaceDescriptor b (rdByte desc 0) junk
    let blk1 := memcpyTo (b1.USBInterfaceDescriptor.getD []) (b1.interfaceSize + 2)
      (rdByte desc 0 % 256) (desc.drop 2) (rdByte desc 0 % 256 - 2)
    { b1 with
      USBInterfaceDescriptor := some
        (setAt (setAt blk1 b1.interfaceSize (rdByte desc 0 % 256) (rdByte desc 0 % 256))
          (b1.interfaceSize + 1) (rdByte desc 0 % 256) (rdByte desc 1 % 256)) }

/-- Function `addStringDescriptorChar`; `string` is the bytes at the pointer
passed, `len` a `uint8_t`.  The loop variable `i` takes the values `2 * j` for
`j` below `len`. -/
def addStringDescriptorChar (b : Builder) (string : List Nat) (len : Nat) (junk : Nat → Nat) :
    Builder :=
  { b with
    USBStringDescriptors := some
      ((List.range (len % 256)).foldl
        (fun blk j =>
          (blk.set (b.stringSize + 1 + 2 * j) (rdByte string (2 * j) % 256)).set
            (b.stringSize + 1 + 2 * j + 1) 0)
        (((realloc b.USBStringDescriptors (b.stringSize + len % 256 * 2 + 2) junk).set
          b.stringSize (len % 256 * 2 % 256)).set (b.stringSize + 1) 0x03))
    stringSize := (b.stringSize + (len % 256 * 2 + 2)) % 65536 }

/-- A call of one of the builder functions with its arguments; `junk` is what
the allocator leaves in the bytes the call allocates. -/
inductive BuilderOp where
  | setDeviceDescriptor (desc : List Nat) (junk : Nat → Nat)
  | expandDescriptor (size : Nat) (junk : Nat → Nat)
  | expandConfigDescriptor (size : Nat) (junk : Nat → Nat)
  | initConfigDescriptor (desc : List Nat) (junk : Nat → Nat)
  | finalizeConfigDescriptor (junk : Nat → Nat)
  | expandInterfaceDescriptor (size : Nat) (junk : Nat → Nat)
  | initInterfaceDescriptor (desc : List Nat) (junk : Nat → Nat)
  | finalizeInterfaceDescriptor (junk : Nat → Nat)
  | addEndpointDescriptor (desc : List Nat) (junk : Nat → Nat)
  | addFunctionalDescriptor (desc : List Nat) (junk : Nat → Nat)
  | addStringDescriptor (string : List Nat) (len : Nat) (junk : Nat → Nat)
  | addStringDescriptorChar (string : List Nat) (len : Nat) (junk : Nat → Nat)
  | setUSBDescriptor (junk : Nat → Nat)

/-- Whether a call is a call of `setDeviceDescriptor`. -/
def isSetDevice : BuilderOp → Bool
  | BuilderOp.setDeviceDescriptor _ _ => true
  | _ => false

/-- Whether a call is a call of `initConfigDescriptor`. -/
def isInitConfig : BuilderOp → Bool
  | BuilderOp.initConfigDescriptor _ _ => true
  | _ => false

/-- The builder variables and the request-handler variables after one call. -/
def runOp (st : Builder × StdReq) : BuilderOp → Builder × StdReq
  | BuilderOp.setDeviceDescriptor desc junk => (setDeviceDescriptor st.1 desc junk, st.2)
  | BuilderOp.expandDescriptor size junk => (expandDescriptor st.1 size junk, st.2)
  | BuilderOp.expandConfigDescriptor size junk => (expandConfigDescriptor st.1 size junk, st.2)
  | BuilderOp.initConfigDescriptor desc junk => (initConfigDescriptor st.1 desc junk, st.2)
  | BuilderOp.finalizeConfigDescriptor junk => (finalizeConfigDescriptor st.1 junk, st.2)
  | BuilderOp.expandInterfaceDescriptor size junk =>
    (expandInterfaceDescriptor st.1 size junk, st.2)
  | BuilderOp.initInterfaceDescriptor desc junk => (initInterfaceDescriptor st.1 desc junk, st.2)
  | BuilderOp.finalizeInterfaceDescriptor junk => (finalizeInterfaceDescriptor st.1 junk, st.2)
  | BuilderOp.addEndpointDescriptor desc junk => (addEndpointDescriptor st.1 desc junk, st.2)
  | BuilderOp.addFunctionalDescriptor desc junk => (addFunctionalDescriptor st.1 desc junk, st.2)
  | BuilderOp.addStringDescriptor string len junk =>
    (addStringDescriptor st.1 string len junk, st.2)
  | BuilderOp.addStringDescriptorChar string len junk =>
    (addStringDescriptorChar st.1 string len junk, st.2)
  | BuilderOp.setUSBDescriptor junk => setUSBDescriptor st.1 st.2 junk

/-- The variables after a sequence of calls, first call first. -/
def runOps (st : Builder × StdReq) (ops : List BuilderOp) : Builder × StdReq :=
  ops.foldl runOp st

/-- Walking a table from offset `p` by each record's length byte: the offset of
the first zero length byte met inside the table, `none` when the walk leaves
the table without meeting one. -/
def walkToTerminator (tbl : List Nat) : Nat → Nat → Option Nat
  | 0, _ => none
  | fuel + 1, p =>
    if p < tbl.length then
      if rdByte tbl p = 0 then some p
      else walkToTerminator tbl fuel (p + rdByte tbl p)
    else none

/-- A bulk IN endpoint structure as an application supplies it. -/
def sampleEndpointDesc : List Nat := [0, 0, 0x81, 0x02, 64, 0, 0]

/-- The builder after the device descriptor and one configuration begun, with
one interface with one endpoint finalized into it; the configuration is not
finalized. -/
def sampleBuilderOpenConfig : Builder :=
  finalizeInterfaceDescriptor
    (addEndpointDescriptor sampleBuilderInterface sampleEndpointDesc (fun _ => 0xAA))
    (fun _ => 0xAA)

/-- The builder after a whole device is described: the device descriptor, one
configuration with one interface with one endpoint, both finalized. -/
def sampleBuilderComplete : Builder :=
  finalizeConfigDescriptor sampleBuilderOpenConfig (fun _ => 0xAA)

/-- The builder with the configuration of `sampleBuilderOpenConfig` not
finalized, and one string block. -/
def sampleBuilderOpenString : Builder :=
  addStringDescriptor sampleBuilderOpenConfig [0x09, 0x04] 2 (fun _ => 0xAA)

/-! # Properties -/

/-! ## Loads from a table -/

theorem rdByte_append_right (l m : List Nat) (i : Nat) :
    rdByte (l ++ m) (l.length + i) = rdByte m i := by
  unfold rdByte
  rw [List.getD_append_right _ _ _ _ (Nat.le_add_right _ _)]
  simp

theorem rdByte_append_left (l m : List Nat) (i : Nat) (h : i < l.length) :
    rdByte (l ++ m) i = rdByte l i := by
  unfold rdByte
  exact List.getD_append _ _ _ _ h

theorem rdByte_of_le (l : List Nat) (i : Nat) (h : l.length ≤ i) : rdByte l i = 0 := by
  unfold rdByte
  simp [List.getElem?_eq_none h]

theorem isRecord_shape {r : List Nat} (h : IsRecord r) :
    ∃ ty tl, r = (tl.length + 2) :: ty :: tl := by
  obtain ⟨h2, hh, _⟩ := h
  match r, h2, hh with
  | a :: ty :: tl, _, hh =>
    refine ⟨ty, tl, ?_⟩
    simp only [List.head?_cons, Option.some.injEq, List.length_cons] at hh
    rw [hh]

theorem isRecord_len_pos {r : List Nat} (h : IsRecord r) : r.length ≠ 0 := by
  have := h.1
  omega

/-- Length byte of the record that starts at the end of `pfx`. -/
theorem rdByte_record_len (pfx r tl : List Nat) (h : IsRecord r) :
    rdByte (pfx ++ (r ++ tl)) pfx.length = r.length := by
  have := rdByte_append_right pfx (r ++ tl) 0
  rw [Nat.add_zero] at this
  rw [this]
  obtain ⟨ty, rl, hr⟩ := isRecord_shape h
  rw [hr]
  simp [rdByte]

/-- Byte `k` of the record that starts at the end of `pfx`. -/
theorem rdByte_record (pfx r tl : List Nat) (k : Nat) (hk : k < r.length) :
    rdByte (pfx ++ (r ++ tl)) (pfx.length + k) = r.getD k 0 := by
  rw [rdByte_append_right, rdByte_append_left _ _ _ hk]
  rfl

theorem rdByte_record_type (pfx r tl : List Nat) (h : IsRecord r) :
    rdByte (pfx ++ (r ++ tl)) (pfx.length + 1) = recType r :=
  rdByte_record pfx r tl 1 h.1

/-- Length byte at the terminator. -/
theorem rdByte_terminator (pfx rest : List Nat) :
    rdByte (pfx ++ 0 :: rest) pfx.length = 0 := by
  have := rdByte_append_right pfx (0 :: rest) 0
  rw [Nat.add_zero] at this
  rw [this]
  rfl

theorem length_le_flatten_length (rs : List (List Nat)) (h : ∀ r ∈ rs, IsRecord r) :
    rs.length ≤ rs.flatten.length := by
  induction rs with
  | nil => simp
  | cons r rs ih =>
    have h1 := (h r (List.mem_cons_self _ _)).1
    have h2 := ih (fun x hx => h x (List.mem_cons_of_mem _ hx))
    simp only [List.length_cons, List.flatten_cons, List.length_append]
    omega

/-! ## Decoding of the type/index word -/

theorem shl8_or (T N : Nat) (hN : N < 256) : T <<< 8 ||| N = 256 * T + N := by
  rw [Nat.shiftLeft_eq, Nat.mul_comm]
  exact (Nat.mul_add_lt_is_or (i := 8) (by simpa using hN) T).symm

theorem and_FF (x : Nat) : x &&& 0xFF = x % 256 :=
  Nat.and_pow_two_sub_one_eq_mod x 8

theorem GET_DESC_TYPE_mk (T N : Nat) (hT : T < 256) (hN : N < 256) :
    GET_DESC_TYPE (T <<< 8 ||| N) = T := by
  unfold GET_DESC_TYPE
  rw [shl8_or T N hN, and_FF, Nat.shiftRight_eq_div_pow]
  omega

theorem GET_DESC_INDEX_mk (T N : Nat) (hN : N < 256) :
    GET_DESC_INDEX (T <<< 8 ||| N) = N := by
  unfold GET_DESC_INDEX
  rw [shl8_or T N hN, and_FF]
  omega

/-! ## The lookup loop on a chain of records -/

/-- One iteration of the lookup loop at the start of a record. -/
theorem getDescLoop_record (pfx r tl : List Nat) (T N fuel i : Nat) (h : IsRecord r) :
    getDescLoop (pfx ++ (r ++ tl)) T N (fuel + 1) pfx.length i =
      if recType r = T then
        if i = N then
          if T = DESC_CONFIGURATION then
            some (.found pfx.length
              (rdByte (pfx ++ (r ++ tl)) (pfx.length + 2) |||
                (rdByte (pfx ++ (r ++ tl)) (pfx.length + 2 + 1) <<< 8)))
          else some (.found pfx.length r.length)
        else getDescLoop (pfx ++ (r ++ tl)) T N fuel (pfx.length + r.length) (i + 1)
      else getDescLoop (pfx ++ (r ++ tl)) T N fuel (pfx.length + r.length) i := by
  rw [getDescLoop]
  simp only [DESC_bLength, DESC_bDescriptorType, CONF_DESC_wTotalLength, Nat.add_zero]
  rw [rdByte_record_len pfx r tl h, rdByte_record_type pfx r tl h]
  simp only [ne_eq, isRecord_len_pos h, not_false_eq_true, if_true]

/-- The scan over records none of which reaches the requested index ends at
the terminator with "not found". -/
theorem getDescLoop_notFound (T N : Nat) (rest : List Nat) :
    ∀ (rs : List (List Nat)) (pfx : List Nat) (fuel i : Nat),
      (∀ r ∈ rs, IsRecord r) → rs.length < fuel →
      i + rs.countP (fun r => decide (recType r = T)) ≤ N →
      getDescLoop (pfx ++ (rs.flatten ++ 0 :: rest)) T N fuel pfx.length i
        = some .notFound := by
  intro rs
  induction rs with
  | nil =>
    intro pfx fuel i _ hf _
    obtain ⟨f, rfl⟩ : ∃ f, fuel = f + 1 := ⟨fuel - 1, by simp at hf; omega⟩
    rw [getDescLoop]
    simp only [List.flatten_nil, List.nil_append, DESC_bLength, Nat.add_zero]
    rw [rdByte_terminator]
    simp
  | cons r rs ih =>
    intro pfx fuel i hrec hf hcnt
    obtain ⟨f, rfl⟩ : ∃ f, fuel = f + 1 := ⟨fuel - 1, by simp at hf; omega⟩
    have hr := hrec r (List.mem_cons_self _ _)
    have hrs : ∀ x ∈ rs, IsRecord x := fun x hx => hrec x (List.mem_cons_of_mem _ hx)
    have hf2 : rs.length < f := by simp at hf; omega
    rw [List.flatten_cons, List.append_assoc, getDescLoop_record pfx r _ T N f i hr]
    have e : pfx ++ (r ++ (rs.flatten ++ 0 :: rest)) = (pfx ++ r) ++ (rs.flatten ++ 0 :: rest) := by
      simp
    have el : pfx.length + r.length = (pfx ++ r).length := by simp
    rw [List.countP_cons] at hcnt
    by_cases ht : recType r = T
    · simp only [ht, decide_True, if_true] at hcnt ⊢
      have hne : i ≠ N := by omega
      rw [if_neg hne, e, el]
      exact ih (pfx ++ r) f (i + 1) hrs hf2 (by omega)
    · simp only [ht, decide_False, if_false] at hcnt ⊢
      rw [e, el]
      exact ih (pfx ++ r) f i hrs hf2 (by simpa using hcnt)

/-- The scan stops at the record that has exactly `N - i` records of the
requested type before it, with the data pointer at the start of that record. -/
theorem getDescLoop_found (T N : Nat) (r : List Nat) (post : List (List Nat)) (rest : List Nat)
    (hr : IsRecord r) (ht : recType r = T) :
    ∀ (pre : List (List Nat)) (pfx : List Nat) (fuel i : Nat),
      (∀ x ∈ pre, IsRecord x) → pre.length < fuel →
      i + pre.countP (fun x => decide (recType x = T)) = N →
      ∃ l, getDescLoop (pfx ++ ((pre ++ r :: post).flatten ++ 0 :: rest)) T N fuel pfx.length i
        = some (.found (pfx.length + pre.flatten.length) l) := by
  intro pre
  induction pre with
  | nil =>
    intro pfx fuel i _ hf hcnt
    obtain ⟨f, rfl⟩ : ∃ f, fuel = f + 1 := ⟨fuel - 1, by simp at hf; omega⟩
    simp only [List.countP_nil, Nat.add_zero] at hcnt
    simp only [List.nil_append, List.flatten_cons, List.append_assoc, List.flatten_nil,
      List.length_nil, Nat.add_zero]
    rw [getDescLoop_record pfx r _ T N f i hr, if_pos ht, if_pos hcnt]
    split
    · exact ⟨_, rfl⟩
    · exact ⟨_, rfl⟩
  | cons r0 pre ih =>
    intro pfx fuel i hrec hf hcnt
    obtain ⟨f, rfl⟩ : ∃ f, fuel = f + 1 := ⟨fuel - 1, by simp at hf; omega⟩
    have hr0 := hrec r0 (List.mem_cons_self _ _)
    have hpre : ∀ x ∈ pre, IsRecord x := fun x hx => hrec x (List.mem_cons_of_mem _ hx)
    have hf2 : pre.length < f := by simp at hf; omega
    rw [List.cons_append, List.flatten_cons, List.append_assoc,
      getDescLoop_record pfx r0 _ T N f i hr0]
    have e : pfx ++ (r0 ++ ((pre ++ r :: post).flatten ++ 0 :: rest))
        = (pfx ++ r0) ++ ((pre ++ r :: post).flatten ++ 0 :: rest) := by simp
    have el : pfx.length + r0.length = (pfx ++ r0).length := by simp
    have ep : pfx.length + (r0 :: pre).flatten.length
        = (pfx ++ r0).length + pre.flatten.length := by
      simp only [List.flatten_cons, List.length_append]; omega
    rw [List.countP_cons] at hcnt
    rw [ep]
    by_cases ht0 : recType r0 = T
    · simp only [ht0, decide_True, if_true] at hcnt ⊢
      have hne : i ≠ N := by omega
      rw [if_neg hne, e, el]
      exact ih (pfx ++ r0) f (i + 1) hpre hf2 (by omega)
    · simp only [ht0, decide_False, if_false] at hcnt ⊢
      rw [e, el]
      exact ih (pfx ++ r0) f i hpre hf2 (by simpa using hcnt)

/-- A list with more than `N` elements satisfying `p` splits at the one that
has exactly `N` such elements before it. -/
theorem exists_split_of_lt_countP {α : Type} (p : α → Bool) :
    ∀ (l : List α) (N : Nat), N < l.countP p →
      ∃ pre x post, l = pre ++ x :: post ∧ p x = true ∧ pre.countP p = N := by
  intro l
  induction l with
  | nil => intro N h; simp at h
  | cons a l ih =>
    intro N h
    rw [List.countP_cons] at h
    by_cases hp : p a = true
    · simp only [hp, if_true] at h
      cases N with
      | zero => exact ⟨[], a, l, rfl, hp, rfl⟩
      | succ M =>
        obtain ⟨pre, x, post, rfl, hx, hc⟩ := ih M (by omega)
        refine ⟨a :: pre, x, post, rfl, hx, ?_⟩
        rw [List.countP_cons, hc]; simp [hp]
    · simp only [hp] at h
      obtain ⟨pre, x, post, rfl, hx, hc⟩ := ih N (by simpa using h)
      refine ⟨a :: pre, x, post, rfl, hx, ?_⟩
      rw [List.countP_cons, hc]; simp [hp]

/-- The lookup loop never runs out of fuel when the fuel covers the bytes
that are left: every iteration that continues advances by a nonzero length
byte, and a load behind the last byte yields 0. -/
theorem getDescLoop_ne_none (tbl : List Nat) (T N : Nat) :
    ∀ (fuel p i : Nat), tbl.length ≤ fuel + p →
      getDescLoop tbl T N (fuel + 1) p i ≠ none := by
  intro fuel
  induction fuel with
  | zero =>
    intro p i h
    rw [getDescLoop]
    simp only [DESC_bLength, Nat.add_zero]
    rw [rdByte_of_le tbl p (by omega)]
    simp
  | succ f ih =>
    intro p i h
    rw [getDescLoop]
    simp only [DESC_bLength, Nat.add_zero]
    by_cases h0 : rdByte tbl p = 0
    · simp [h0]
    · have hp : p < tbl.length := by
        by_contra hc
        exact h0 (rdByte_of_le tbl p (by omega))
      have hnext : tbl.length ≤ f + (p + rdByte tbl p) := by omega
      simp only [ne_eq, h0, not_false_eq_true, if_true]
      split
      · split
        · split <;> simp
        · exact ih _ _ hnext
      · exact ih _ _ hnext

/-- With the fuel `USBGetDescriptor` supplies, the lookup returns on every
table. -/
theorem USBGetDescriptor_ne_none (tbl : List Nat) (w lang : Nat) :
    USBGetDescriptor tbl w lang ≠ none :=
  getDescLoop_ne_none tbl _ _ tbl.length 0 0 (by omega)

/-- Where the lookup loop stops with a match, the record there has the
requested type and the length is read as the type demands. -/
theorem getDescLoop_found_len (tbl : List Nat) (T N : Nat) :
    ∀ (fuel p i q l : Nat), getDescLoop tbl T N fuel p i = some (.found q l) →
      rdByte tbl (q + 1) = T ∧
      l = if T = DESC_CONFIGURATION then rdByte tbl (q + 2) ||| (rdByte tbl (q + 3) <<< 8)
          else rdByte tbl q := by
  intro fuel
  induction fuel with
  | zero => intro p i q l h; simp [getDescLoop] at h
  | succ f ih =>
    intro p i q l h
    rw [getDescLoop] at h
    simp only [DESC_bLength, DESC_bDescriptorType, CONF_DESC_wTotalLength, Nat.add_zero] at h
    split at h
    · split at h
      · rename_i hty
        split at h
        · split at h
          · rename_i hc
            simp only [Option.some.injEq, DescLookup.found.injEq] at h
            obtain ⟨rfl, rfl⟩ := h
            exact ⟨hty, by rw [if_pos hc]⟩
          · rename_i hc
            simp only [Option.some.injEq, DescLookup.found.injEq] at h
            obtain ⟨rfl, rfl⟩ := h
            exact ⟨hty, by rw [if_neg hc]⟩
        · exact ih _ _ _ _ h
      · exact ih _ _ _ _ h
    · simp at h

/-- C1. On a table that is a chain of records closed by a zero length byte, the
lookup for type `T` and index `N` succeeds exactly when the chain holds more
than `N` records of type `T`; when the chain splits as `pre ++ r :: post` with
`r` of type `T` and exactly `N` records of type `T` in `pre`, the data pointer
returned is the start of `r` (the offset `pre.flatten.length`); and otherwise
the lookup returns false. -/
theorem USBGetDescriptor_nth_of_type (rs : List (List Nat)) (rest : List Nat)
    (T N wLangID : Nat) (hrs : ∀ r ∈ rs, IsRecord r) (hT : T < 256) (hN : N < 256) :
    ((∃ p l, USBGetDescriptor (tableOf rs rest) (T <<< 8 ||| N) wLangID
          = some (DescLookup.found p l)) ↔
        N < rs.countP (fun r => decide (recType r = T))) ∧
    (∀ pre r post, rs = pre ++ r :: post → recType r = T →
        pre.countP (fun x => decide (recType x = T)) = N →
        ∃ l, USBGetDescriptor (tableOf rs rest) (T <<< 8 ||| N) wLangID
          = some (DescLookup.found pre.flatten.length l)) ∧
    (¬ N < rs.countP (fun r => decide (recType r = T)) →
        USBGetDescriptor (tableOf rs rest) (T <<< 8 ||| N) wLangID
          = some DescLookup.notFound) := by
  have hfuel : rs.length < (tableOf rs rest).length + 1 := by
    have := length_le_flatten_length rs hrs
    simp only [tableOf, List.length_append, List.length_cons]
    omega
  have hnf : ¬ N < rs.countP (fun r => decide (recType r = T)) →
      USBGetDescriptor (tableOf rs rest) (T <<< 8 ||| N) wLangID = some DescLookup.notFound := by
    intro hlt
    unfold USBGetDescriptor
    rw [GET_DESC_TYPE_mk T N hT hN, GET_DESC_INDEX_mk T N hN]
    have := getDescLoop_notFound T N rest rs [] ((tableOf rs rest).length + 1) 0 hrs hfuel
      (by omega)
    simpa [tableOf] using this
  have hf : ∀ pre r post, rs = pre ++ r :: post → recType r = T →
      pre.countP (fun x => decide (recType x = T)) = N →
      ∃ l, USBGetDescriptor (tableOf rs rest) (T <<< 8 ||| N) wLangID
        = some (DescLookup.found pre.flatten.length l) := by
    intro pre r post hsplit ht hc
    unfold USBGetDescriptor
    rw [GET_DESC_TYPE_mk T N hT hN, GET_DESC_INDEX_mk T N hN]
    subst hsplit
    have hr : IsRecord r := hrs r (by simp)
    have hpre : ∀ x ∈ pre, IsRecord x := fun x hx => hrs x (by simp [hx])
    have hpl : pre.length < (tableOf (pre ++ r :: post) rest).length + 1 := by
      simp only [List.length_append, List.length_cons] at hfuel
      omega
    obtain ⟨l, hl⟩ := getDescLoop_found T N r post rest hr ht pre [] _ 0 hpre hpl (by omega)
    exact ⟨l, by simpa [tableOf] using hl⟩
  refine ⟨⟨?_, ?_⟩, hf, hnf⟩
  · rintro ⟨p, l, h⟩
    by_contra hlt
    rw [hnf hlt] at h
    simp at h
  · intro hlt
    obtain ⟨pre, r, post, hsplit, hx, hc⟩ := exists_split_of_lt_countP _ rs N hlt
    obtain ⟨l, hl⟩ := hf pre r post hsplit (by simpa using hx) hc
    exact ⟨_, l, hl⟩

/-- A table with a device record, two interface records and an endpoint record:
the lookup for interface index 1 returns the start of the second interface
record, offset 9. -/
theorem USBGetDescriptor_nth_of_type_witness :
    (∀ r ∈ [[2, 1], [4, 4, 0, 0], [3, 5, 9], [4, 4, 1, 0]], IsRecord r) ∧ 4 < 256 ∧ 1 < 256 ∧
    ∃ l, USBGetDescriptor (tableOf [[2, 1], [4, 4, 0, 0], [3, 5, 9], [4, 4, 1, 0]] [])
        (4 <<< 8 ||| 1) 0 = some (DescLookup.found 9 l) :=
  ⟨by decide, by decide, by decide,
    (USBGetDescriptor_nth_of_type [[2, 1], [4, 4, 0, 0], [3, 5, 9], [4, 4, 1, 0]] [] 4 1 0
      (by decide) (by decide) (by decide)).2.1 [[2, 1], [4, 4, 0, 0], [3, 5, 9]] [4, 4, 1, 0] []
      rfl rfl rfl⟩

/-- C2. Every successful lookup stops at a record of the requested type and
returns as length, for the type CONFIGURATION (2), the 16-bit little-endian
total-length field at offsets 2 and 3 of that record, and for every other type
byte 0 of that record. -/
theorem USBGetDescriptor_length (pabDescrip : List Nat) (wTypeIndex wLangID p l : Nat)
    (h : USBGetDescriptor pabDescrip wTypeIndex wLangID = some (DescLookup.found p l)) :
    rdByte pabDescrip (p + 1) = GET_DESC_TYPE wTypeIndex ∧
    l = if GET_DESC_TYPE wTypeIndex = 2 then
          rdByte pabDescrip (p + 2) ||| (rdByte pabDescrip (p + 3) <<< 8)
        else rdByte pabDescrip (p + 0) :=
  getDescLoop_found_len pabDescrip _ _ _ 0 0 p l h

/-- A device record followed by a configuration record (total length 0x0120)
and an interface record: the configuration lookup returns 0x0120, not the
record length 9. -/
theorem USBGetDescriptor_length_witness :
    USBGetDescriptor [2, 1, 9, 2, 0x20, 0x01, 1, 1, 0, 0x80, 50, 9, 4, 0, 0, 0, 8, 6, 80, 0, 0]
        0x0200 0 = some (DescLookup.found 2 0x0120) ∧
    (rdByte [2, 1, 9, 2, 0x20, 0x01, 1, 1, 0, 0x80, 50, 9, 4, 0, 0, 0, 8, 6, 80, 0, 0] (2 + 1)
        = GET_DESC_TYPE 0x0200 ∧
      0x0120 = if GET_DESC_TYPE 0x0200 = 2 then
          rdByte [2, 1, 9, 2, 0x20, 0x01, 1, 1, 0, 0x80, 50, 9, 4, 0, 0, 0, 8, 6, 80, 0, 0] (2 + 2)
            ||| (rdByte [2, 1, 9, 2, 0x20, 0x01, 1, 1, 0, 0x80, 50, 9, 4, 0, 0, 0, 8, 6, 80, 0, 0]
              (2 + 3) <<< 8)
        else rdByte [2, 1, 9, 2, 0x20, 0x01, 1, 1, 0, 0x80, 50, 9, 4, 0, 0, 0, 8, 6, 80, 0, 0]
          (2 + 0)) :=
  ⟨by decide,
    USBGetDescriptor_length
      [2, 1, 9, 2, 0x20, 0x01, 1, 1, 0, 0x80, 50, 9, 4, 0, 0, 0, 8, 6, 80, 0, 0] 0x0200 0 2 0x0120
      (by decide)⟩

/-! ## Endpoint activation -/

/-- The activation loop never runs out of fuel when the fuel covers the bytes
that are left. -/
theorem setConfLoop_ne_none (tbl : List Nat) (k alt : Nat) :
    ∀ (fuel p c a : Nat) (hw : List HwCall), tbl.length ≤ fuel + p →
      setConfLoop tbl k alt (fuel + 1) p c a hw ≠ none := by
  intro fuel
  induction fuel with
  | zero =>
    intro p c a hw h
    rw [setConfLoop]
    simp only [DESC_bLength, Nat.add_zero]
    rw [rdByte_of_le tbl p (by omega)]
    simp
  | succ f ih =>
    intro p c a hw h
    rw [setConfLoop]
    simp only [DESC_bLength, Nat.add_zero]
    by_cases h0 : rdByte tbl p = 0
    · simp [h0]
    · have hp : p < tbl.length := by
        by_contra hc
        exact h0 (rdByte_of_le tbl p (by omega))
      have hnext : tbl.length ≤ f + (p + rdByte tbl p) := by omega
      simp only [ne_eq, h0, not_false_eq_true, if_true]
      split
      · exact ih _ _ _ _ hnext
      · split
        · exact ih _ _ _ _ hnext
        · split
          · split
            · exact ih _ _ _ _ hnext
            · exact ih _ _ _ _ hnext
          · exact ih _ _ _ _ hnext

/-- Function `USBSetConfiguration` returns on every table, and returns true. -/
theorem USBSetConfiguration_returns (tbl : List Nat) (k alt : Nat) (hw : List HwCall) :
    ∃ hw1, USBSetConfiguration tbl k alt hw = some (true, hw1) := by
  unfold USBSetConfiguration
  split
  · exact ⟨_, rfl⟩
  · have := setConfLoop_ne_none tbl k alt tbl.length 0 0xFF 0xFF hw (by omega)
    cases hl : setConfLoop tbl k alt (tbl.length + 1) 0 0xFF 0xFF hw with
    | none => exact absurd hl this
    | some hw1 => exact ⟨_, rfl⟩

/-- One iteration of the activation loop at the start of a record. -/
theorem setConfLoop_record (pfx r tl : List Nat) (k fuel : Nat)
    (lastCfg lastIntf : Option (List Nat)) (hw : List HwCall)
    (h : IsRecord r) (hfl : HasFields r) :
    setConfLoop (pfx ++ (r ++ tl)) k 0 (fuel + 1) pfx.length
        ((lastCfg.map (fun c => c.getD 5 0)).getD 0xFF)
        ((lastIntf.map (fun i => i.getD 3 0)).getD 0xFF) hw =
      if recType r = DESC_CONFIGURATION then
        setConfLoop (pfx ++ (r ++ tl)) k 0 fuel (pfx.length + r.length)
          (((some r).map (fun c => c.getD 5 0)).getD 0xFF)
          ((lastIntf.map (fun i => i.getD 3 0)).getD 0xFF) hw
      else if recType r = DESC_INTERFACE then
        setConfLoop (pfx ++ (r ++ tl)) k 0 fuel (pfx.length + r.length)
          ((lastCfg.map (fun c => c.getD 5 0)).getD 0xFF)
          (((some r).map (fun i => i.getD 3 0)).getD 0xFF) hw
      else if recType r = DESC_ENDPOINT then
        if (lastCfg.map (fun c => c.getD 5 0)).getD 0xFF = k ∧
            (lastIntf.map (fun i => i.getD 3 0)).getD 0xFF = 0 then
          setConfLoop (pfx ++ (r ++ tl)) k 0 fuel (pfx.length + r.length)
            ((lastCfg.map (fun c => c.getD 5 0)).getD 0xFF)
            ((lastIntf.map (fun i => i.getD 3 0)).getD 0xFF) (hw ++ [epConfigCall r])
        else
          setConfLoop (pfx ++ (r ++ tl)) k 0 fuel (pfx.length + r.length)
            ((lastCfg.map (fun c => c.getD 5 0)).getD 0xFF)
            ((lastIntf.map (fun i => i.getD 3 0)).getD 0xFF) hw
      else
        setConfLoop (pfx ++ (r ++ tl)) k 0 fuel (pfx.length + r.length)
          ((lastCfg.map (fun c => c.getD 5 0)).getD 0xFF)
          ((lastIntf.map (fun i => i.getD 3 0)).getD 0xFF) hw := by
  rw [setConfLoop]
  simp only [DESC_bLength, DESC_bDescriptorType, CONF_DESC_bConfigurationValue,
    INTF_DESC_bAlternateSetting, ENDP_DESC_bEndpointAddress, ENDP_DESC_wMaxPacketSize,
    Nat.add_zero]
  rw [rdByte_record_len pfx r tl h, rdByte_record_type pfx r tl h]
  simp only [ne_eq, isRecord_len_pos h, not_false_eq_true, if_true]
  by_cases h2 : recType r = DESC_CONFIGURATION
  · have := hfl.1 h2
    rw [if_pos h2, if_pos h2, rdByte_record pfx r tl 5 (by omega)]
    rfl
  · rw [if_neg h2, if_neg h2]
    by_cases h4 : recType r = DESC_INTERFACE
    · have := hfl.2.1 h4
      rw [if_pos h4, if_pos h4, rdByte_record pfx r tl 3 (by omega)]
      rfl
    · rw [if_neg h4, if_neg h4]
      by_cases h5 : recType r = DESC_ENDPOINT
      · have := hfl.2.2 h5
        rw [if_pos h5, if_pos h5, rdByte_record pfx r tl 2 (by omega),
          rdByte_record pfx r tl 4 (by omega), rdByte_record pfx r tl 5 (by omega)]
        rfl
      · rw [if_neg h5, if_neg h5]

/-- The activation loop over a chain of records issues the calls of
`activeEndpointCalls`, in table order, behind those issued before. -/
theorem setConfLoop_records (k : Nat) (rest : List Nat) :
    ∀ (rs : List (List Nat)) (pfx : List Nat) (fuel : Nat)
      (lastCfg lastIntf : Option (List Nat)) (hw : List HwCall),
      (∀ r ∈ rs, IsRecord r) → (∀ r ∈ rs, HasFields r) → rs.length < fuel →
      setConfLoop (pfx ++ (rs.flatten ++ 0 :: rest)) k 0 fuel pfx.length
          ((lastCfg.map (fun c => c.getD 5 0)).getD 0xFF)
          ((lastIntf.map (fun i => i.getD 3 0)).getD 0xFF) hw
        = some (hw ++ activeEndpointCalls k rs lastCfg lastIntf) := by
  intro rs
  induction rs with
  | nil =>
    intro pfx fuel lastCfg lastIntf hw _ _ hf
    obtain ⟨f, rfl⟩ : ∃ f, fuel = f + 1 := ⟨fuel - 1, by simp at hf; omega⟩
    rw [setConfLoop]
    simp only [List.flatten_nil, List.nil_append, DESC_bLength, Nat.add_zero]
    rw [rdByte_terminator]
    simp [activeEndpointCalls]
  | cons r rs ih =>
    intro pfx fuel lastCfg lastIntf hw hrec hfld hf
    obtain ⟨f, rfl⟩ : ∃ f, fuel = f + 1 := ⟨fuel - 1, by simp at hf; omega⟩
    have hr := hrec r (List.mem_cons_self _ _)
    have hrf := hfld r (List.mem_cons_self _ _)
    have hrs : ∀ x ∈ rs, IsRecord x := fun x hx => hrec x (List.mem_cons_of_mem _ hx)
    have hrsf : ∀ x ∈ rs, HasFields x := fun x hx => hfld x (List.mem_cons_of_mem _ hx)
    have hf2 : rs.length < f := by simp at hf; omega
    rw [List.flatten_cons, List.append_assoc,
      setConfLoop_record pfx r _ k f lastCfg lastIntf hw hr hrf]
    have e : pfx ++ (r ++ (rs.flatten ++ 0 :: rest)) = (pfx ++ r) ++ (rs.flatten ++ 0 :: rest) := by
      simp
    have el : pfx.length + r.length = (pfx ++ r).length := by simp
    rw [e, el, activeEndpointCalls]
    split
    · exact ih (pfx ++ r) f (some r) lastIntf hw hrs hrsf hf2
    · split
      · exact ih (pfx ++ r) f lastCfg (some r) hw hrs hrsf hf2
      · split
        · split
          · rw [ih (pfx ++ r) f lastCfg lastIntf _ hrs hrsf hf2]
            simp
          · exact ih (pfx ++ r) f lastCfg lastIntf hw hrs hrsf hf2
        · exact ih (pfx ++ r) f lastCfg lastIntf hw hrs hrsf hf2

/-- Where the requested configuration is not 0xFF, the calls in the words of the
specification and the calls of the source agree. -/
theorem claimedEndpointCalls_eq_active (k : Nat) (hk : k ≠ 0xFF) :
    ∀ (rs : List (List Nat)) (lastCfg lastIntf : Option (List Nat)),
      claimedEndpointCalls k rs lastCfg lastIntf = activeEndpointCalls k rs lastCfg lastIntf := by
  intro rs
  induction rs with
  | nil => intro _ _; rfl
  | cons r rs ih =>
    intro lastCfg lastIntf
    rw [claimedEndpointCalls, activeEndpointCalls]
    have hc : (lastCfg.map (fun c => c.getD 5 0) = some k ∧
        lastIntf.map (fun i => i.getD 3 0) = some 0) ↔
        ((lastCfg.map (fun c => c.getD 5 0)).getD 0xFF = k ∧
          (lastIntf.map (fun i => i.getD 3 0)).getD 0xFF = 0) := by
      cases lastCfg <;> cases lastIntf <;> simp
      all_goals omega
    simp only [ih, hc]

/-- C3, as amended. On a table that is a chain of records closed by a zero
length byte, `USBSetConfiguration(k, 0)` returns true and issues, for `k = 0`,
exactly configure-device(false); for `k ≠ 0`, one configure-endpoint(byte 2,
byte 4 | byte 5 << 8) call for each endpoint record, in table order, at which
the configuration context equals `k` and the alternate-setting context equals
0, followed by exactly one configure-device(true).  The configuration context
is the configuration value of the most recently seen configuration record, or
0xFF while none has been seen; the alternate-setting context is the alternate
setting of the most recently seen interface record, or 0xFF while none has
been seen. -/
theorem USBSetConfiguration_calls (rs : List (List Nat)) (rest : List Nat) (k : Nat)
    (hw : List HwCall) (hrs : ∀ r ∈ rs, IsRecord r) (hfl : ∀ r ∈ rs, HasFields r) :
    USBSetConfiguration (tableOf rs rest) k 0 hw =
      some (true,
        if k = 0 then hw ++ [HwCall.USBHwConfigDevice false]
        else hw ++ activeEndpointCalls k rs none none ++ [HwCall.USBHwConfigDevice true]) := by
  unfold USBSetConfiguration
  by_cases hk : k = 0
  · simp [hk]
  · rw [if_neg hk, if_neg hk]
    have hfuel : rs.length < (tableOf rs rest).length + 1 := by
      have := length_le_flatten_length rs hrs
      simp only [tableOf, List.length_append, List.length_cons]
      omega
    have := setConfLoop_records k rest rs [] ((tableOf rs rest).length + 1) none none hw
      hrs hfl hfuel
    simp only [List.nil_append, List.length_nil, Option.map_none', Option.getD_none] at this
    rw [tableOf] at this ⊢
    rw [this]

/-- Selecting configuration 2 of the sample table configures its one endpoint
(0x81, packet size 8) and none of configuration 1. -/
theorem USBSetConfiguration_calls_witness :
    (∀ r ∈ sampleRecords, IsRecord r) ∧ (∀ r ∈ sampleRecords, HasFields r) ∧
    USBSetConfiguration (tableOf sampleRecords []) 2 0 [] =
      some (true, [HwCall.USBHwEPConfig 0x81 8, HwCall.USBHwConfigDevice true]) :=
  ⟨by decide, by decide,
    (USBSetConfiguration_calls sampleRecords [] 2 [] (by decide) (by decide)).trans (by decide)⟩

/-- C3, as stated, fails for `k = 0xFF`: on a well-formed table whose endpoint
record comes before any configuration record, the source configures that
endpoint, although no configuration record with value 0xFF has been seen. -/
theorem USBSetConfiguration_claimed_counterexample :
    (∀ r ∈ strayRecords, IsRecord r ∧ HasFields r) ∧
    claimedEndpointCalls 0xFF strayRecords none none = [] ∧
    USBSetConfiguration (tableOf strayRecords []) 0xFF 0 [] =
      some (true, [HwCall.USBHwEPConfig 0x81 64, HwCall.USBHwConfigDevice true]) ∧
    USBSetConfiguration (tableOf strayRecords []) 0xFF 0 [] ≠
      some (true, claimedEndpointCalls 0xFF strayRecords none none
        ++ [HwCall.USBHwConfigDevice true]) := by
  decide

/-! ## The dispatcher -/

/-- Without a pre-empting custom handler the request goes to the recipient
switch, in the environment the custom step leaves. -/
theorem USBHandleStandardRequest_of_noPreempt (EP : Nat) (s : StdReq) (pSetup : TSetupPacket)
    (e : Env) (h : NoPreempt s pSetup e) :
    USBHandleStandardRequest EP s pSetup e = dispatchStd EP s pSetup (afterCustom s pSetup e) := by
  unfold USBHandleStandardRequest afterCustom
  cases hp : s.pfnHandleCustomReq with
  | none => rfl
  | some pfn =>
    have := h pfn hp
    simp [this]

/-- SET_CONFIGURATION at the device handler: true, the index committed. -/
theorem HandleStdDeviceReq_setConfiguration (s : StdReq) (pSetup : TSetupPacket) (e : Env)
    (h : pSetup.bRequest = REQ_SET_CONFIGURATION) :
    ∃ hw, HandleStdDeviceReq s pSetup e =
      some (true, { s with bConfiguration := pSetup.wValue &&& 0xFF }, { e with hwCalls := hw }) := by
  obtain ⟨hw, hhw⟩ := USBSetConfiguration_returns s.pabDescrip (pSetup.wValue &&& 0xFF) 0 e.hwCalls
  refine ⟨hw, ?_⟩
  unfold HandleStdDeviceReq
  simp only [h, hhw]
  simp

/-- GET_CONFIGURATION at the device handler: one byte, the active index. -/
theorem HandleStdDeviceReq_getConfiguration (s : StdReq) (pSetup : TSetupPacket) (e : Env)
    (h : pSetup.bRequest = REQ_GET_CONFIGURATION) :
    HandleStdDeviceReq s pSetup e =
      some (true, s, { e with pbData := wrByte e.pbData 0 s.bConfiguration, iLen := 1 }) := by
  unfold HandleStdDeviceReq
  simp [h]

/-- C4. With no pre-empting custom handler, a device-recipient
SET_CONFIGURATION request succeeds for every value (so for value 0 and for
every configuration value present in the table), and a GET_CONFIGURATION
request that follows succeeds with length 1 and data byte equal to the low 8
bits of the value set; after value 0 that byte is 0. -/
theorem setConfiguration_then_getConfiguration (EP : Nat) (s : StdReq)
    (pSet pGet : TSetupPacket) (e : Env)
    (hSetRecip : REQTYPE_GET_RECIP pSet.bmRequestType = REQTYPE_RECIP_DEVICE)
    (hSet : pSet.bRequest = REQ_SET_CONFIGURATION)
    (hSetNo : NoPreempt s pSet e)
    (hGetRecip : REQTYPE_GET_RECIP pGet.bmRequestType = REQTYPE_RECIP_DEVICE)
    (hGet : pGet.bRequest = REQ_GET_CONFIGURATION) :
    ∃ s1 e1, USBHandleStandardRequest EP s pSet e = some (true, s1, e1) ∧
      ∀ e2, NoPreempt s1 pGet e2 →
        ∃ e3, USBHandleStandardRequest EP s1 pGet e2 = some (true, s1, e3) ∧
          e3.iLen = 1 ∧ e3.pbData 0 = pSet.wValue &&& 0xFF ∧
          (pSet.wValue = 0 → e3.pbData 0 = 0) := by
  obtain ⟨hw, hhw⟩ := HandleStdDeviceReq_setConfiguration s pSet (afterCustom s pSet e) hSet
  refine ⟨{ s with bConfiguration := pSet.wValue &&& 0xFF },
    { afterCustom s pSet e with hwCalls := hw }, ?_, ?_⟩
  · rw [USBHandleStandardRequest_of_noPreempt EP s pSet e hSetNo, dispatchStd, if_pos hSetRecip]
    exact hhw
  · intro e2 hGetNo
    refine ⟨{ afterCustom { s with bConfiguration := pSet.wValue &&& 0xFF } pGet e2 with
        pbData := wrByte
          (afterCustom { s with bConfiguration := pSet.wValue &&& 0xFF } pGet e2).pbData 0
          (pSet.wValue &&& 0xFF)
        iLen := 1 }, ?_, ?_⟩
    · rw [USBHandleStandardRequest_of_noPreempt EP _ pGet e2 hGetNo, dispatchStd,
        if_pos hGetRecip]
      exact HandleStdDeviceReq_getConfiguration _ pGet _ hGet
    · refine ⟨rfl, ?_, ?_⟩
      · simp [wrByte]
      · intro h0
        simp [wrByte, h0]

/-- On the sample device: SET_CONFIGURATION(2), then GET_CONFIGURATION. -/
theorem setConfiguration_then_getConfiguration_witness :
    NoPreempt sampleStdReq (stdPacket 0 9 2 0) sampleEnv ∧
    ∃ s1 e1, USBHandleStandardRequest 2 sampleStdReq (stdPacket 0 9 2 0) sampleEnv
        = some (true, s1, e1) ∧
      ∀ e2, NoPreempt s1 (stdPacket 0x80 8 0 0) e2 →
        ∃ e3, USBHandleStandardRequest 2 s1 (stdPacket 0x80 8 0 0) e2 = some (true, s1, e3) ∧
          e3.iLen = 1 ∧ e3.pbData 0 = (stdPacket 0 9 2 0).wValue &&& 0xFF ∧
          ((stdPacket 0 9 2 0).wValue = 0 → e3.pbData 0 = 0) :=
  ⟨fun pfn h => absurd h (by simp [sampleStdReq]),
    setConfiguration_then_getConfiguration 2 sampleStdReq (stdPacket 0 9 2 0)
      (stdPacket 0x80 8 0 0) sampleEnv (by decide) rfl
      (fun pfn h => absurd h (by simp [sampleStdReq])) (by decide) rfl⟩

/-- C5. When a custom handler is installed (by `USBRegisterCustomReqHandler`)
and returns true for the request, `USBHandleStandardRequest` returns true with
the module state unchanged (the active configuration index in particular) and
the environment exactly as the handler left it: no hardware call is added, and
the length and data outputs are the handler's, whatever the recipient and
request code are. -/
theorem customHandler_preempts (EP : Nat) (s0 : StdReq) (pfn : TFnHandleRequest)
    (pSetup : TSetupPacket) (e : Env) (hok : (pfn pSetup e).1 = true) :
    USBHandleStandardRequest EP (USBRegisterCustomReqHandler s0 (some pfn)) pSetup e =
      some (true, USBRegisterCustomReqHandler s0 (some pfn), (pfn pSetup e).2) := by
  unfold USBHandleStandardRequest USBRegisterCustomReqHandler
  simp [hok]

/-- The sample handler pre-empts a SET_CONFIGURATION request: no hardware call,
the configuration index still 0, the handler's one byte as output. -/
theorem customHandler_preempts_witness :
    (sampleHandler (stdPacket 0 9 1 0) sampleEnv).1 = true ∧
    USBHandleStandardRequest 2 (USBRegisterCustomReqHandler sampleStdReq (some sampleHandler))
        (stdPacket 0 9 1 0) sampleEnv =
      some (true, USBRegisterCustomReqHandler sampleStdReq (some sampleHandler),
        (sampleHandler (stdPacket 0 9 1 0) sampleEnv).2) :=
  ⟨rfl, customHandler_preempts 2 sampleStdReq sampleHandler (stdPacket 0 9 1 0) sampleEnv rfl⟩

/-- Which device requests the device handler reports as handled. -/
theorem HandleStdDeviceReq_handled (s : StdReq) (pSetup : TSetupPacket) (e : Env) :
    ∃ r, (HandleStdDeviceReq s pSetup e).map Prod.fst = some r ∧
      (r = true ↔
        (pSetup.bRequest = REQ_GET_STATUS ∨ pSetup.bRequest = REQ_SET_ADDRESS ∨
          pSetup.bRequest = REQ_GET_CONFIGURATION ∨ pSetup.bRequest = REQ_SET_CONFIGURATION ∨
          (pSetup.bRequest = REQ_GET_DESCRIPTOR ∧
            ∃ q l, USBGetDescriptor s.pabDescrip pSetup.wValue pSetup.wIndex
              = some (DescLookup.found q l)))) := by
  by_cases h0 : pSetup.bRequest = REQ_GET_STATUS
  · exact ⟨true, by simp [HandleStdDeviceReq, h0], by simp [h0]⟩
  by_cases h5 : pSetup.bRequest = REQ_SET_ADDRESS
  · exact ⟨true, by simp [HandleStdDeviceReq, h5], by simp [h5]⟩
  by_cases h8 : pSetup.bRequest = REQ_GET_CONFIGURATION
  · exact ⟨true, by simp [HandleStdDeviceReq_getConfiguration s pSetup e h8], by simp [h8]⟩
  by_cases h9 : pSetup.bRequest = REQ_SET_CONFIGURATION
  · obtain ⟨hw, hhw⟩ := HandleStdDeviceReq_setConfiguration s pSetup e h9
    exact ⟨true, by simp [hhw], by simp [h9]⟩
  by_cases h6 : pSetup.bRequest = REQ_GET_DESCRIPTOR
  · cases hl : USBGetDescriptor s.pabDescrip pSetup.wValue pSetup.wIndex with
    | none => exact absurd hl (USBGetDescriptor_ne_none _ _ _)
    | some res =>
      cases res with
      | found q l => exact ⟨true, by simp [HandleStdDeviceReq, h6, hl], by simp [h6]⟩
      | notFound => exact ⟨false, by simp [HandleStdDeviceReq, h6, hl], by simp [h6]⟩
  · refine ⟨false, ?_, by simp [h0, h5, h8, h9, h6]⟩
    rw [HandleStdDeviceReq, if_neg h0, if_neg h5, if_neg h6, if_neg h8, if_neg h9]
    split <;> [rfl; (split <;> rfl)]

/-- Which interface requests the interface handler reports as handled. -/
theorem HandleStdInterfaceReq_handled (s : StdReq) (pSetup : TSetupPacket) (e : Env) :
    ∃ r, (HandleStdInterfaceReq s pSetup e).map Prod.fst = some r ∧
      (r = true ↔
        (pSetup.bRequest = REQ_GET_STATUS ∨ pSetup.bRequest = REQ_GET_INTERFACE ∨
          (pSetup.bRequest = REQ_SET_INTERFACE ∧ pSetup.wValue = 0))) := by
  by_cases h0 : pSetup.bRequest = REQ_GET_STATUS
  · exact ⟨true, by simp [HandleStdInterfaceReq, h0], by simp [h0]⟩
  by_cases hA : pSetup.bRequest = REQ_GET_INTERFACE
  · exact ⟨true, by simp [HandleStdInterfaceReq, hA], by simp [hA]⟩
  by_cases hB : pSetup.bRequest = REQ_SET_INTERFACE
  · by_cases hv : pSetup.wValue = 0
    · exact ⟨true, by simp [HandleStdInterfaceReq, hB, hv], by simp [hB, hv]⟩
    · exact ⟨false, by simp [HandleStdInterfaceReq, hB, hv], by simp [hB, hv]⟩
  · refine ⟨false, ?_, by simp [h0, hA, hB]⟩
    rw [HandleStdInterfaceReq, if_neg h0]
    simp only [hA, hB, if_false]
    split <;> rfl

/-- GET_STATUS at the endpoint handler. -/
theorem HandleStdEndPointReq_getStatus (EP : Nat) (s : StdReq) (pSetup : TSetupPacket) (e : Env)
    (h : pSetup.bRequest = REQ_GET_STATUS) :
    HandleStdEndPointReq EP s pSetup e =
      some (true, s,
        { e with
          hwCalls := e.hwCalls ++ [HwCall.USBHwEPGetStatus pSetup.wIndex]
          pbData := wrByte
            (wrByte e.pbData 0 (if e.epStatus pSetup.wIndex &&& EP ≠ 0 then 1 else 0)) 1 0
          iLen := 2 }) := by
  rw [HandleStdEndPointReq, if_pos h]

/-- CLEAR_FEATURE at the endpoint handler. -/
theorem HandleStdEndPointReq_clearFeature (EP : Nat) (s : StdReq) (pSetup : TSetupPacket)
    (e : Env) (h : pSetup.bRequest = REQ_CLEAR_FEATURE) :
    HandleStdEndPointReq EP s pSetup e =
      if pSetup.wValue = FEA_ENDPOINT_HALT then
        some (true, s, { e with hwCalls := e.hwCalls ++ [HwCall.USBHwEPStall pSetup.wIndex false] })
      else some (false, s, e) := by
  have h0 : pSetup.bRequest ≠ REQ_GET_STATUS := by simp [h]
  rw [HandleStdEndPointReq, if_neg h0, if_pos h]

/-- SET_FEATURE at the endpoint handler. -/
theorem HandleStdEndPointReq_setFeature (EP : Nat) (s : StdReq) (pSetup : TSetupPacket)
    (e : Env) (h : pSetup.bRequest = REQ_SET_FEATURE) :
    HandleStdEndPointReq EP s pSetup e =
      if pSetup.wValue = FEA_ENDPOINT_HALT then
        some (true, s, { e with hwCalls := e.hwCalls ++ [HwCall.USBHwEPStall pSetup.wIndex true] })
      else some (false, s, e) := by
  have h0 : pSetup.bRequest ≠ REQ_GET_STATUS := by simp [h]
  have h1 : pSetup.bRequest ≠ REQ_CLEAR_FEATURE := by simp [h]
  rw [HandleStdEndPointReq, if_neg h0, if_neg h1, if_pos h]

/-- Which endpoint requests the endpoint handler reports as handled. -/
theorem HandleStdEndPointReq_handled (EP : Nat) (s : StdReq) (pSetup : TSetupPacket) (e : Env) :
    ∃ r, (HandleStdEndPointReq EP s pSetup e).map Prod.fst = some r ∧
      (r = true ↔
        (pSetup.bRequest = REQ_GET_STATUS ∨
          ((pSetup.bRequest = REQ_CLEAR_FEATURE ∨ pSetup.bRequest = REQ_SET_FEATURE) ∧
            pSetup.wValue = FEA_ENDPOINT_HALT))) := by
  by_cases h0 : pSetup.bRequest = REQ_GET_STATUS
  · exact ⟨true, by simp [HandleStdEndPointReq_getStatus EP s pSetup e h0], by simp [h0]⟩
  by_cases h1 : pSetup.bRequest = REQ_CLEAR_FEATURE
  · by_cases hv : pSetup.wValue = FEA_ENDPOINT_HALT
    · exact ⟨true, by simp [HandleStdEndPointReq_clearFeature EP s pSetup e h1, hv],
        by simp [h1, hv]⟩
    · exact ⟨false, by simp [HandleStdEndPointReq_clearFeature EP s pSetup e h1, hv],
        by simp [h1, hv]⟩
  by_cases h3 : pSetup.bRequest = REQ_SET_FEATURE
  · by_cases hv : pSetup.wValue = FEA_ENDPOINT_HALT
    · exact ⟨true, by simp [HandleStdEndPointReq_setFeature EP s pSetup e h3, hv],
        by simp [h3, hv]⟩
    · exact ⟨false, by simp [HandleStdEndPointReq_setFeature EP s pSetup e h3, hv],
        by simp [h3, hv]⟩
  · refine ⟨false, ?_, by simp [h0, h1, h3]⟩
    rw [HandleStdEndPointReq, if_neg h0, if_neg h1, if_neg h3]
    split <;> rfl

/-- A handler result whose return value is known has all three components. -/
theorem exists_of_map_fst {x : Option (Bool × StdReq × Env)} {r : Bool}
    (h : x.map Prod.fst = some r) : ∃ s1 e1, x = some (r, s1, e1) := by
  cases x with
  | none => simp at h
  | some v =>
    obtain ⟨r1, s1, e1⟩ := v
    simp only [Option.map_some', Option.some.injEq] at h
    exact ⟨s1, e1, by rw [h]⟩

/-- C6. With no custom handler installed, or one that returns false,
`USBHandleStandardRequest` returns, and returns true if and only if the
request is: for the device recipient GET_STATUS, SET_ADDRESS,
GET_CONFIGURATION, SET_CONFIGURATION, or GET_DESCRIPTOR with a successful
lookup; for the interface recipient GET_STATUS, GET_INTERFACE, or SET_INTERFACE
with value 0; for the endpoint recipient GET_STATUS, or CLEAR_FEATURE or
SET_FEATURE with value ENDPOINT_HALT (0).  Every other request code and every
other recipient (low 5 bits of bmRequestType) gives false. -/
theorem USBHandleStandardRequest_handled_iff (EP : Nat) (s : StdReq) (pSetup : TSetupPacket)
    (e : Env) (hNo : NoPreempt s pSetup e) :
    ∃ r s1 e1, USBHandleStandardRequest EP s pSetup e = some (r, s1, e1) ∧
      (r = true ↔
        ((pSetup.bmRequestType &&& 0x1F = 0 ∧
            (pSetup.bRequest = REQ_GET_STATUS ∨ pSetup.bRequest = REQ_SET_ADDRESS ∨
              pSetup.bRequest = REQ_GET_CONFIGURATION ∨
              pSetup.bRequest = REQ_SET_CONFIGURATION ∨
              (pSetup.bRequest = REQ_GET_DESCRIPTOR ∧
                ∃ q l, USBGetDescriptor s.pabDescrip pSetup.wValue pSetup.wIndex
                  = some (DescLookup.found q l)))) ∨
          (pSetup.bmRequestType &&& 0x1F = 1 ∧
            (pSetup.bRequest = REQ_GET_STATUS ∨ pSetup.bRequest = REQ_GET_INTERFACE ∨
              (pSetup.bRequest = REQ_SET_INTERFACE ∧ pSetup.wValue = 0))) ∨
          (pSetup.bmRequestType &&& 0x1F = 2 ∧
            (pSetup.bRequest = REQ_GET_STATUS ∨
              ((pSetup.bRequest = REQ_CLEAR_FEATURE ∨ pSetup.bRequest = REQ_SET_FEATURE) ∧
                pSetup.wValue = FEA_ENDPOINT_HALT))))) := by
  rw [USBHandleStandardRequest_of_noPreempt EP s pSetup e hNo, dispatchStd]
  simp only [REQTYPE_GET_RECIP, REQTYPE_RECIP_DEVICE, REQTYPE_RECIP_INTERFACE,
    REQTYPE_RECIP_ENDPOINT]
  by_cases hd : pSetup.bmRequestType &&& 0x1F = 0
  · obtain ⟨r, hr, hiff⟩ := HandleStdDeviceReq_handled s pSetup (afterCustom s pSetup e)
    obtain ⟨s1, e1, hx⟩ := exists_of_map_fst hr
    refine ⟨r, s1, e1, by rw [if_pos hd, hx], ?_⟩
    rw [hiff]
    simp [hd]
  by_cases hi : pSetup.bmRequestType &&& 0x1F = 1
  · obtain ⟨r, hr, hiff⟩ := HandleStdInterfaceReq_handled s pSetup (afterCustom s pSetup e)
    obtain ⟨s1, e1, hx⟩ := exists_of_map_fst hr
    refine ⟨r, s1, e1, by rw [if_neg hd, if_pos hi, hx], ?_⟩
    rw [hiff]
    simp [hi]
  by_cases he : pSetup.bmRequestType &&& 0x1F = 2
  · obtain ⟨r, hr, hiff⟩ := HandleStdEndPointReq_handled EP s pSetup (afterCustom s pSetup e)
    obtain ⟨s1, e1, hx⟩ := exists_of_map_fst hr
    refine ⟨r, s1, e1, by rw [if_neg hd, if_neg hi, if_pos he, hx], ?_⟩
    rw [hiff]
    simp [he]
  · refine ⟨false, s, afterCustom s pSetup e, by rw [if_neg hd, if_neg hi, if_neg he], ?_⟩
    simp [hd, hi, he]

/-- On the sample device a SET_INTERFACE request with alternate setting 1 is
reported as unhandled. -/
theorem USBHandleStandardRequest_handled_iff_witness :
    NoPreempt sampleStdReq (stdPacket 1 0x0B 1 0) sampleEnv ∧
    ∃ s1 e1, USBHandleStandardRequest 2 sampleStdReq (stdPacket 1 0x0B 1 0) sampleEnv
      = some (false, s1, e1) := by
  have hNo : NoPreempt sampleStdReq (stdPacket 1 0x0B 1 0) sampleEnv :=
    fun pfn h => absurd h (by simp [sampleStdReq])
  obtain ⟨r, s1, e1, h, hiff⟩ :=
    USBHandleStandardRequest_handled_iff 2 sampleStdReq (stdPacket 1 0x0B 1 0) sampleEnv hNo
  have hr : r = false := by
    cases r with
    | false => rfl
    | true =>
      have := hiff.mp rfl
      simp [stdPacket] at this
  subst hr
  exact ⟨hNo, s1, e1, h⟩

/-- C7. For an endpoint-recipient request addressed to endpoint `wIndex`, with
no pre-empting custom handler: GET_STATUS returns true with length 2 and data
`[h, 0]`, where `h` is 1 when the status the hardware reports for the endpoint
has the stalled bit set and 0 otherwise; CLEAR_FEATURE(ENDPOINT_HALT) returns
true and adds exactly the call set-endpoint-halt(wIndex, false);
SET_FEATURE(ENDPOINT_HALT) returns true and adds exactly the call
set-endpoint-halt(wIndex, true); CLEAR_FEATURE or SET_FEATURE with any other
selector returns false and adds no hardware call. -/
theorem endpoint_requests (EP : Nat) (s : StdReq) (pSetup : TSetupPacket) (e : Env)
    (hRecip : REQTYPE_GET_RECIP pSetup.bmRequestType = REQTYPE_RECIP_ENDPOINT)
    (hNo : NoPreempt s pSetup e) :
    (pSetup.bRequest = REQ_GET_STATUS →
      ∃ e1, USBHandleStandardRequest EP s pSetup e = some (true, s, e1) ∧
        e1.iLen = 2 ∧
        e1.pbData 0 =
          (if (afterCustom s pSetup e).epStatus pSetup.wIndex &&& EP ≠ 0 then 1 else 0) ∧
        e1.pbData 1 = 0) ∧
    (pSetup.bRequest = REQ_CLEAR_FEATURE → pSetup.wValue = FEA_ENDPOINT_HALT →
      USBHandleStandardRequest EP s pSetup e =
        some (true, s,
          { afterCustom s pSetup e with
            hwCalls := (afterCustom s pSetup e).hwCalls
              ++ [HwCall.USBHwEPStall pSetup.wIndex false] })) ∧
    (pSetup.bRequest = REQ_SET_FEATURE → pSetup.wValue = FEA_ENDPOINT_HALT →
      USBHandleStandardRequest EP s pSetup e =
        some (true, s,
          { afterCustom s pSetup e with
            hwCalls := (afterCustom s pSetup e).hwCalls
              ++ [HwCall.USBHwEPStall pSetup.wIndex true] })) ∧
    ((pSetup.bRequest = REQ_CLEAR_FEATURE ∨ pSetup.bRequest = REQ_SET_FEATURE) →
      pSetup.wValue ≠ FEA_ENDPOINT_HALT →
      USBHandleStandardRequest EP s pSetup e = some (false, s, afterCustom s pSetup e)) := by
  have hd : USBHandleStandardRequest EP s pSetup e
      = HandleStdEndPointReq EP s pSetup (afterCustom s pSetup e) := by
    rw [USBHandleStandardRequest_of_noPreempt EP s pSetup e hNo, dispatchStd, hRecip]
    simp
  refine ⟨?_, ?_, ?_, ?_⟩
  · intro h
    rw [hd, HandleStdEndPointReq_getStatus EP s pSetup _ h]
    exact ⟨_, rfl, rfl, by simp [wrByte], by simp [wrByte]⟩
  · intro h hv
    rw [hd, HandleStdEndPointReq_clearFeature EP s pSetup _ h, if_pos hv]
  · intro h hv
    rw [hd, HandleStdEndPointReq_setFeature EP s pSetup _ h, if_pos hv]
  · intro h hv
    rcases h with h | h
    · rw [hd, HandleStdEndPointReq_clearFeature EP s pSetup _ h, if_neg hv]
    · rw [hd, HandleStdEndPointReq_setFeature EP s pSetup _ h, if_neg hv]

/-- On the sample device, with stalled mask 2: SET_FEATURE(ENDPOINT_HALT) for
endpoint 0x81 issues the one call set-endpoint-halt(0x81, true). -/
theorem endpoint_requests_witness :
    REQTYPE_GET_RECIP (stdPacket 2 3 0 0x81).bmRequestType = REQTYPE_RECIP_ENDPOINT ∧
    NoPreempt sampleStdReq (stdPacket 2 3 0 0x81) sampleEnv ∧
    USBHandleStandardRequest 2 sampleStdReq (stdPacket 2 3 0 0x81) sampleEnv =
      some (true, sampleStdReq,
        { afterCustom sampleStdReq (stdPacket 2 3 0 0x81) sampleEnv with
          hwCalls := (afterCustom sampleStdReq (stdPacket 2 3 0 0x81) sampleEnv).hwCalls
            ++ [HwCall.USBHwEPStall (stdPacket 2 3 0 0x81).wIndex true] }) :=
  ⟨by decide, fun pfn h => absurd h (by simp [sampleStdReq]),
    (endpoint_requests 2 sampleStdReq (stdPacket 2 3 0 0x81) sampleEnv (by decide)
      (fun pfn h => absurd h (by simp [sampleStdReq]))).2.2.1 rfl rfl⟩

/-! ## SCSI command phase -/

theorem rdByte_lt (l : List Nat) (i : Nat) (h : ∀ b ∈ l, b < 256) : rdByte l i < 256 := by
  unfold rdByte
  by_cases hi : i < l.length
  · rw [List.getD_eq_getElem _ _ hi]
    exact h _ (List.getElem_mem hi)
  · rw [List.getD_eq_default _ _ (by omega)]
    omega

/-- The block count of a CDB of bytes is byte 7 << 8 | byte 8, below 2^16. -/
theorem cdbLen_eq (pbCDB : List Nat) (h : ∀ b ∈ pbCDB, b < 256) :
    cdbLen pbCDB = (rdByte pbCDB 7 <<< 8 ||| rdByte pbCDB 8) ∧ cdbLen pbCDB < 65536 := by
  have h7 := rdByte_lt pbCDB 7 h
  have h8 := rdByte_lt pbCDB 8 h
  unfold cdbLen U32
  rw [shl8_or _ _ h8]
  constructor
  · exact Nat.mod_eq_of_lt (by omega)
  · rw [Nat.mod_eq_of_lt (by omega)]
    omega

/-- The response length of READ(10) and WRITE(10) as an `int`. -/
theorem rspLen_rw (pbCDB : List Nat) (h : ∀ b ∈ pbCDB, b < 256) :
    U32toInt (U32 (cdbLen pbCDB * BLOCKSIZE))
      = (((rdByte pbCDB 7 <<< 8 ||| rdByte pbCDB 8) * 512 : Nat) : Int) := by
  obtain ⟨he, hlt⟩ := cdbLen_eq pbCDB h
  rw [← he]
  have h1 : U32 (cdbLen pbCDB * BLOCKSIZE) = cdbLen pbCDB * 512 := by
    simp only [BLOCKSIZE, U32]
    exact Nat.mod_eq_of_lt (by omega)
  rw [h1, U32toInt, if_pos (by omega)]

/-- C8. `SCSIHandleCmd` classifies a CDB by its opcode (byte 0): REQUEST SENSE
(0x03) is accepted with length min(18, byte 4), device-to-host; INQUIRY (0x12)
is accepted with length min(36, byte 4), device-to-host; READ CAPACITY (0x25)
is accepted with length 8, device-to-host; READ(10) (0x28) is accepted with
length (byte 7 << 8 | byte 8) * 512, device-to-host; WRITE(10) (0x2A) is
accepted with the same length, host-to-device; every opcode outside 0x00,
0x03, 0x12, 0x25, 0x28, 0x2A is rejected with length 0, direction
device-to-host, and the sense word set to INVALID_CMD_OPCODE (0x052000). -/
theorem SCSIHandleCmd_classifies (s : ScsiState) (pbCDB : List Nat) (iCDBLen : Nat)
    (hbytes : ∀ b ∈ pbCDB, b < 256) :
    (rdByte pbCDB 0 = 0x03 →
      (SCSIHandleCmd s pbCDB iCDBLen).ok = true ∧
      (SCSIHandleCmd s pbCDB iCDBLen).iRspLen = ((min 18 (rdByte pbCDB 4) : Nat) : Int) ∧
      (SCSIHandleCmd s pbCDB iCDBLen).fDevIn = true) ∧
    (rdByte pbCDB 0 = 0x12 →
      (SCSIHandleCmd s pbCDB iCDBLen).ok = true ∧
      (SCSIHandleCmd s pbCDB iCDBLen).iRspLen = ((min 36 (rdByte pbCDB 4) : Nat) : Int) ∧
      (SCSIHandleCmd s pbCDB iCDBLen).fDevIn = true) ∧
    (rdByte pbCDB 0 = 0x25 →
      (SCSIHandleCmd s pbCDB iCDBLen).ok = true ∧
      (SCSIHandleCmd s pbCDB iCDBLen).iRspLen = 8 ∧
      (SCSIHandleCmd s pbCDB iCDBLen).fDevIn = true) ∧
    (rdByte pbCDB 0 = 0x28 →
      (SCSIHandleCmd s pbCDB iCDBLen).ok = true ∧
      (SCSIHandleCmd s pbCDB iCDBLen).iRspLen
        = (((rdByte pbCDB 7 <<< 8 ||| rdByte pbCDB 8) * 512 : Nat) : Int) ∧
      (SCSIHandleCmd s pbCDB iCDBLen).fDevIn = true) ∧
    (rdByte pbCDB 0 = 0x2A →
      (SCSIHandleCmd s pbCDB iCDBLen).ok = true ∧
      (SCSIHandleCmd s pbCDB iCDBLen).iRspLen
        = (((rdByte pbCDB 7 <<< 8 ||| rdByte pbCDB 8) * 512 : Nat) : Int) ∧
      (SCSIHandleCmd s pbCDB iCDBLen).fDevIn = false) ∧
    (rdByte pbCDB 0 ≠ 0x00 → rdByte pbCDB 0 ≠ 0x03 → rdByte pbCDB 0 ≠ 0x12 →
      rdByte pbCDB 0 ≠ 0x25 → rdByte pbCDB 0 ≠ 0x28 → rdByte pbCDB 0 ≠ 0x2A →
      (SCSIHandleCmd s pbCDB iCDBLen).ok = false ∧
      (SCSIHandleCmd s pbCDB iCDBLen).iRspLen = 0 ∧
      (SCSIHandleCmd s pbCDB iCDBLen).fDevIn = true ∧
      (SCSIHandleCmd s pbCDB iCDBLen).state.dwSense = 0x052000) := by
  have hmin : ∀ a b : Nat, MIN a b = min a b := by
    intro a b
    unfold MIN
    split <;> omega
  refine ⟨?_, ?_, ?_, ?_, ?_, ?_⟩
  · intro h
    simp [SCSIHandleCmd, h, hmin]
  · intro h
    simp [SCSIHandleCmd, h, hmin]
  · intro h
    simp [SCSIHandleCmd, h]
  · intro h
    have := rspLen_rw pbCDB hbytes
    simp only [SCSIHandleCmd, h]
    exact ⟨by simp, by simpa using this, by simp⟩
  · intro h
    have := rspLen_rw pbCDB hbytes
    simp only [SCSIHandleCmd, h]
    exact ⟨by simp, by simpa using this, by simp⟩
  · intro h0 h3 h12 h25 h28 h2A
    simp [SCSIHandleCmd, h0, h3, h12, h25, h28, h2A]

/-- A READ(10) CDB for 3 blocks at LBA 5 is accepted with response length
1536, device-to-host. -/
theorem SCSIHandleCmd_classifies_witness :
    (∀ b ∈ [0x28, 0, 0, 0, 0, 5, 0, 0, 3, 0], b < 256) ∧
    (SCSIHandleCmd sampleScsi [0x28, 0, 0, 0, 0, 5, 0, 0, 3, 0] 10).ok = true ∧
    (SCSIHandleCmd sampleScsi [0x28, 0, 0, 0, 0, 5, 0, 0, 3, 0] 10).iRspLen
      = (((rdByte [0x28, 0, 0, 0, 0, 5, 0, 0, 3, 0] 7 <<< 8
          ||| rdByte [0x28, 0, 0, 0, 0, 5, 0, 0, 3, 0] 8) * 512 : Nat) : Int) ∧
    (SCSIHandleCmd sampleScsi [0x28, 0, 0, 0, 0, 5, 0, 0, 3, 0] 10).fDevIn = true :=
  ⟨by decide,
    (SCSIHandleCmd_classifies sampleScsi [0x28, 0, 0, 0, 0, 5, 0, 0, 3, 0] 10
      (by decide)).2.2.2.1 rfl⟩

/-! ## SCSI data phase: streaming -/

theorem and_511 (x : Nat) : x &&& 511 = x % 512 :=
  Nat.and_pow_two_sub_one_eq_mod x 9

theorem memcpy_congr (d f g : Nat → Nat) (n : Nat) (h : ∀ j, j < n → f j = g j) :
    memcpy d f n = memcpy d g n := by
  funext j
  unfold memcpy
  split
  · exact h j (by assumption)
  · rfl

theorem dataPhase_succ (cdb : List Nat) (len : Nat) (chunk : Nat → Nat → Nat)
    (count first : Nat) (s : ScsiState) :
    dataPhase cdb len chunk (count + 1) first s =
      ((dataPhase cdb len chunk count (first + 1)
          (SCSIHandleData s cdb len (chunk first) (64 * first)).state).1,
        { ok := (SCSIHandleData s cdb len (chunk first) (64 * first)).ok
          pbData := (SCSIHandleData s cdb len (chunk first) (64 * first)).pbData
          issued := (SCSIHandleData s cdb len (chunk first) (64 * first)).state.ops.drop
            s.ops.length } ::
        (dataPhase cdb len chunk count (first + 1)
          (SCSIHandleData s cdb len (chunk first) (64 * first)).state).2) := rfl

theorem dataPhase_one (cdb : List Nat) (len : Nat) (chunk : Nat → Nat → Nat)
    (first : Nat) (s : ScsiState) :
    dataPhase cdb len chunk 1 first s =
      ((SCSIHandleData s cdb len (chunk first) (64 * first)).state,
        [{ ok := (SCSIHandleData s cdb len (chunk first) (64 * first)).ok
           pbData := (SCSIHandleData s cdb len (chunk first) (64 * first)).pbData
           issued := (SCSIHandleData s cdb len (chunk first) (64 * first)).state.ops.drop
             s.ops.length }]) := rfl

/-- A data phase of `a + b` calls is one of `a` calls followed by one of `b`
calls. -/
theorem dataPhase_add (cdb : List Nat) (len : Nat) (chunk : Nat → Nat → Nat) :
    ∀ (a b first : Nat) (s : ScsiState),
      dataPhase cdb len chunk (a + b) first s =
        ((dataPhase cdb len chunk b (first + a) (dataPhase cdb len chunk a first s).1).1,
          (dataPhase cdb len chunk a first s).2 ++
            (dataPhase cdb len chunk b (first + a) (dataPhase cdb len chunk a first s).1).2) := by
  intro a
  induction a with
  | zero => intro b first s; simp [dataPhase]
  | succ a ih =>
    intro b first s
    rw [show a + 1 + b = (a + b) + 1 by omega, dataPhase_succ, dataPhase_succ, ih]
    simp only [List.cons_append]
    rw [show first + 1 + a = first + (a + 1) by omega]

/-- One READ(10) data call at chunk index `i`, reads succeeding. -/
theorem SCSIHandleData_read10 (s : ScsiState) (cdb : List Nat) (len : Nat) (buf : Nat → Nat)
    (i : Nat) (hop : rdByte cdb 0 = 0x28) (hok : ∀ b, s.dev.readOk b = true) :
    SCSIHandleData s cdb len buf (64 * i) =
      if i % 8 = 0 then
        { ok := true
          state := { s with
            abBlockBuf := memcpy s.abBlockBuf (s.dev.blocks (U32 (cdbLBA cdb + i / 8))) 512
            ops := s.ops ++ [DevOp.read (U32 (cdbLBA cdb + i / 8))] }
          pbData := memcpy buf
            (ptrAdd (memcpy s.abBlockBuf (s.dev.blocks (U32 (cdbLBA cdb + i / 8))) 512) 0)
            64 }
      else
        { ok := true, state := s, pbData := memcpy buf (ptrAdd s.abBlockBuf (64 * (i % 8))) 64 } := by
  have hpos : (64 * i) &&& 511 = 64 * (i % 8) := by rw [and_511]; omega
  have hdiv : 64 * i / 512 = i / 8 := by omega
  unfold SCSIHandleData
  simp only [hop, hpos, hdiv]
  simp only [show (0x28 : Nat) ≠ 0x00 by decide, show (0x28 : Nat) ≠ 0x03 by decide,
    show (0x28 : Nat) ≠ 0x12 by decide, show (0x28 : Nat) ≠ 0x25 by decide, if_false, if_true]
  by_cases h0 : i % 8 = 0
  · have hz : 64 * (i % 8) = 0 := by omega
    simp only [h0, hz, if_true, BlockDevRead, hok]
    simp
  · have hz : 64 * (i % 8) ≠ 0 := by omega
    simp only [h0, hz, if_false]

/-- The calls of a READ(10) data phase behind the first one of a block: the
block is in the buffer, no block-device call is issued, the state stays. -/
theorem dataPhase_read10_rest (cdb : List Nat) (len : Nat) (chunk : Nat → Nat → Nat)
    (hop : rdByte cdb 0 = 0x28) (b : Nat) :
    ∀ (m t0 : Nat) (s : ScsiState), 1 ≤ t0 → t0 + m ≤ 8 →
      (∀ x, s.dev.readOk x = true) →
      (∀ k, k < 512 → s.abBlockBuf k = s.dev.blocks (U32 (cdbLBA cdb + b)) k) →
      dataPhase cdb len chunk m (8 * b + t0) s =
        (s, (List.range m).map
          (fun t => read10Outcome s.dev (cdbLBA cdb) chunk (8 * b + t0 + t))) := by
  intro m
  induction m with
  | zero => intro t0 s _ _ _ _; rfl
  | succ m ih =>
    intro t0 s h1 h8 hok hbuf
    have hmod : (8 * b + t0) % 8 = t0 := by omega
    have hdiv : (8 * b + t0) / 8 = b := by omega
    have hne : ¬ (8 * b + t0) % 8 = 0 := by omega
    rw [dataPhase_succ, SCSIHandleData_read10 s cdb len _ _ hop hok, if_neg hne]
    simp only
    rw [show 8 * b + t0 + 1 = 8 * b + (t0 + 1) by omega,
      ih (t0 + 1) s (by omega) (by omega) hok hbuf, List.range_succ_eq_map, List.map_cons,
      List.map_map]
    simp only [List.drop_length, Nat.add_zero]
    congr 1
    congr 1
    · unfold read10Outcome
      rw [hmod, hdiv, if_neg (by omega)]
      congr 1
      apply memcpy_congr
      intro j hj
      unfold ptrAdd
      exact hbuf _ (by omega)
    · apply List.map_congr_left
      intro t _
      simp only [Function.comp, Nat.succ_eq_add_one]
      rw [show 8 * b + (t0 + 1) + t = 8 * b + t0 + (t + 1) by omega]

/-- The eight calls of one block of a READ(10) data phase: one block-device
read, at the first call, and the eight chunks of that block. -/
theorem dataPhase_read10_block (cdb : List Nat) (len : Nat) (chunk : Nat → Nat → Nat)
    (hop : rdByte cdb 0 = 0x28) (b : Nat) (s : ScsiState) (hok : ∀ x, s.dev.readOk x = true) :
    dataPhase cdb len chunk 8 (8 * b) s =
      ({ s with
          abBlockBuf := memcpy s.abBlockBuf (s.dev.blocks (U32 (cdbLBA cdb + b))) 512
          ops := s.ops ++ [DevOp.read (U32 (cdbLBA cdb + b))] },
        (List.range 8).map (fun t => read10Outcome s.dev (cdbLBA cdb) chunk (8 * b + t))) := by
  have hmod : (8 * b) % 8 = 0 := by omega
  have hdiv : (8 * b) / 8 = b := by omega
  rw [show (8 : Nat) = 7 + 1 from rfl, dataPhase_succ,
    SCSIHandleData_read10 s cdb len _ _ hop hok, if_pos hmod, hdiv]
  simp only
  have hrest := dataPhase_read10_rest cdb len chunk hop b 7 1
    { s with
      abBlockBuf := memcpy s.abBlockBuf (s.dev.blocks (U32 (cdbLBA cdb + b))) 512
      ops := s.ops ++ [DevOp.read (U32 (cdbLBA cdb + b))] }
    (by omega) (by omega) hok
    (by intro k hk; simp only [memcpy, if_pos hk])
  rw [hrest, List.range_succ_eq_map (n := 7), List.map_cons, List.map_map]
  simp only [List.drop_left, Nat.add_zero]
  congr 1
  congr 1
  · unfold read10Outcome
    rw [hmod, hdiv, if_pos rfl]
    congr 1
    apply memcpy_congr
    intro j hj
    simp only [ptrAdd, memcpy, Nat.mul_zero]
    rw [if_pos (by omega)]

/-- A READ(10) data phase of `n` blocks from chunk 0, reads succeeding. -/
theorem dataPhase_read10_blocks (cdb : List Nat) (len : Nat) (chunk : Nat → Nat → Nat)
    (hop : rdByte cdb 0 = 0x28) :
    ∀ (n : Nat) (s : ScsiState), (∀ x, s.dev.readOk x = true) →
      (dataPhase cdb len chunk (8 * n) 0 s).2
          = (List.range (8 * n)).map (read10Outcome s.dev (cdbLBA cdb) chunk) ∧
      (dataPhase cdb len chunk (8 * n) 0 s).1.ops
          = s.ops ++ (List.range n).map (fun j => DevOp.read (U32 (cdbLBA cdb + j))) ∧
      (dataPhase cdb len chunk (8 * n) 0 s).1.dev = s.dev := by
  intro n
  induction n with
  | zero => intro s _; simp [dataPhase]
  | succ n ih =>
    intro s hok
    obtain ⟨h2, hops, hdev⟩ := ih s hok
    have hok1 : ∀ x, (dataPhase cdb len chunk (8 * n) 0 s).1.dev.readOk x = true := by
      rw [hdev]; exact hok
    have hblk := dataPhase_read10_block cdb len chunk hop n
      (dataPhase cdb len chunk (8 * n) 0 s).1 hok1
    rw [show 8 * (n + 1) = 8 * n + 8 by omega, dataPhase_add, Nat.zero_add, hblk]
    refine ⟨?_, ?_, ?_⟩
    · simp only
      rw [h2, hdev, List.range_add, List.map_append, List.map_map]
      rfl
    · simp only
      rw [hops, List.range_succ, List.map_append, List.append_assoc]
      rfl
    · exact hdev

/-- C9, as amended. For a READ(10) CDB with LBA `L`, against a block device
whose reads all succeed, the calls of `SCSIHandleData` at offsets 0, 64, ...,
`512 * n - 64` all return true; call `i` issues a block-device read exactly
when its offset is a multiple of 512 (`i mod 8 = 0`), of block
`(L + i / 8) mod 2^32`, so that `n` reads are issued, of blocks
`(L + j) mod 2^32` for `j = 0 .. n - 1` in that order; and the chunk call `i`
delivers is the 64 bytes at position `64 * (i mod 8)` of block
`(L + i / 8) mod 2^32`. -/
theorem read10_stream (s : ScsiState) (cdb : List Nat) (len : Nat) (chunk : Nat → Nat → Nat)
    (n : Nat) (hop : rdByte cdb 0 = 0x28) (hok : ∀ x, s.dev.readOk x = true) :
    (dataPhase cdb len chunk (8 * n) 0 s).2
        = (List.range (8 * n)).map (read10Outcome s.dev (cdbLBA cdb) chunk) ∧
    (dataPhase cdb len chunk (8 * n) 0 s).1.ops
        = s.ops ++ (List.range n).map (fun j => DevOp.read (U32 (cdbLBA cdb + j))) := by
  obtain ⟨h2, hops, _⟩ := dataPhase_read10_blocks cdb len chunk hop n s hok
  exact ⟨h2, hops⟩

/-- READ(10) at LBA 5, one block: exactly one block-device read, at index 5. -/
theorem read10_stream_witness :
    rdByte [0x28, 0, 0, 0, 0, 5, 0, 0, 1, 0] 0 = 0x28 ∧
    (∀ x, sampleScsi.dev.readOk x = true) ∧
    (dataPhase [0x28, 0, 0, 0, 0, 5, 0, 0, 1, 0] 10 (fun _ _ => 0) (8 * 1) 0 sampleScsi).1.ops
      = [DevOp.read 5] :=
  ⟨rfl, fun _ => rfl,
    (read10_stream sampleScsi [0x28, 0, 0, 0, 0, 5, 0, 0, 1, 0] 10 (fun _ _ => 0) 1 rfl
      (fun _ => rfl)).2.trans (by decide)⟩

/-- C9, as stated, fails where the block index passes 2^32: READ(10) at LBA
0xFFFFFFFF, two blocks; the second block-device read is at index 0, not at
index L + 1 = 0x100000000. -/
theorem read10_stream_counterexample :
    cdbLBA read10LastLBA = 0xFFFFFFFF ∧
    (dataPhase read10LastLBA 10 (fun _ _ => 0) (8 * 2) 0 sampleScsi).1.ops
      = [DevOp.read 0xFFFFFFFF, DevOp.read 0] ∧
    (dataPhase read10LastLBA 10 (fun _ _ => 0) (8 * 2) 0 sampleScsi).1.ops
      ≠ [DevOp.read (cdbLBA read10LastLBA), DevOp.read (cdbLBA read10LastLBA + 1)] := by
  decide

theorem memcpyAt_inside (dst : Nat → Nat) (off : Nat) (src : Nat → Nat) (n k : Nat)
    (h1 : off ≤ k) (h2 : k < off + n) : memcpyAt dst off src n k = src (k - off) := by
  unfold memcpyAt
  rw [if_pos ⟨h1, h2⟩]

theorem memcpyAt_below (dst : Nat → Nat) (off : Nat) (src : Nat → Nat) (n k : Nat)
    (h : k < off) : memcpyAt dst off src n k = dst k := by
  unfold memcpyAt
  rw [if_neg (by omega)]

/-- One WRITE(10) data call at chunk index `i`, writes succeeding. -/
theorem SCSIHandleData_write10 (s : ScsiState) (cdb : List Nat) (len : Nat) (buf : Nat → Nat)
    (i : Nat) (hop : rdByte cdb 0 = 0x2A) (hok : ∀ b, s.dev.writeOk b = true) :
    SCSIHandleData s cdb len buf (64 * i) =
      if i % 8 = 7 then
        { ok := true
          state := { s with
            abBlockBuf := memcpyAt s.abBlockBuf (64 * (i % 8)) buf 64
            dev := (BlockDevWrite s.dev (U32 (cdbLBA cdb + i / 8))
              (memcpyAt s.abBlockBuf (64 * (i % 8)) buf 64)).2
            ops := s.ops ++ [DevOp.write (U32 (cdbLBA cdb + i / 8))
              (blockBytes (memcpyAt s.abBlockBuf (64 * (i % 8)) buf 64))] }
          pbData := buf }
      else
        { ok := true
          state := { s with abBlockBuf := memcpyAt s.abBlockBuf (64 * (i % 8)) buf 64 }
          pbData := buf } := by
  have hpos : (64 * i) &&& 511 = 64 * (i % 8) := by rw [and_511]; omega
  have hdiv : 64 * i / 512 = i / 8 := by omega
  unfold SCSIHandleData
  simp only [hop, hpos, hdiv]
  simp only [show (0x2A : Nat) ≠ 0x00 by decide, show (0x2A : Nat) ≠ 0x03 by decide,
    show (0x2A : Nat) ≠ 0x12 by decide, show (0x2A : Nat) ≠ 0x25 by decide,
    show (0x2A : Nat) ≠ 0x28 by decide, if_false, if_true]
  by_cases h7 : i % 8 = 7
  · have hz : 64 * (i % 8) = 512 - 64 := by omega
    have hr : (BlockDevWrite s.dev (U32 (cdbLBA cdb + i / 8))
        (memcpyAt s.abBlockBuf (512 - 64) buf 64)).1 = 0 := by
      simp [BlockDevWrite, hok]
    simp only [h7, hz, if_true, hr]
    simp
  · have hz : 64 * (i % 8) ≠ 512 - 64 := by omega
    simp only [h7, hz, if_false]

theorem BlockDevWrite_writeOk (d : BlockDev) (a : Nat) (buf : Nat → Nat) :
    (BlockDevWrite d a buf).2.writeOk = d.writeOk := by
  unfold BlockDevWrite
  split <;> rfl

/-- The first calls of a block of a WRITE(10) data phase: the chunks are staged
in the block buffer and no block-device call is issued. -/
theorem dataPhase_write10_head (cdb : List Nat) (len : Nat) (chunk : Nat → Nat → Nat)
    (hop : rdByte cdb 0 = 0x2A) (b : Nat) :
    ∀ (m t0 : Nat) (s : ScsiState), t0 + m ≤ 7 →
      (∀ x, s.dev.writeOk x = true) →
      (∀ k, k < 64 * t0 → s.abBlockBuf k = chunk (8 * b + k / 64) (k % 64)) →
      (dataPhase cdb len chunk m (8 * b + t0) s).2 =
          (List.range m).map (fun t => write10Outcome (cdbLBA cdb) chunk (8 * b + t0 + t)) ∧
      (dataPhase cdb len chunk m (8 * b + t0) s).1.dev = s.dev ∧
      (dataPhase cdb len chunk m (8 * b + t0) s).1.ops = s.ops ∧
      (∀ k, k < 64 * (t0 + m) →
        (dataPhase cdb len chunk m (8 * b + t0) s).1.abBlockBuf k
          = chunk (8 * b + k / 64) (k % 64)) := by
  intro m
  induction m with
  | zero => intro t0 s _ _ hbuf; exact ⟨rfl, rfl, rfl, hbuf⟩
  | succ m ih =>
    intro t0 s h7 hok hbuf
    have hmod : (8 * b + t0) % 8 = t0 := by omega
    have hne : ¬ (8 * b + t0) % 8 = 7 := by omega
    rw [dataPhase_succ, SCSIHandleData_write10 s cdb len _ _ hop hok, if_neg hne, hmod]
    simp only
    have hbuf1 : ∀ k, k < 64 * (t0 + 1) →
        (memcpyAt s.abBlockBuf (64 * t0) (chunk (8 * b + t0)) 64) k
          = chunk (8 * b + k / 64) (k % 64) := by
      intro k hk
      by_cases hlt : k < 64 * t0
      · rw [memcpyAt_below _ _ _ _ _ hlt]
        exact hbuf k hlt
      · rw [memcpyAt_inside _ _ _ _ _ (by omega) (by omega)]
        rw [show k / 64 = t0 by omega, show k % 64 = k - 64 * t0 by omega]
    obtain ⟨i2, idev, iops, ibuf⟩ := ih (t0 + 1)
      { s with abBlockBuf := memcpyAt s.abBlockBuf (64 * t0) (chunk (8 * b + t0)) 64 }
      (by omega) hok hbuf1
    rw [show 8 * b + t0 + 1 = 8 * b + (t0 + 1) by omega]
    refine ⟨?_, idev, iops, ?_⟩
    · rw [i2, List.range_succ_eq_map, List.map_cons, List.map_map]
      simp only [List.drop_length, Nat.add_zero]
      congr 1
      · unfold write10Outcome
        rw [hmod, if_neg (by omega)]
      · apply List.map_congr_left
        intro t _
        simp only [Function.comp, Nat.succ_eq_add_one]
        rw [show 8 * b + (t0 + 1) + t = 8 * b + t0 + (t + 1) by omega]
    · intro k hk
      exact ibuf k (by omega)

/-- The eight calls of one block of a WRITE(10) data phase: one block-device
write, at the eighth call, with the eight chunks as payload. -/
theorem dataPhase_write10_block (cdb : List Nat) (len : Nat) (chunk : Nat → Nat → Nat)
    (hop : rdByte cdb 0 = 0x2A) (b : Nat) (s : ScsiState) (hok : ∀ x, s.dev.writeOk x = true) :
    (dataPhase cdb len chunk 8 (8 * b) s).2 =
        (List.range 8).map (fun t => write10Outcome (cdbLBA cdb) chunk (8 * b + t)) ∧
    (dataPhase cdb len chunk 8 (8 * b) s).1.ops =
        s.ops ++ [DevOp.write (U32 (cdbLBA cdb + b)) (blockOfChunks chunk b)] ∧
    (dataPhase cdb len chunk 8 (8 * b) s).1.dev.writeOk = s.dev.writeOk := by
  obtain ⟨h2, hdev, hops, hbuf⟩ := dataPhase_write10_head cdb len chunk hop b 7 0 s (by omega) hok
    (by intro k hk; omega)
  simp only [Nat.add_zero, Nat.zero_add] at h2 hdev hops hbuf
  have hok7 : ∀ x, (dataPhase cdb len chunk 7 (8 * b) s).1.dev.writeOk x = true := by
    rw [hdev]; exact hok
  have hmod : (8 * b + 7) % 8 = 7 := by omega
  have hdiv : (8 * b + 7) / 8 = b := by omega
  have hpay : blockBytes (memcpyAt (dataPhase cdb len chunk 7 (8 * b) s).1.abBlockBuf (64 * 7)
      (chunk (8 * b + 7)) 64) = blockOfChunks chunk b := by
    unfold blockBytes blockOfChunks
    apply List.map_congr_left
    intro k hk
    have hk512 : k < 512 := List.mem_range.mp hk
    by_cases hlt : k < 64 * 7
    · rw [memcpyAt_below _ _ _ _ _ hlt]
      exact hbuf k hlt
    · rw [memcpyAt_inside _ _ _ _ _ (by omega) (by omega)]
      rw [show k / 64 = 7 by omega, show k % 64 = k - 64 * 7 by omega]
  have h8 : dataPhase cdb len chunk 8 (8 * b) s =
      ((dataPhase cdb len chunk 1 (8 * b + 7) (dataPhase cdb len chunk 7 (8 * b) s).1).1,
        (dataPhase cdb len chunk 7 (8 * b) s).2 ++
          (dataPhase cdb len chunk 1 (8 * b + 7) (dataPhase cdb len chunk 7 (8 * b) s).1).2) :=
    dataPhase_add cdb len chunk 7 1 (8 * b) s
  rw [h8, dataPhase_one, SCSIHandleData_write10 _ cdb len _ _ hop hok7, if_pos hmod, hmod, hdiv,
    hpay]
  refine ⟨?_, ?_, ?_⟩
  · have hx : write10Outcome (cdbLBA cdb) chunk (8 * b + 7) =
        { ok := true, pbData := chunk (8 * b + 7),
          issued := [DevOp.write (U32 (cdbLBA cdb + b)) (blockOfChunks chunk b)] } := by
      unfold write10Outcome
      rw [hmod, hdiv, if_pos rfl]
    simp only
    rw [h2, List.range_succ (n := 7), List.map_append, List.map_cons, List.map_nil, hx,
      List.drop_left]
  · simp only
    rw [hops]
  · simp only
    rw [BlockDevWrite_writeOk, hdev]

/-- A WRITE(10) data phase of `n` blocks from chunk 0, writes succeeding. -/
theorem dataPhase_write10_blocks (cdb : List Nat) (len : Nat) (chunk : Nat → Nat → Nat)
    (hop : rdByte cdb 0 = 0x2A) :
    ∀ (n : Nat) (s : ScsiState), (∀ x, s.dev.writeOk x = true) →
      (dataPhase cdb len chunk (8 * n) 0 s).2
          = (List.range (8 * n)).map (write10Outcome (cdbLBA cdb) chunk) ∧
      (dataPhase cdb len chunk (8 * n) 0 s).1.ops
          = s.ops ++ (List.range n).map
              (fun j => DevOp.write (U32 (cdbLBA cdb + j)) (blockOfChunks chunk j)) ∧
      (dataPhase cdb len chunk (8 * n) 0 s).1.dev.writeOk = s.dev.writeOk := by
  intro n
  induction n with
  | zero => intro s _; simp [dataPhase]
  | succ n ih =>
    intro s hok
    obtain ⟨h2, hops, hdev⟩ := ih s hok
    have hok1 : ∀ x, (dataPhase cdb len chunk (8 * n) 0 s).1.dev.writeOk x = true := by
      rw [hdev]; exact hok
    obtain ⟨b2, bops, bdev⟩ := dataPhase_write10_block cdb len chunk hop n
      (dataPhase cdb len chunk (8 * n) 0 s).1 hok1
    rw [show 8 * (n + 1) = 8 * n + 8 by omega, dataPhase_add, Nat.zero_add]
    refine ⟨?_, ?_, ?_⟩
    · simp only
      rw [h2, b2, List.range_add, List.map_append, List.map_map]
      rfl
    · simp only
      rw [bops, hops, List.range_succ, List.map_append, List.append_assoc]
      rfl
    · simp only
      rw [bdev, hdev]

/-- C10, as amended. For a WRITE(10) CDB with LBA `L` and chunks passed to
`SCSIHandleData` at offsets 0, 64, ..., `512 * n - 64` in increasing order,
block-device writes succeeding, every call returns true and leaves the chunk
buffer as it was; call `i` issues a block-device write exactly when its
intra-block position is 448 (`i mod 8 = 7`, the eighth chunk of a block) and
no block-device call otherwise; that write goes to block
`(L + i / 8) mod 2^32` with the 512 bytes of chunks `8 * (i / 8) ..
8 * (i / 8) + 7` in order as payload; so `n` writes are issued, write `j` to
block `(L + j) mod 2^32` with the concatenation of chunks `8 * j .. 8 * j + 7`. -/
theorem write10_stream (s : ScsiState) (cdb : List Nat) (len : Nat) (chunk : Nat → Nat → Nat)
    (n : Nat) (hop : rdByte cdb 0 = 0x2A) (hok : ∀ x, s.dev.writeOk x = true) :
    (dataPhase cdb len chunk (8 * n) 0 s).2
        = (List.range (8 * n)).map (write10Outcome (cdbLBA cdb) chunk) ∧
    (dataPhase cdb len chunk (8 * n) 0 s).1.ops
        = s.ops ++ (List.range n).map
            (fun j => DevOp.write (U32 (cdbLBA cdb + j)) (blockOfChunks chunk j)) := by
  obtain ⟨h2, hops, _⟩ := dataPhase_write10_blocks cdb len chunk hop n s hok
  exact ⟨h2, hops⟩

/-- WRITE(10) at LBA 7, one block: exactly one block-device write, at index 7,
with the eight chunks as payload. -/
theorem write10_stream_witness :
    rdByte [0x2A, 0, 0, 0, 0, 7, 0, 0, 1, 0] 0 = 0x2A ∧
    (∀ x, sampleScsi.dev.writeOk x = true) ∧
    (dataPhase [0x2A, 0, 0, 0, 0, 7, 0, 0, 1, 0] 10 (fun i j => (i + j) % 256) (8 * 1) 0
        sampleScsi).1.ops
      = [DevOp.write 7 (blockOfChunks (fun i j => (i + j) % 256) 0)] :=
  ⟨rfl, fun _ => rfl,
    (write10_stream sampleScsi [0x2A, 0, 0, 0, 0, 7, 0, 0, 1, 0] 10 (fun i j => (i + j) % 256) 1
      rfl (fun _ => rfl)).2.trans rfl⟩

/-- C10, as stated, fails where the block index passes 2^32: WRITE(10) at LBA
0xFFFFFFFF, two blocks; the second block-device write goes to index 0, not to
index L + 1 = 0x100000000. -/
theorem write10_stream_counterexample :
    cdbLBA write10LastLBA = 0xFFFFFFFF ∧
    (dataPhase write10LastLBA 10 (fun i j => (i + j) % 256) (8 * 2) 0 sampleScsi).1.ops.map
        opAddress = [0xFFFFFFFF, 0] ∧
    (dataPhase write10LastLBA 10 (fun i j => (i + j) % 256) (8 * 2) 0 sampleScsi).1.ops.map
        opAddress ≠ [cdbLBA write10LastLBA, cdbLBA write10LastLBA + 1] := by
  decide

/-! ## Sense reporting -/

theorem range18 : List.range 18 = [0, 1, 2, 3, 4, 5, 6, 7, 8, 9, 10, 11, 12, 13, 14, 15, 16, 17] := by
  decide

/-- The three fields of a packed sense word. -/
theorem sense_fields (key asc ascq : Nat) (hk : key < 256) (ha : asc < 256) (hq : ascq < 256) :
    ((key <<< 16 ||| asc <<< 8 ||| ascq) >>> 16) &&& 0xFF = key ∧
    ((key <<< 16 ||| asc <<< 8 ||| ascq) >>> 8) &&& 0xFF = asc ∧
    ((key <<< 16 ||| asc <<< 8 ||| ascq) >>> 0) &&& 0xFF = ascq := by
  have h1 : asc <<< 8 ||| ascq = 256 * asc + ascq := shl8_or asc ascq hq
  have h2 : key <<< 16 ||| (256 * asc + ascq) = 65536 * key + (256 * asc + ascq) := by
    rw [Nat.shiftLeft_eq, Nat.mul_comm]
    exact (Nat.mul_add_lt_is_or (i := 16) (by omega) key).symm
  have h3 : key <<< 16 ||| asc <<< 8 ||| ascq = 65536 * key + (256 * asc + ascq) := by
    rw [Nat.lor_assoc, h1, h2]
  rw [h3, and_FF, and_FF, and_FF, Nat.shiftRight_eq_div_pow, Nat.shiftRight_eq_div_pow,
    Nat.shiftRight_eq_div_pow]
  refine ⟨?_, ?_, ?_⟩ <;> omega

/-- The REQUEST SENSE data phase, for any sense word. -/
theorem SCSIHandleData_requestSense (s : ScsiState) (cdb : List Nat) (len : Nat)
    (buf : Nat → Nat) (off : Nat) (hop : rdByte cdb 0 = 0x03) :
    SCSIHandleData s cdb len buf off =
      { ok := true
        state := { s with dwSense := 0 }
        pbData :=
          wrByte
            (wrByte
              (wrByte (memcpy buf (rdByte abSense) 18) 2 ((s.dwSense >>> 16) &&& 0xFF))
              12 ((s.dwSense >>> 8) &&& 0xFF))
            13 ((s.dwSense >>> 0) &&& 0xFF) } := by
  unfold SCSIHandleData
  simp only [hop]
  simp

/-- The command phase rejects a CDB with an unknown opcode and changes nothing
but the sense word. -/
theorem SCSIHandleCmd_unknown (s : ScsiState) (cdb : List Nat) (len : Nat)
    (h0 : rdByte cdb 0 ≠ 0x00) (h3 : rdByte cdb 0 ≠ 0x03) (h12 : rdByte cdb 0 ≠ 0x12)
    (h25 : rdByte cdb 0 ≠ 0x25) (h28 : rdByte cdb 0 ≠ 0x28) (h2A : rdByte cdb 0 ≠ 0x2A) :
    SCSIHandleCmd s cdb len =
      { ok := false, iRspLen := 0, fDevIn := true,
        state := { s with dwSense := INVALID_CMD_OPCODE } } := by
  simp [SCSIHandleCmd, h0, h3, h12, h25, h28, h2A]

/-- The command phase of REQUEST SENSE leaves the state as it is. -/
theorem SCSIHandleCmd_requestSense_state (s : ScsiState) (cdb : List Nat) (len : Nat)
    (hop : rdByte cdb 0 = 0x03) : (SCSIHandleCmd s cdb len).state = s := by
  simp [SCSIHandleCmd, hop]

/-- C12. From any sense state, after `SCSIHandleCmd` rejects a CDB with an
unknown opcode, the next REQUEST SENSE (command phase, then data phase)
returns key/ASC/ASCQ = 0x05/0x20/0x00 at offsets 2/12/13, and a second REQUEST
SENSE right after it returns 0x00/0x00/0x00 at those offsets. -/
theorem requestSense_reports_once (s : ScsiState) (cdb rs1 rs2 : List Nat)
    (len len1 len2 : Nat) (buf1 buf2 : Nat → Nat) (off1 off2 : Nat)
    (h0 : rdByte cdb 0 ≠ 0x00) (h3 : rdByte cdb 0 ≠ 0x03) (h12 : rdByte cdb 0 ≠ 0x12)
    (h25 : rdByte cdb 0 ≠ 0x25) (h28 : rdByte cdb 0 ≠ 0x28) (h2A : rdByte cdb 0 ≠ 0x2A)
    (hrs1 : rdByte rs1 0 = 0x03) (hrs2 : rdByte rs2 0 = 0x03) :
    (SCSIHandleCmd s cdb len).ok = false ∧
    (SCSIHandleData (SCSIHandleCmd (SCSIHandleCmd s cdb len).state rs1 len1).state
        rs1 len1 buf1 off1).ok = true ∧
    (SCSIHandleData (SCSIHandleCmd (SCSIHandleCmd s cdb len).state rs1 len1).state
        rs1 len1 buf1 off1).pbData 2 = 0x05 ∧
    (SCSIHandleData (SCSIHandleCmd (SCSIHandleCmd s cdb len).state rs1 len1).state
        rs1 len1 buf1 off1).pbData 12 = 0x20 ∧
    (SCSIHandleData (SCSIHandleCmd (SCSIHandleCmd s cdb len).state rs1 len1).state
        rs1 len1 buf1 off1).pbData 13 = 0x00 ∧
    (SCSIHandleData
        (SCSIHandleCmd
          (SCSIHandleData (SCSIHandleCmd (SCSIHandleCmd s cdb len).state rs1 len1).state
            rs1 len1 buf1 off1).state rs2 len2).state
        rs2 len2 buf2 off2).ok = true ∧
    (SCSIHandleData
        (SCSIHandleCmd
          (SCSIHandleData (SCSIHandleCmd (SCSIHandleCmd s cdb len).state rs1 len1).state
            rs1 len1 buf1 off1).state rs2 len2).state
        rs2 len2 buf2 off2).pbData 2 = 0x00 ∧
    (SCSIHandleData
        (SCSIHandleCmd
          (SCSIHandleData (SCSIHandleCmd (SCSIHandleCmd s cdb len).state rs1 len1).state
            rs1 len1 buf1 off1).state rs2 len2).state
        rs2 len2 buf2 off2).pbData 12 = 0x00 ∧
    (SCSIHandleData
        (SCSIHandleCmd
          (SCSIHandleData (SCSIHandleCmd (SCSIHandleCmd s cdb len).state rs1 len1).state
            rs1 len1 buf1 off1).state rs2 len2).state
        rs2 len2 buf2 off2).pbData 13 = 0x00 := by
  rw [SCSIHandleCmd_requestSense_state _ rs2 len2 hrs2,
    SCSIHandleCmd_requestSense_state _ rs1 len1 hrs1,
    SCSIHandleCmd_unknown s cdb len h0 h3 h12 h25 h28 h2A,
    SCSIHandleData_requestSense _ rs1 len1 buf1 off1 hrs1,
    SCSIHandleData_requestSense _ rs2 len2 buf2 off2 hrs2]
  have e1 : (INVALID_CMD_OPCODE >>> 16) &&& 0xFF = 0x05 := by decide
  have e2 : (INVALID_CMD_OPCODE >>> 8) &&& 0xFF = 0x20 := by decide
  have e3 : (INVALID_CMD_OPCODE >>> 0) &&& 0xFF = 0x00 := by decide
  have z1 : ((0 : Nat) >>> 16) &&& 0xFF = 0 := by decide
  have z2 : ((0 : Nat) >>> 8) &&& 0xFF = 0 := by decide
  have z3 : ((0 : Nat) >>> 0) &&& 0xFF = 0 := by decide
  simp only [e1, e2, e3, z1, z2, z3]
  simp [wrByte]

/-- An unknown opcode 0xA5 on the sample state, then two REQUEST SENSE
commands: the first reports key 5, the second key 0. -/
theorem requestSense_reports_once_witness :
    rdByte [0xA5, 0, 0, 0, 0, 0] 0 ≠ 0x00 ∧ rdByte [0x03, 0, 0, 0, 18, 0] 0 = 0x03 ∧
    (SCSIHandleData (SCSIHandleCmd (SCSIHandleCmd sampleScsi [0xA5, 0, 0, 0, 0, 0] 6).state
        [0x03, 0, 0, 0, 18, 0] 6).state [0x03, 0, 0, 0, 18, 0] 6 (fun _ => 0) 0).pbData 2 = 0x05 ∧
    (SCSIHandleData
        (SCSIHandleCmd
          (SCSIHandleData (SCSIHandleCmd (SCSIHandleCmd sampleScsi [0xA5, 0, 0, 0, 0, 0] 6).state
            [0x03, 0, 0, 0, 18, 0] 6).state [0x03, 0, 0, 0, 18, 0] 6 (fun _ => 0) 0).state
          [0x03, 0, 0, 0, 18, 0] 6).state
        [0x03, 0, 0, 0, 18, 0] 6 (fun _ => 0) 0).pbData 2 = 0x00 :=
  ⟨by decide, by decide,
    (requestSense_reports_once sampleScsi [0xA5, 0, 0, 0, 0, 0] [0x03, 0, 0, 0, 18, 0]
      [0x03, 0, 0, 0, 18, 0] 6 6 6 (fun _ => 0) (fun _ => 0) 0 0
      (by decide) (by decide) (by decide) (by decide) (by decide) (by decide)
      (by decide) (by decide)).2.2.1,
    (requestSense_reports_once sampleScsi [0xA5, 0, 0, 0, 0, 0] [0x03, 0, 0, 0, 18, 0]
      [0x03, 0, 0, 0, 18, 0] 6 6 6 (fun _ => 0) (fun _ => 0) 0 0
      (by decide) (by decide) (by decide) (by decide) (by decide) (by decide)
      (by decide) (by decide)).2.2.2.2.2.2.1⟩

/-- C13. For every sense word `key << 16 | asc << 8 | ascq` of three bytes and
every offset argument, the REQUEST SENSE data phase returns true, writes the 18
bytes 70 00 key 00 00 00 00 0A 00 00 00 00 asc ascq 00 00 00 00 into the chunk
buffer, leaves the buffer behind them as it was, and leaves the sense word 0. -/
theorem requestSense_response (s : ScsiState) (cdb : List Nat) (len : Nat) (buf : Nat → Nat)
    (off key asc ascq : Nat) (hop : rdByte cdb 0 = 0x03)
    (hk : key < 256) (ha : asc < 256) (hq : ascq < 256)
    (hs : s.dwSense = key <<< 16 ||| asc <<< 8 ||| ascq) :
    (SCSIHandleData s cdb len buf off).ok = true ∧
    (List.range 18).map (SCSIHandleData s cdb len buf off).pbData =
      [0x70, 0x00, key, 0x00, 0x00, 0x00, 0x00, 0x0A, 0x00, 0x00, 0x00, 0x00, asc, ascq,
        0x00, 0x00, 0x00, 0x00] ∧
    (∀ i, 18 ≤ i → (SCSIHandleData s cdb len buf off).pbData i = buf i) ∧
    (SCSIHandleData s cdb len buf off).state.dwSense = 0 := by
  obtain ⟨f1, f2, f3⟩ := sense_fields key asc ascq hk ha hq
  rw [SCSIHandleData_requestSense s cdb len buf off hop, hs, f1, f2, f3]
  refine ⟨rfl, ?_, ?_, rfl⟩
  · rw [range18]
    simp [wrByte, memcpy, rdByte, abSense]
  · intro i hi
    simp only [wrByte, memcpy]
    rw [if_neg (by omega), if_neg (by omega), if_neg (by omega), if_neg (by omega)]

/-- The sense word INVALID_CMD_OPCODE (key 5, ASC 0x20, ASCQ 0) is reported as
70 00 05 00 00 00 00 0A 00 00 00 00 20 00 00 00 00 00. -/
theorem requestSense_response_witness :
    rdByte [0x03, 0, 0, 0, 18, 0] 0 = 0x03 ∧
    senseScsi.dwSense = 0x05 <<< 16 ||| 0x20 <<< 8 ||| 0x00 ∧
    (List.range 18).map (SCSIHandleData senseScsi [0x03, 0, 0, 0, 18, 0] 6 (fun _ => 0xEE) 64).pbData
      = [0x70, 0x00, 0x05, 0x00, 0x00, 0x00, 0x00, 0x0A, 0x00, 0x00, 0x00, 0x00, 0x20, 0x00,
          0x00, 0x00, 0x00, 0x00] :=
  ⟨by decide, by decide,
    (requestSense_response senseScsi [0x03, 0, 0, 0, 18, 0] 6 (fun _ => 0xEE) 64 0x05 0x20 0x00
      (by decide) (by decide) (by decide) (by decide) (by decide)).2.1⟩

/-! ## READ CAPACITY, TEST UNIT READY, rejection -/

theorem range8 : List.range 8 = [0, 1, 2, 3, 4, 5, 6, 7] := by decide

/-- C14, as amended. For every value `N` with `1 ≤ N < 2^32` that the block
device's get-size reports (the source takes it as the size of the drive in
bytes), the READ CAPACITY data phase returns true and writes the 8 bytes made
of `(N - 1) / 512` as a 32-bit big-endian integer in bytes 0..3 and the block
size 512 as a 32-bit big-endian integer in bytes 4..7 (00 00 02 00). -/
theorem readCapacity_response (s : ScsiState) (cdb : List Nat) (len : Nat) (buf : Nat → Nat)
    (off : Nat) (hop : rdByte cdb 0 = 0x25) (hN : 1 ≤ s.dev.dwNumBlocks)
    (hU : s.dev.dwNumBlocks < 2 ^ 32) :
    (SCSIHandleData s cdb len buf off).ok = true ∧
    (List.range 8).map (SCSIHandleData s cdb len buf off).pbData =
      bigEndian32 ((s.dev.dwNumBlocks - 1) / 512) ++ [0x00, 0x00, 0x02, 0x00] ∧
    (SCSIHandleData s cdb len buf off).state = s := by
  have hm : U32 (s.dev.dwNumBlocks + (2 ^ 32 - 1)) = s.dev.dwNumBlocks - 1 := by
    unfold U32
    omega
  unfold SCSIHandleData
  simp only [hop, hm]
  simp only [show (0x25 : Nat) ≠ 0x00 by decide, show (0x25 : Nat) ≠ 0x03 by decide,
    show (0x25 : Nat) ≠ 0x12 by decide, if_false, if_true]
  refine ⟨trivial, ?_, trivial⟩
  rw [range8]
  simp only [List.map, wrByte, bigEndian32, and_FF, Nat.shiftRight_eq_div_pow, BLOCKSIZE]
  simp

/-- A drive for which get-size reports 1: the highest LBA written is 0. -/
theorem readCapacity_response_witness :
    rdByte [0x25, 0, 0, 0, 0, 0, 0, 0, 0, 0] 0 = 0x25 ∧
    1 ≤ ({ sampleScsi with dev := { sampleScsi.dev with dwNumBlocks := 1 } } : ScsiState).dev.dwNumBlocks ∧
    (List.range 8).map
        (SCSIHandleData { sampleScsi with dev := { sampleScsi.dev with dwNumBlocks := 1 } }
          [0x25, 0, 0, 0, 0, 0, 0, 0, 0, 0] 10 (fun _ => 0xEE) 0).pbData
      = bigEndian32 ((1 - 1) / 512) ++ [0x00, 0x00, 0x02, 0x00] :=
  ⟨by decide, by decide,
    (readCapacity_response { sampleScsi with dev := { sampleScsi.dev with dwNumBlocks := 1 } }
      [0x25, 0, 0, 0, 0, 0, 0, 0, 0, 0] 10 (fun _ => 0xEE) 0 (by decide) (by decide)
      (by decide)).2.1⟩

/-- C14, as stated, fails: for a block device whose get-size reports 1000, the
READ CAPACITY data phase writes 00 00 00 01 in bytes 0..3 (999 / 512 = 1), not
999 = 00 00 03 E7. -/
theorem readCapacity_counterexample :
    sampleScsi.dev.dwNumBlocks = 1000 ∧
    (List.range 4).map
        (SCSIHandleData sampleScsi [0x25, 0, 0, 0, 0, 0, 0, 0, 0, 0] 10 (fun _ => 0) 0).pbData
      = [0x00, 0x00, 0x00, 0x01] ∧
    (List.range 4).map
        (SCSIHandleData sampleScsi [0x25, 0, 0, 0, 0, 0, 0, 0, 0, 0] 10 (fun _ => 0) 0).pbData
      ≠ bigEndian32 (sampleScsi.dev.dwNumBlocks - 1) := by
  decide

/-- C15, as amended. For a TEST UNIT READY CDB (opcode 0x00) `SCSIHandleCmd`
reports response length 0 and direction device-to-host, leaves the state as it
is, and returns success whatever the sense word is; the sense check is made in
the data phase: `SCSIHandleData` on that CDB returns success if and only if the
sense word is 0, and changes neither the state nor the chunk buffer. -/
theorem testUnitReady_phases (s : ScsiState) (cdb : List Nat) (len : Nat) (buf : Nat → Nat)
    (off : Nat) (hop : rdByte cdb 0 = 0x00) :
    SCSIHandleCmd s cdb len = { ok := true, iRspLen := 0, fDevIn := true, state := s } ∧
    ((SCSIHandleData s cdb len buf off).ok = true ↔ s.dwSense = 0) ∧
    (SCSIHandleData s cdb len buf off).state = s ∧
    (SCSIHandleData s cdb len buf off).pbData = buf := by
  refine ⟨?_, ?_, ?_, ?_⟩
  · simp [SCSIHandleCmd, hop]
  · simp [SCSIHandleData, hop]
  · simp [SCSIHandleData, hop]
  · simp [SCSIHandleData, hop]

/-- TEST UNIT READY with the sense condition INVALID_CMD_OPCODE outstanding:
the command phase succeeds, the data phase fails. -/
theorem testUnitReady_phases_witness :
    rdByte [0x00, 0, 0, 0, 0, 0] 0 = 0x00 ∧
    SCSIHandleCmd senseScsi [0x00, 0, 0, 0, 0, 0] 6
      = { ok := true, iRspLen := 0, fDevIn := true, state := senseScsi } ∧
    ((SCSIHandleData senseScsi [0x00, 0, 0, 0, 0, 0] 6 (fun _ => 0) 0).ok = true ↔
      senseScsi.dwSense = 0) :=
  ⟨by decide,
    (testUnitReady_phases senseScsi [0x00, 0, 0, 0, 0, 0] 6 (fun _ => 0) 0 (by decide)).1,
    (testUnitReady_phases senseScsi [0x00, 0, 0, 0, 0, 0] 6 (fun _ => 0) 0 (by decide)).2.1⟩

/-- C15, as stated, fails: with a sense condition outstanding `SCSIHandleCmd`
on a TEST UNIT READY CDB still returns success. -/
theorem testUnitReady_cmd_counterexample :
    senseScsi.dwSense = 0x052000 ∧
    (SCSIHandleCmd senseScsi [0x00, 0, 0, 0, 0, 0] 6).ok = true ∧
    ¬ ((SCSIHandleCmd senseScsi [0x00, 0, 0, 0, 0, 0] 6).ok = true ↔ senseScsi.dwSense = 0) := by
  decide

/-- The command phase never changes anything but the sense word. -/
theorem SCSIHandleCmd_frame (s : ScsiState) (cdb : List Nat) (len : Nat) :
    (SCSIHandleCmd s cdb len).state.abBlockBuf = s.abBlockBuf ∧
    (SCSIHandleCmd s cdb len).state.ops = s.ops ∧
    (SCSIHandleCmd s cdb len).state.dev = s.dev := by
  unfold SCSIHandleCmd
  split_ifs <;> exact ⟨rfl, rfl, rfl⟩

/-- C16. For a CDB whose opcode is none of 0x00, 0x03, 0x12, 0x25, 0x28, 0x2A
and every state: `SCSIHandleCmd` rejects it, sets the sense word to
INVALID_CMD_OPCODE, leaves the staging buffer and the block device as they
were and issues no block-device call; `SCSIHandleData` on such a CDB, in every
state, returns failure, leaves the whole state (staging buffer included) and
the chunk buffer as they were and issues no block-device call.  And for every
CDB `SCSIHandleCmd` leaves the staging buffer as it was and issues no
block-device call. -/
theorem rejection_frame (s : ScsiState) (cdb : List Nat) (len : Nat)
    (h0 : rdByte cdb 0 ≠ 0x00) (h3 : rdByte cdb 0 ≠ 0x03) (h12 : rdByte cdb 0 ≠ 0x12)
    (h25 : rdByte cdb 0 ≠ 0x25) (h28 : rdByte cdb 0 ≠ 0x28) (h2A : rdByte cdb 0 ≠ 0x2A) :
    ((SCSIHandleCmd s cdb len).ok = false ∧
      (SCSIHandleCmd s cdb len).state.dwSense = INVALID_CMD_OPCODE ∧
      (SCSIHandleCmd s cdb len).state.abBlockBuf = s.abBlockBuf ∧
      (SCSIHandleCmd s cdb len).state.dev = s.dev ∧
      (SCSIHandleCmd s cdb len).state.ops = s.ops) ∧
    (∀ (s2 : ScsiState) (buf : Nat → Nat) (off : Nat),
      SCSIHandleData s2 cdb len buf off = { ok := false, state := s2, pbData := buf }) ∧
    (∀ (cdb2 : List Nat) (len2 : Nat),
      (SCSIHandleCmd s cdb2 len2).state.abBlockBuf = s.abBlockBuf ∧
      (SCSIHandleCmd s cdb2 len2).state.ops = s.ops) := by
  refine ⟨?_, ?_, ?_⟩
  · rw [SCSIHandleCmd_unknown s cdb len h0 h3 h12 h25 h28 h2A]
    exact ⟨rfl, rfl, rfl, rfl, rfl⟩
  · intro s2 buf off
    simp [SCSIHandleData, h0, h3, h12, h25, h28, h2A]
  · intro cdb2 len2
    exact ⟨(SCSIHandleCmd_frame s cdb2 len2).1, (SCSIHandleCmd_frame s cdb2 len2).2.1⟩

/-- The opcode 0xA5 on the sample state: rejected, and the data phase fails
without touching the state or the chunk buffer. -/
theorem rejection_frame_witness :
    rdByte [0xA5, 0, 0, 0, 0, 0] 0 ≠ 0x2A ∧
    (SCSIHandleCmd sampleScsi [0xA5, 0, 0, 0, 0, 0] 6).state.ops = sampleScsi.ops ∧
    SCSIHandleData sampleScsi [0xA5, 0, 0, 0, 0, 0] 6 (fun _ => 0xEE) 0
      = { ok := false, state := sampleScsi, pbData := fun _ => 0xEE } :=
  ⟨by decide,
    (rejection_frame sampleScsi [0xA5, 0, 0, 0, 0, 0] 6 (by decide) (by decide) (by decide)
      (by decide) (by decide) (by decide)).1.2.2.2.2,
    (rejection_frame sampleScsi [0xA5, 0, 0, 0, 0, 0] 6 (by decide) (by decide) (by decide)
      (by decide) (by decide) (by decide)).2.1 sampleScsi (fun _ => 0xEE) 0⟩

/-! ## Round trip through the block device -/

theorem BlockDevWrite_of_ok (d : BlockDev) (a : Nat) (buf : Nat → Nat)
    (h : d.writeOk a = true) :
    (BlockDevWrite d a buf).2 =
      { d with blocks := fun b => if b = a then memcpy (d.blocks b) buf 512 else d.blocks b } := by
  unfold BlockDevWrite
  rw [if_pos h]

/-- The block device after the eight calls of one block of a WRITE(10) data
phase: the block written holds the eight chunks, every other block and the
read behaviour are as before. -/
theorem dataPhase_write10_block_dev (cdb : List Nat) (len : Nat) (chunk : Nat → Nat → Nat)
    (hop : rdByte cdb 0 = 0x2A) (b : Nat) (s : ScsiState) (hok : ∀ x, s.dev.writeOk x = true) :
    (dataPhase cdb len chunk 8 (8 * b) s).1.dev.readOk = s.dev.readOk ∧
    (∀ k, k < 512 →
      (dataPhase cdb len chunk 8 (8 * b) s).1.dev.blocks (U32 (cdbLBA cdb + b)) k
        = chunk (8 * b + k / 64) (k % 64)) ∧
    (∀ x, x ≠ U32 (cdbLBA cdb + b) →
      (dataPhase cdb len chunk 8 (8 * b) s).1.dev.blocks x = s.dev.blocks x) := by
  obtain ⟨_, hdev, _, hbuf⟩ := dataPhase_write10_head cdb len chunk hop b 7 0 s (by omega) hok
    (by intro k hk; omega)
  simp only [Nat.add_zero, Nat.zero_add] at hdev hbuf
  have hok7 : ∀ x, (dataPhase cdb len chunk 7 (8 * b) s).1.dev.writeOk x = true := by
    rw [hdev]; exact hok
  have hmod : (8 * b + 7) % 8 = 7 := by omega
  have hdiv : (8 * b + 7) / 8 = b := by omega
  have hB : ∀ k, k < 512 →
      memcpyAt (dataPhase cdb len chunk 7 (8 * b) s).1.abBlockBuf (64 * 7) (chunk (8 * b + 7)) 64 k
        = chunk (8 * b + k / 64) (k % 64) := by
    intro k hk512
    by_cases hlt : k < 64 * 7
    · rw [memcpyAt_below _ _ _ _ _ hlt]
      exact hbuf k hlt
    · rw [memcpyAt_inside _ _ _ _ _ (by omega) (by omega)]
      rw [show k / 64 = 7 by omega, show k % 64 = k - 64 * 7 by omega]
  have h8 : dataPhase cdb len chunk 8 (8 * b) s =
      ((dataPhase cdb len chunk 1 (8 * b + 7) (dataPhase cdb len chunk 7 (8 * b) s).1).1,
        (dataPhase cdb len chunk 7 (8 * b) s).2 ++
          (dataPhase cdb len chunk 1 (8 * b + 7) (dataPhase cdb len chunk 7 (8 * b) s).1).2) :=
    dataPhase_add cdb len chunk 7 1 (8 * b) s
  rw [h8, dataPhase_one, SCSIHandleData_write10 _ cdb len _ _ hop hok7, if_pos hmod, hmod, hdiv,
    BlockDevWrite_of_ok _ _ _ (hok7 _)]
  simp only
  refine ⟨by rw [hdev], ?_, ?_⟩
  · intro k hk
    simp only [if_true, memcpy, if_pos hk]
    exact hB k hk
  · intro x hx
    rw [if_neg hx, hdev]

/-- The block device after a WRITE(10) data phase of `n` blocks, `n ≤ 2^32`:
block `U32 (L + j)` holds chunks `8 * j .. 8 * j + 7`, for every `j < n`. -/
theorem dataPhase_write10_blocks_dev (cdb : List Nat) (len : Nat) (chunk : Nat → Nat → Nat)
    (hop : rdByte cdb 0 = 0x2A) :
    ∀ (n : Nat) (s : ScsiState), (∀ x, s.dev.writeOk x = true) → n ≤ 2 ^ 32 →
      (dataPhase cdb len chunk (8 * n) 0 s).1.dev.readOk = s.dev.readOk ∧
      (∀ j k, j < n → k < 512 →
        (dataPhase cdb len chunk (8 * n) 0 s).1.dev.blocks (U32 (cdbLBA cdb + j)) k
          = chunk (8 * j + k / 64) (k % 64)) := by
  intro n
  induction n with
  | zero => intro s _ _; exact ⟨rfl, by intro j k hj; omega⟩
  | succ n ih =>
    intro s hok hn
    obtain ⟨hr, hb⟩ := ih s hok (by omega)
    obtain ⟨_, _, hwok⟩ := dataPhase_write10_blocks cdb len chunk hop n s hok
    have hok1 : ∀ x, (dataPhase cdb len chunk (8 * n) 0 s).1.dev.writeOk x = true := by
      rw [hwok]; exact hok
    obtain ⟨br, bnew, bold⟩ := dataPhase_write10_block_dev cdb len chunk hop n
      (dataPhase cdb len chunk (8 * n) 0 s).1 hok1
    rw [show 8 * (n + 1) = 8 * n + 8 by omega, dataPhase_add, Nat.zero_add]
    simp only
    refine ⟨by rw [br, hr], ?_⟩
    intro j k hj hk
    by_cases hjn : j = n
    · subst hjn
      exact bnew k hk
    · have hne : U32 (cdbLBA cdb + j) ≠ U32 (cdbLBA cdb + n) := by
        unfold U32
        omega
      rw [bold _ hne]
      exact hb j k (by omega) hk

/-- The chunk a READ(10) call delivers from a device holding the written
chunks is the written chunk. -/
theorem read10Outcome_of_written (dev : BlockDev) (L : Nat) (chunk rbuf : Nat → Nat → Nat)
    (n i : Nat) (hi : i < 8 * n)
    (hb : ∀ j k, j < n → k < 512 →
      dev.blocks (U32 (L + j)) k = chunk (8 * j + k / 64) (k % 64)) :
    (read10Outcome dev L rbuf i).ok = true ∧
    (List.range 64).map (read10Outcome dev L rbuf i).pbData = (List.range 64).map (chunk i) := by
  refine ⟨rfl, ?_⟩
  apply List.map_congr_left
  intro j hj
  have hj64 : j < 64 := List.mem_range.mp hj
  simp only [read10Outcome, memcpy, if_pos hj64]
  rw [hb (i / 8) (64 * (i % 8) + j) (by omega) (by omega)]
  rw [show 8 * (i / 8) + (64 * (i % 8) + j) / 64 = i by omega,
    show (64 * (i % 8) + j) % 64 = j by omega]

/-- C11. Round trip: against a block device whose reads and writes succeed,
for every LBA, every `n` whose offsets 0, 64, ..., `512 * n - 64` are 32-bit
values, and every data given as chunks of 64 bytes: after the WRITE(10) data
phase at that LBA (every call returning true), the READ(10) data phase at the
same LBA over the same offsets returns true at every call and delivers, call by
call, the chunk that was written; so the concatenation of the chunks read is
the data written. -/
theorem write10_read10_roundtrip (s : ScsiState) (wcdb rcdb : List Nat) (wlen rlen : Nat)
    (chunk rbuf : Nat → Nat → Nat) (n : Nat)
    (hw : rdByte wcdb 0 = 0x2A) (hr : rdByte rcdb 0 = 0x28) (hlba : cdbLBA rcdb = cdbLBA wcdb)
    (hwok : ∀ x, s.dev.writeOk x = true) (hrok : ∀ x, s.dev.readOk x = true)
    (hoff : 512 * n ≤ 2 ^ 32) :
    (∀ o ∈ (dataPhase wcdb wlen chunk (8 * n) 0 s).2, o.ok = true) ∧
    (dataPhase rcdb rlen rbuf (8 * n) 0 (dataPhase wcdb wlen chunk (8 * n) 0 s).1).2.map
        (fun o => (o.ok, (List.range 64).map o.pbData))
      = (List.range (8 * n)).map (fun i => (true, (List.range 64).map (chunk i))) ∧
    ((dataPhase rcdb rlen rbuf (8 * n) 0 (dataPhase wcdb wlen chunk (8 * n) 0 s).1).2.map
        (fun o => (List.range 64).map o.pbData)).flatten
      = ((List.range (8 * n)).map (fun i => (List.range 64).map (chunk i))).flatten := by
  obtain ⟨hw2, _, _⟩ := dataPhase_write10_blocks wcdb wlen chunk hw n s hwok
  obtain ⟨hro, hb⟩ := dataPhase_write10_blocks_dev wcdb wlen chunk hw n s hwok (by omega)
  have hrok1 : ∀ x, (dataPhase wcdb wlen chunk (8 * n) 0 s).1.dev.readOk x = true := by
    rw [hro]; exact hrok
  obtain ⟨hr2, _, _⟩ := dataPhase_read10_blocks rcdb rlen rbuf hr n
    (dataPhase wcdb wlen chunk (8 * n) 0 s).1 hrok1
  refine ⟨?_, ?_, ?_⟩
  · intro o ho
    rw [hw2] at ho
    obtain ⟨i, _, rfl⟩ := List.mem_map.mp ho
    rfl
  · rw [hr2, List.map_map]
    apply List.map_congr_left
    intro i hi
    have hi8 : i < 8 * n := List.mem_range.mp hi
    obtain ⟨h1, h2⟩ := read10Outcome_of_written _ (cdbLBA rcdb) chunk rbuf n i hi8
      (by rw [hlba]; exact hb)
    simp only [Function.comp, h1, h2]
  · rw [hr2, List.map_map]
    congr 1
    apply List.map_congr_left
    intro i hi
    have hi8 : i < 8 * n := List.mem_range.mp hi
    obtain ⟨_, h2⟩ := read10Outcome_of_written _ (cdbLBA rcdb) chunk rbuf n i hi8
      (by rw [hlba]; exact hb)
    simp only [Function.comp, h2]

/-- WRITE(10) of two blocks at LBA 7 on the sample device, then READ(10) of two
blocks at LBA 7: the bytes read are the bytes written. -/
theorem write10_read10_roundtrip_witness :
    (∀ x, sampleScsi.dev.writeOk x = true) ∧ (∀ x, sampleScsi.dev.readOk x = true) ∧
    512 * 2 ≤ 2 ^ 32 ∧
    cdbLBA [0x28, 0, 0, 0, 0, 7, 0, 0, 2, 0] = cdbLBA [0x2A, 0, 0, 0, 0, 7, 0, 0, 2, 0] ∧
    ((dataPhase [0x28, 0, 0, 0, 0, 7, 0, 0, 2, 0] 10 (fun _ _ => 0) (8 * 2) 0
        (dataPhase [0x2A, 0, 0, 0, 0, 7, 0, 0, 2, 0] 10 (fun i j => (3 * i + j) % 256) (8 * 2) 0
          sampleScsi).1).2.map
        (fun o => (List.range 64).map o.pbData)).flatten
      = ((List.range (8 * 2)).map
          (fun i => (List.range 64).map ((fun i j => (3 * i + j) % 256) i))).flatten :=
  ⟨fun _ => rfl, fun _ => rfl, by decide, by decide,
    (write10_read10_roundtrip sampleScsi [0x2A, 0, 0, 0, 0, 7, 0, 0, 2, 0]
      [0x28, 0, 0, 0, 0, 7, 0, 0, 2, 0] 10 10 (fun i j => (3 * i + j) % 256) (fun _ _ => 0) 2
      rfl rfl (by decide) (fun _ => rfl) (fun _ => rfl) (by decide)).2.2⟩

/-! ## Descriptor builder -/

theorem realloc_length (p : Option (List Nat)) (n : Nat) (junk : Nat → Nat) :
    (realloc p n junk).length = n := by
  unfold realloc
  simp only [List.length_append, List.length_take, List.length_map, List.length_range]
  omega

/-- Growing a block keeps its bytes and adds indeterminate ones behind them. -/
theorem realloc_grow (old : List Nat) (k : Nat) (junk : Nat → Nat) :
    realloc (some old) (old.length + k) junk
      = old ++ (List.range k).map (fun i => junk (old.length + i)) := by
  unfold realloc
  simp only [Option.getD_some]
  rw [List.take_of_length_le (by omega), show old.length + k - old.length = k by omega]

theorem memcpyTo_length (dst : List Nat) (add sub : Nat) (src : List Nat) (n : Nat) :
    (memcpyTo dst add sub src n).length = dst.length := by
  unfold memcpyTo
  simp

theorem rdByte_eq_getElem (l : List Nat) (i : Nat) (h : i < l.length) : rdByte l i = l[i] := by
  unfold rdByte
  exact List.getD_eq_getElem _ _ h

/-- A copy that fills a whole block leaves the bytes copied. -/
theorem memcpyTo_full (dst src : List Nat) (n : Nat) (hd : dst.length = n) (hs : src.length = n) :
    memcpyTo dst 0 0 src n = src := by
  apply List.ext_getElem
  · rw [memcpyTo_length, hd, hs]
  · intro i h1 h2
    unfold memcpyTo
    rw [List.getElem_map, List.getElem_range]
    rw [if_pos (by omega), Nat.add_zero, Nat.sub_zero, rdByte_eq_getElem _ _ h2]

/-- A copy of `n` bytes that ends at the end of a block grown by `n` bytes
puts them behind the old bytes. -/
theorem memcpyTo_append (pre fill src : List Nat) (n : Nat) (hf : fill.length = n)
    (hs : src.length = n) :
    memcpyTo (pre ++ fill) (pre.length + n) n src n = pre ++ src := by
  apply List.ext_getElem
  · rw [memcpyTo_length, List.length_append, List.length_append, hf, hs]
  · intro i h1 h2
    unfold memcpyTo
    rw [List.getElem_map, List.getElem_range]
    rw [List.length_append] at h2
    by_cases hi : i < pre.length
    · rw [if_neg (by omega), rdByte_append_left _ _ _ hi, rdByte_eq_getElem _ _ hi,
        List.getElem_append_left hi]
    · rw [if_pos (by omega), show i + n - (pre.length + n) = i - pre.length by omega,
        rdByte_eq_getElem _ _ (by omega), List.getElem_append_right (by omega)]

/-- The table `setDeviceDescriptor` builds from an 18-byte structure. -/
theorem setDeviceDescriptor_table (b : Builder) (d : List Nat) (junk : Nat → Nat)
    (hlen : d.length = 18) :
    (setDeviceDescriptor b d junk).USBDescriptor = some ((d.set 0 0x12).set 1 0x01) := by
  unfold setDeviceDescriptor
  simp only
  rw [memcpyTo_full _ d 0x12 (realloc_length _ _ _) hlen]

/-- The shape of an 18-byte device descriptor with its two header bytes set. -/
theorem device_table_shape (d : List Nat) (hlen : d.length = 18) :
    ∃ tl, (d.set 0 0x12).set 1 0x01 = 0x12 :: 0x01 :: tl ∧ tl.length = 16 := by
  match d, hlen with
  | a :: c :: tl, h =>
    refine ⟨tl, by simp, ?_⟩
    simp only [List.length_cons] at h
    omega

/-- C17. For every 18-byte device descriptor `d`: after `setDeviceDescriptor(d)`
on a builder with no open configuration and no string block, and the seal
`setUSBDescriptor`, the registered table is `d` with byte 0 set to 0x12 and
byte 1 set to 0x01, and `USBGetDescriptor` for type DEVICE (1), index 0 returns
true with the data pointer at the start of that table and length 18. -/
theorem getDescriptor_device_after_seal (b0 : Builder) (s : StdReq) (d : List Nat)
    (junk1 junk2 : Nat → Nat) (wLangID : Nat) (hlen : d.length = 18)
    (hcfg : b0.USBConfigDescriptor = none) (hstr : b0.USBStringDescriptors = none) :
    (setUSBDescriptor (setDeviceDescriptor b0 d junk1) s junk2).2.pabDescrip
      = (d.set 0 0x12).set 1 0x01 ∧
    USBGetDescriptor (setUSBDescriptor (setDeviceDescriptor b0 d junk1) s junk2).2.pabDescrip
      (DESC_DEVICE <<< 8 ||| 0) wLangID = some (DescLookup.found 0 18) := by
  have htbl : (setUSBDescriptor (setDeviceDescriptor b0 d junk1) s junk2).2.pabDescrip
      = (d.set 0 0x12).set 1 0x01 := by
    have h1 := setDeviceDescriptor_table b0 d junk1 hlen
    have h2 : (setDeviceDescriptor b0 d junk1).USBConfigDescriptor = none := hcfg
    have h3 : (setDeviceDescriptor b0 d junk1).USBStringDescriptors = none := hstr
    unfold setUSBDescriptor
    rw [h1]
    simp only [h2, h3]
    rw [h1]
    rfl
  refine ⟨htbl, ?_⟩
  rw [htbl]
  obtain ⟨tl, hshape, htl⟩ := device_table_shape d hlen
  rw [hshape]
  have ht : GET_DESC_TYPE (DESC_DEVICE <<< 8 ||| 0) = 1 := by decide
  have hi : GET_DESC_INDEX (DESC_DEVICE <<< 8 ||| 0) = 0 := by decide
  unfold USBGetDescriptor
  rw [ht, hi, getDescLoop]
  simp [rdByte]

/-- The sample device descriptor, set on the initial builder and sealed. -/
theorem getDescriptor_device_after_seal_witness :
    sampleDeviceDesc.length = 18 ∧ builderInit.USBConfigDescriptor = none ∧
    builderInit.USBStringDescriptors = none ∧
    USBGetDescriptor
      (setUSBDescriptor (setDeviceDescriptor builderInit sampleDeviceDesc (fun _ => 0xAA))
        sampleStdReq (fun _ => 0xAA)).2.pabDescrip
      (DESC_DEVICE <<< 8 ||| 0) 0 = some (DescLookup.found 0 18) :=
  ⟨rfl, rfl, rfl,
    (getDescriptor_device_after_seal builderInit sampleStdReq sampleDeviceDesc (fun _ => 0xAA)
      (fun _ => 0xAA) 0 rfl rfl rfl).2⟩

/-- For a staging region of at most 255 bytes `finalizeConfigDescriptor`
appends it, with its total-length field set, to the device-level table. -/
theorem finalizeConfigDescriptor_small (b : Builder) (tbl cfg : List Nat) (junk : Nat → Nat)
    (htbl : b.USBDescriptor = some tbl) (hts : tbl.length = b.descriptorSize)
    (hcfg : b.USBConfigDescriptor = some cfg) (hcs : cfg.length = b.configSize)
    (hL : b.configSize ≤ 255) (hsum : b.descriptorSize + b.configSize < 65536) :
    (finalizeConfigDescriptor b junk).USBDescriptor
      = some (tbl ++ (cfg.set 2 (b.configSize % 256)).set 3 (b.configSize / 256 % 256)) ∧
    (finalizeConfigDescriptor b junk).descriptorSize = b.descriptorSize + b.configSize ∧
    (finalizeConfigDescriptor b junk).USBConfigDescriptor = none := by
  have h256 : b.configSize % 256 = b.configSize := Nat.mod_eq_of_lt (by omega)
  refine ⟨?_, ?_, ?_⟩
  · unfold finalizeConfigDescriptor
    rw [hcfg]
    simp only [expandDescriptor, htbl, Option.getD_some]
    rw [h256, Nat.mod_eq_of_lt hsum, ← hts, realloc_grow]
    have := memcpyTo_append tbl ((List.range b.configSize).map (fun i => junk (tbl.length + i)))
      ((cfg.set 2 b.configSize).set 3 (b.configSize / 256 % 256)) b.configSize (by simp)
      (by simp [hcs])
    rw [this]
  · unfold finalizeConfigDescriptor
    rw [hcfg]
    simp only [expandDescriptor]
    rw [h256, Nat.mod_eq_of_lt hsum]
  · unfold finalizeConfigDescriptor
    rw [hcfg]

set_option maxRecDepth 8000 in
/-- C18 at the failing input: an 18-byte device table and an open
configuration staging region of 265 bytes.  `finalizeConfigDescriptor` grows
the table by 9 bytes (265 mod 256), not by 265, and the copy of 265 bytes that
ends at the end of the table overwrites the device descriptor. -/
theorem finalizeConfigDescriptor_truncates :
    sampleBuilderBigConfig.descriptorSize = 18 ∧
    sampleBuilderBigConfig.configSize = 265 ∧
    (sampleBuilderBigConfig.USBConfigDescriptor.getD []).length = 265 ∧
    (finalizeConfigDescriptor sampleBuilderBigConfig (fun _ => 0xAA)).descriptorSize = 27 ∧
    ((finalizeConfigDescriptor sampleBuilderBigConfig (fun _ => 0xAA)).USBDescriptor.getD []).length
      = 27 ∧
    ((finalizeConfigDescriptor sampleBuilderBigConfig (fun _ => 0xAA)).USBDescriptor.getD []).take 18
      ≠ (sampleBuilderBigConfig.USBDescriptor.getD []) := by
  decide

/-- C19, as amended. For a builder with an open configuration staging region
and an open interface staging region of `S ≤ 255` bytes,
`finalizeInterfaceDescriptor` appends the `S` bytes of the interface region to
the configuration region, whose earlier bytes (the interface-count field, byte
4, among them) stay as they are and whose size grows by exactly `S`, and closes
the interface region; the interface-count field is incremented, by one, when
the interface is begun, by `initInterfaceDescriptor`. -/
theorem finalizeInterfaceDescriptor_appends (b : Builder) (cfg intf : List Nat)
    (junk : Nat → Nat)
    (hcfg : b.USBConfigDescriptor = some cfg) (hcs : cfg.length = b.configSize)
    (hintf : b.USBInterfaceDescriptor = some intf) (his : intf.length = b.interfaceSize)
    (hS : b.interfaceSize ≤ 255) (hsum : b.configSize + b.interfaceSize < 65536) :
    (finalizeInterfaceDescriptor b junk).USBConfigDescriptor = some (cfg ++ intf) ∧
    (finalizeInterfaceDescriptor b junk).configSize = b.configSize + b.interfaceSize ∧
    (finalizeInterfaceDescriptor b junk).USBInterfaceDescriptor = none ∧
    (4 < cfg.length → rdByte (cfg ++ intf) 4 = rdByte cfg 4) ∧
    (∀ (desc : List Nat) (junk2 : Nat → Nat),
      (initInterfaceDescriptor b desc junk2).USBConfigDescriptor
        = some (cfg.set 4 ((rdByte cfg 4 + 1) % 256))) := by
  have h256 : b.interfaceSize % 256 = b.interfaceSize := Nat.mod_eq_of_lt (by omega)
  refine ⟨?_, ?_, ?_, ?_, ?_⟩
  · unfold finalizeInterfaceDescriptor
    rw [hintf]
    simp only [expandConfigDescriptor, hcfg, Option.getD_some]
    rw [h256, Nat.mod_eq_of_lt hsum, ← hcs, realloc_grow]
    have := memcpyTo_append cfg
      ((List.range b.interfaceSize).map (fun i => junk (cfg.length + i))) intf b.interfaceSize
      (by simp) his
    rw [this]
  · unfold finalizeInterfaceDescriptor
    rw [hintf]
    simp only [expandConfigDescriptor]
    rw [h256, Nat.mod_eq_of_lt hsum]
  · unfold finalizeInterfaceDescriptor
    rw [hintf]
  · intro h4
    exact rdByte_append_left cfg intf 4 h4
  · intro desc junk2
    unfold initInterfaceDescriptor
    simp only [hcfg, Option.map_some']

/-- The sample builder with a configuration and an interface begun: finalizing
the interface appends its 9 bytes to the 9 bytes of the configuration. -/
theorem finalizeInterfaceDescriptor_appends_witness :
    sampleBuilderInterface.USBConfigDescriptor = some [9, 2, 0, 0, 1, 1, 0, 0x80, 50] ∧
    sampleBuilderInterface.USBInterfaceDescriptor = some [9, 4, 0, 0, 0, 8, 6, 80, 0] ∧
    sampleBuilderInterface.interfaceSize ≤ 255 ∧
    (finalizeInterfaceDescriptor sampleBuilderInterface (fun _ => 0xAA)).USBConfigDescriptor
      = some ([9, 2, 0, 0, 1, 1, 0, 0x80, 50] ++ [9, 4, 0, 0, 0, 8, 6, 80, 0]) :=
  ⟨by decide, by decide, by decide,
    (finalizeInterfaceDescriptor_appends sampleBuilderInterface [9, 2, 0, 0, 1, 1, 0, 0x80, 50]
      [9, 4, 0, 0, 0, 8, 6, 80, 0] (fun _ => 0xAA) (by decide) (by decide) (by decide)
      (by decide) (by decide) (by decide)).1⟩

/-- C19, as stated, fails: `finalizeInterfaceDescriptor` does not touch the
interface-count field; it is 1 before the call (set when the interface was
begun) and 1 after it. -/
theorem finalizeInterfaceDescriptor_count_counterexample :
    rdByte (sampleBuilderInterface.USBConfigDescriptor.getD []) 4 = 1 ∧
    rdByte ((finalizeInterfaceDescriptor sampleBuilderInterface
      (fun _ => 0xAA)).USBConfigDescriptor.getD []) 4 = 1 ∧
    rdByte ((finalizeInterfaceDescriptor sampleBuilderInterface
      (fun _ => 0xAA)).USBConfigDescriptor.getD []) 4
      ≠ rdByte (sampleBuilderInterface.USBConfigDescriptor.getD []) 4 + 1 := by
  decide

/-- C20 at the failing input: the 18-byte device table and one string block of
4 bytes.  After the seal the string block lies over bytes 0..3 of the device
descriptor, and the 4 bytes behind the device data are what the allocator left
there (0xAA here). -/
theorem setUSBDescriptor_strings_overwrite :
    sampleBuilderString.USBDescriptor
      = some [0x12, 0x01, 0x00, 0x02, 0x00, 0x00, 0x00, 0x40, 0xFF, 0xFF, 0x05, 0x00, 0x00, 0x01,
          0x01, 0x02, 0x03, 0x01] ∧
    sampleBuilderString.USBStringDescriptors = some [0x02, 0x03, 0x09, 0x04] ∧
    (setUSBDescriptor sampleBuilderString sampleStdReq (fun _ => 0xAA)).2.pabDescrip
      = [0x02, 0x03, 0x09, 0x04, 0x00, 0x00, 0x00, 0x40, 0xFF, 0xFF, 0x05, 0x00, 0x00, 0x01,
          0x01, 0x02, 0x03, 0x01, 0xAA, 0xAA, 0xAA, 0xAA] ∧
    (setUSBDescriptor sampleBuilderString sampleStdReq (fun _ => 0xAA)).2.pabDescrip
      ≠ sampleBuilderString.USBDescriptor.getD []
          ++ sampleBuilderString.USBStringDescriptors.getD [] := by
  decide

/-! ## Finalize without begin -/

theorem finalizeConfigDescriptor_closes (b : Builder) (junk : Nat → Nat) :
    (finalizeConfigDescriptor b junk).USBConfigDescriptor = none := by
  unfold finalizeConfigDescriptor
  cases h : b.USBConfigDescriptor with
  | none => simp only [h]
  | some cfg => rfl

theorem finalizeInterfaceDescriptor_closes (b : Builder) (junk : Nat → Nat) :
    (finalizeInterfaceDescriptor b junk).USBInterfaceDescriptor = none := by
  unfold finalizeInterfaceDescriptor
  cases h : b.USBInterfaceDescriptor with
  | none => simp only [h]
  | some intf => rfl

theorem finalizeConfigDescriptor_of_none (b : Builder) (junk : Nat → Nat)
    (h : b.USBConfigDescriptor = none) : finalizeConfigDescriptor b junk = b := by
  unfold finalizeConfigDescriptor
  rw [h]

theorem finalizeInterfaceDescriptor_of_none (b : Builder) (junk : Nat → Nat)
    (h : b.USBInterfaceDescriptor = none) : finalizeInterfaceDescriptor b junk = b := by
  unfold finalizeInterfaceDescriptor
  rw [h]

/-- C23. With no open configuration staging region `finalizeConfigDescriptor`
leaves the whole builder state as it is, and with no open interface staging
region so does `finalizeInterfaceDescriptor`; either finalize called twice in
a row has the effect of calling it once. -/
theorem finalize_without_begin :
    (∀ (b : Builder) (junk : Nat → Nat), b.USBConfigDescriptor = none →
      finalizeConfigDescriptor b junk = b) ∧
    (∀ (b : Builder) (junk : Nat → Nat), b.USBInterfaceDescriptor = none →
      finalizeInterfaceDescriptor b junk = b) ∧
    (∀ (b : Builder) (junk1 junk2 : Nat → Nat),
      finalizeConfigDescriptor (finalizeConfigDescriptor b junk1) junk2
        = finalizeConfigDescriptor b junk1) ∧
    (∀ (b : Builder) (junk1 junk2 : Nat → Nat),
      finalizeInterfaceDescriptor (finalizeInterfaceDescriptor b junk1) junk2
        = finalizeInterfaceDescriptor b junk1) :=
  ⟨finalizeConfigDescriptor_of_none, finalizeInterfaceDescriptor_of_none,
    fun b junk1 junk2 =>
      finalizeConfigDescriptor_of_none _ junk2 (finalizeConfigDescriptor_closes b junk1),
    fun b junk1 junk2 =>
      finalizeInterfaceDescriptor_of_none _ junk2 (finalizeInterfaceDescriptor_closes b junk1)⟩

/-- On the builder that holds only the device descriptor both finalize calls
change nothing. -/
theorem finalize_without_begin_witness :
    sampleBuilderDevice.USBConfigDescriptor = none ∧
    sampleBuilderDevice.USBInterfaceDescriptor = none ∧
    finalizeConfigDescriptor sampleBuilderDevice (fun _ => 0xAA) = sampleBuilderDevice ∧
    finalizeInterfaceDescriptor sampleBuilderDevice (fun _ => 0xAA) = sampleBuilderDevice :=
  ⟨rfl, rfl, finalize_without_begin.1 sampleBuilderDevice (fun _ => 0xAA) rfl,
    finalize_without_begin.2.1 sampleBuilderDevice (fun _ => 0xAA) rfl⟩

/-! ## Media errors -/

/-- C24. A READ(10) chunk call at a block-aligned offset whose block-device
read fails returns failure, leaves the sense word as it was and leaves the
chunk buffer unwritten; a WRITE(10) chunk call at intra-block position 448
whose block-device write fails returns failure and leaves the sense word as it
was. -/
theorem media_error_keeps_sense (s : ScsiState) (cdb : List Nat) (len : Nat) (buf : Nat → Nat)
    (off : Nat) :
    (rdByte cdb 0 = 0x28 → off % 512 = 0 →
      s.dev.readOk (U32 (cdbLBA cdb + off / 512)) = false →
      (SCSIHandleData s cdb len buf off).ok = false ∧
      (SCSIHandleData s cdb len buf off).state.dwSense = s.dwSense ∧
      (SCSIHandleData s cdb len buf off).pbData = buf) ∧
    (rdByte cdb 0 = 0x2A → off % 512 = 448 →
      s.dev.writeOk (U32 (cdbLBA cdb + off / 512)) = false →
      (SCSIHandleData s cdb len buf off).ok = false ∧
      (SCSIHandleData s cdb len buf off).state.dwSense = s.dwSense) := by
  have hpos : off &&& 511 = off % 512 := and_511 off
  refine ⟨?_, ?_⟩
  · intro hop h0 hfail
    unfold SCSIHandleData
    simp only [hop, hpos, h0]
    simp [BlockDevRead, hfail]
  · intro hop h448 hfail
    unfold SCSIHandleData
    simp only [hop, hpos, h448]
    simp [BlockDevWrite, hfail]

/-- On a device whose reads and writes fail, with the sense word 0x052400 set
before: the READ(10) call at offset 512 and the WRITE(10) call at offset 448
fail and the sense word is still 0x052400. -/
theorem media_error_keeps_sense_witness :
    failingScsi.dev.readOk (U32 (cdbLBA [0x28, 0, 0, 0, 0, 5, 0, 0, 2, 0] + 512 / 512)) = false ∧
    ((SCSIHandleData failingScsi [0x28, 0, 0, 0, 0, 5, 0, 0, 2, 0] 10 (fun _ => 0xEE) 512).ok
        = false ∧
      (SCSIHandleData failingScsi [0x28, 0, 0, 0, 0, 5, 0, 0, 2, 0] 10 (fun _ => 0xEE)
        512).state.dwSense = failingScsi.dwSense ∧
      (SCSIHandleData failingScsi [0x28, 0, 0, 0, 0, 5, 0, 0, 2, 0] 10 (fun _ => 0xEE) 512).pbData
        = fun _ => 0xEE) ∧
    ((SCSIHandleData failingScsi [0x2A, 0, 0, 0, 0, 5, 0, 0, 2, 0] 10 (fun _ => 0xEE) 448).ok
        = false ∧
      (SCSIHandleData failingScsi [0x2A, 0, 0, 0, 0, 5, 0, 0, 2, 0] 10 (fun _ => 0xEE)
        448).state.dwSense = failingScsi.dwSense) :=
  ⟨rfl,
    (media_error_keeps_sense failingScsi [0x28, 0, 0, 0, 0, 5, 0, 0, 2, 0] 10 (fun _ => 0xEE)
      512).1 rfl (by decide) rfl,
    (media_error_keeps_sense failingScsi [0x2A, 0, 0, 0, 0, 5, 0, 0, 2, 0] 10 (fun _ => 0xEE)
      448).2 rfl (by decide) rfl⟩

/-! ## What the chapter-9 handlers change -/

/-- The activation loop only appends calls, none of them a set-endpoint-halt. -/
theorem setConfLoop_adds (tbl : List Nat) (k alt : Nat) :
    ∀ (fuel p c a : Nat) (hw hw1 : List HwCall),
      setConfLoop tbl k alt fuel p c a hw = some hw1 →
      ∃ added, hw1 = hw ++ added ∧ ∀ x ∈ added, isStall x = false := by
  intro fuel
  induction fuel with
  | zero =>
    intro p c a hw hw1 h
    simp [setConfLoop] at h
  | succ n ih =>
    intro p c a hw hw1 h
    unfold setConfLoop at h
    split_ifs at h with h0 h1 h2 h3 h4
    · exact ih _ _ _ _ _ h
    · exact ih _ _ _ _ _ h
    · obtain ⟨added, hadd, hno⟩ := ih _ _ _ _ _ h
      refine ⟨_ :: added, by rw [hadd, List.append_assoc]; rfl, ?_⟩
      intro x hx
      rcases List.mem_cons.1 hx with hx | hx
      · rw [hx]; rfl
      · exact hno x hx
    · exact ih _ _ _ _ _ h
    · exact ih _ _ _ _ _ h
    · simp only [Option.some.injEq] at h
      exact ⟨[], by rw [← h, List.append_nil], by simp⟩

/-- Function `USBSetConfiguration` only appends calls, none of them a
set-endpoint-halt. -/
theorem USBSetConfiguration_adds (tbl : List Nat) (k alt : Nat) (hw hw1 : List HwCall) (r : Bool)
    (h : USBSetConfiguration tbl k alt hw = some (r, hw1)) :
    ∃ added, hw1 = hw ++ added ∧ ∀ x ∈ added, isStall x = false := by
  unfold USBSetConfiguration at h
  split_ifs at h with h0
  · simp only [Option.some.injEq, Prod.mk.injEq] at h
    exact ⟨[HwCall.USBHwConfigDevice false], h.2.symm, by simp [isStall]⟩
  · cases hl : setConfLoop tbl k alt (tbl.length + 1) 0 0xFF 0xFF hw with
    | none => simp [hl] at h
    | some hw2 =>
      simp only [hl, Option.some.injEq, Prod.mk.injEq] at h
      obtain ⟨added, hadd, hno⟩ := setConfLoop_adds tbl k alt _ _ _ _ _ _ hl
      refine ⟨added ++ [HwCall.USBHwConfigDevice true], ?_, ?_⟩
      · rw [← h.2, hadd, List.append_assoc]
      · intro x hx
        rcases List.mem_append.1 hx with hx | hx
        · exact hno x hx
        · simp only [List.mem_singleton] at hx
          rw [hx]; rfl

/-- The device handler: the configuration index is written by
SET_CONFIGURATION only, and no set-endpoint-halt call is issued. -/
theorem HandleStdDeviceReq_effect (s : StdReq) (pSetup : TSetupPacket) (e : Env)
    (x : Bool × StdReq × Env) (h : HandleStdDeviceReq s pSetup e = some x) :
    x.2.1.bConfiguration
      = (if pSetup.bRequest = REQ_SET_CONFIGURATION then pSetup.wValue &&& 0xFF
         else s.bConfiguration) ∧
    ∃ added, x.2.2.hwCalls = e.hwCalls ++ added ∧ ∀ c ∈ added, isStall c = false := by
  unfold HandleStdDeviceReq at h
  split_ifs at h with h0 h5 h6 h8 h9 h13 h7
  · simp only [Option.some.injEq] at h
    subst h
    exact ⟨by rw [if_neg (by rw [h0]; decide)], [], by simp, by simp⟩
  · simp only [Option.some.injEq] at h
    subst h
    exact ⟨by rw [if_neg (by rw [h5]; decide)], [HwCall.USBHwSetAddress pSetup.wValue], rfl,
      by simp [isStall]⟩
  · have hne : ¬ pSetup.bRequest = REQ_SET_CONFIGURATION := by rw [h6]; decide
    rw [if_neg hne]
    cases hl : USBGetDescriptor s.pabDescrip pSetup.wValue pSetup.wIndex with
    | none => simp [hl] at h
    | some res =>
      cases res with
      | found q l =>
        simp only [hl, Option.some.injEq] at h
        subst h
        exact ⟨rfl, [], by simp, by simp⟩
      | notFound =>
        simp only [hl, Option.some.injEq] at h
        subst h
        exact ⟨rfl, [], by simp, by simp⟩
  · simp only [Option.some.injEq] at h
    subst h
    exact ⟨by rw [if_neg (by rw [h8]; decide)], [], by simp, by simp⟩
  · rw [if_pos h9]
    cases hl : USBSetConfiguration s.pabDescrip (pSetup.wValue &&& 0xFF) 0 e.hwCalls with
    | none => simp [hl] at h
    | some res =>
      obtain ⟨r, hw⟩ := res
      obtain ⟨hw0, hhw0⟩ := USBSetConfiguration_returns s.pabDescrip (pSetup.wValue &&& 0xFF) 0
        e.hwCalls
      rw [hhw0] at hl
      simp only [Option.some.injEq, Prod.mk.injEq] at hl
      obtain ⟨hr, hhw⟩ := hl
      subst hr hhw
      simp only [hhw0, Option.some.injEq] at h
      subst h
      exact ⟨rfl, USBSetConfiguration_adds _ _ _ _ _ _ hhw0⟩
  · simp only [Option.some.injEq] at h
    subst h
    exact ⟨by rw [if_neg h9], [], by simp, by simp⟩
  · simp only [Option.some.injEq] at h
    subst h
    exact ⟨by rw [if_neg h9], [], by simp, by simp⟩
  · simp only [Option.some.injEq] at h
    subst h
    exact ⟨by rw [if_neg h9], [], by simp, by simp⟩

/-- The interface handler keeps the module state and issues no hardware call. -/
theorem HandleStdInterfaceReq_effect (s : StdReq) (pSetup : TSetupPacket) (e : Env)
    (x : Bool × StdReq × Env) (h : HandleStdInterfaceReq s pSetup e = some x) :
    x.2.1 = s ∧ x.2.2.hwCalls = e.hwCalls := by
  unfold HandleStdInterfaceReq at h
  split_ifs at h
  all_goals
    simp only [Option.some.injEq] at h
    subst h
    exact ⟨rfl, rfl⟩

/-- The endpoint handler keeps the module state, and issues a
set-endpoint-halt call exactly for CLEAR_FEATURE and SET_FEATURE with feature
selector ENDPOINT_HALT. -/
theorem HandleStdEndPointReq_effect (EP : Nat) (s : StdReq) (pSetup : TSetupPacket) (e : Env)
    (x : Bool × StdReq × Env) (h : HandleStdEndPointReq EP s pSetup e = some x) :
    x.2.1 = s ∧
    ∃ added, x.2.2.hwCalls = e.hwCalls ++ added ∧
      ((∃ c ∈ added, isStall c = true) ↔
        ((pSetup.bRequest = REQ_CLEAR_FEATURE ∨ pSetup.bRequest = REQ_SET_FEATURE) ∧
          pSetup.wValue = FEA_ENDPOINT_HALT)) := by
  by_cases h0 : pSetup.bRequest = REQ_GET_STATUS
  · rw [HandleStdEndPointReq, if_pos h0] at h
    simp only [Option.some.injEq] at h
    subst h
    refine ⟨rfl, [HwCall.USBHwEPGetStatus pSetup.wIndex], rfl, ?_⟩
    simp [isStall, h0]
  by_cases h1 : pSetup.bRequest = REQ_CLEAR_FEATURE
  · rw [HandleStdEndPointReq, if_neg h0, if_pos h1] at h
    by_cases hv : pSetup.wValue = FEA_ENDPOINT_HALT
    · rw [if_pos hv] at h
      simp only [Option.some.injEq] at h
      subst h
      refine ⟨rfl, [HwCall.USBHwEPStall pSetup.wIndex false], rfl, ?_⟩
      simp [isStall, h1, hv]
    · rw [if_neg hv] at h
      simp only [Option.some.injEq] at h
      subst h
      refine ⟨rfl, [], by simp, ?_⟩
      simp [hv]
  by_cases h3 : pSetup.bRequest = REQ_SET_FEATURE
  · rw [HandleStdEndPointReq, if_neg h0, if_neg h1, if_pos h3] at h
    by_cases hv : pSetup.wValue = FEA_ENDPOINT_HALT
    · rw [if_pos hv] at h
      simp only [Option.some.injEq] at h
      subst h
      refine ⟨rfl, [HwCall.USBHwEPStall pSetup.wIndex true], rfl, ?_⟩
      simp [isStall, h3, hv]
    · rw [if_neg hv] at h
      simp only [Option.some.injEq] at h
      subst h
      refine ⟨rfl, [], by simp, ?_⟩
      simp [hv]
  · rw [HandleStdEndPointReq, if_neg h0, if_neg h1, if_neg h3] at h
    have hx : x = (false, s, e) := by
      split_ifs at h
      all_goals
        simp only [Option.some.injEq] at h
        exact h.symm
    subst hx
    refine ⟨rfl, [], by simp, ?_⟩
    simp [h1, h3]

/-- The recipient switch returns. -/
theorem dispatchStd_returns (EP : Nat) (s : StdReq) (pSetup : TSetupPacket) (e : Env) :
    ∃ x, dispatchStd EP s pSetup e = some x := by
  unfold dispatchStd
  split_ifs
  · obtain ⟨r, hr, _⟩ := HandleStdDeviceReq_handled s pSetup e
    obtain ⟨s1, e1, h⟩ := exists_of_map_fst hr
    exact ⟨_, h⟩
  · obtain ⟨r, hr, _⟩ := HandleStdInterfaceReq_handled s pSetup e
    obtain ⟨s1, e1, h⟩ := exists_of_map_fst hr
    exact ⟨_, h⟩
  · obtain ⟨r, hr, _⟩ := HandleStdEndPointReq_handled EP s pSetup e
    obtain ⟨s1, e1, h⟩ := exists_of_map_fst hr
    exact ⟨_, h⟩
  · exact ⟨_, rfl⟩

/-- The recipient switch: the configuration index is written by the device
SET_CONFIGURATION only, and a set-endpoint-halt call is issued exactly for the
endpoint CLEAR_FEATURE and SET_FEATURE with feature selector ENDPOINT_HALT. -/
theorem dispatchStd_effect (EP : Nat) (s : StdReq) (pSetup : TSetupPacket) (e : Env)
    (x : Bool × StdReq × Env) (h : dispatchStd EP s pSetup e = some x) :
    x.2.1.bConfiguration
      = (if REQTYPE_GET_RECIP pSetup.bmRequestType = REQTYPE_RECIP_DEVICE ∧
            pSetup.bRequest = REQ_SET_CONFIGURATION then pSetup.wValue &&& 0xFF
         else s.bConfiguration) ∧
    ∃ added, x.2.2.hwCalls = e.hwCalls ++ added ∧
      ((∃ c ∈ added, isStall c = true) ↔
        (REQTYPE_GET_RECIP pSetup.bmRequestType = REQTYPE_RECIP_ENDPOINT ∧
          (pSetup.bRequest = REQ_CLEAR_FEATURE ∨ pSetup.bRequest = REQ_SET_FEATURE) ∧
          pSetup.wValue = FEA_ENDPOINT_HALT)) := by
  unfold dispatchStd at h
  split_ifs at h with hd hi he
  · obtain ⟨hc, added, hadd, hno⟩ := HandleStdDeviceReq_effect s pSetup e x h
    refine ⟨by rw [hc]; simp only [hd, true_and], added, hadd, ?_⟩
    constructor
    · rintro ⟨c, hc1, hc2⟩
      rw [hno c hc1] at hc2
      exact absurd hc2 (by decide)
    · rintro ⟨h2, _⟩
      rw [hd] at h2
      exact absurd h2 (by decide)
  · obtain ⟨hs, hhw⟩ := HandleStdInterfaceReq_effect s pSetup e x h
    refine ⟨by rw [hs, if_neg (fun hh => hd hh.1)], [], by rw [hhw, List.append_nil], ?_⟩
    constructor
    · rintro ⟨c, hc1, _⟩
      simp at hc1
    · rintro ⟨h2, _⟩
      rw [hi] at h2
      exact absurd h2 (by decide)
  · obtain ⟨hs, added, hadd, hiff⟩ := HandleStdEndPointReq_effect EP s pSetup e x h
    refine ⟨by rw [hs, if_neg (fun hh => hd hh.1)], added, hadd, ?_⟩
    rw [hiff]
    exact ⟨fun hh => ⟨he, hh⟩, fun hh => hh.2⟩
  · simp only [Option.some.injEq] at h
    subst h
    refine ⟨by rw [if_neg (fun hh => hd hh.1)], [], by simp, ?_⟩
    constructor
    · rintro ⟨c, hc1, _⟩
      simp at hc1
    · rintro ⟨h2, _⟩
      exact absurd h2 he

/-- What `USBHandleStandardRequest` does when the custom handler claims the
request. -/
theorem USBHandleStandardRequest_of_preempt (EP : Nat) (s : StdReq) (pSetup : TSetupPacket)
    (e : Env) (h : ¬ NoPreempt s pSetup e) :
    USBHandleStandardRequest EP s pSetup e = some (true, s, afterCustom s pSetup e) := by
  unfold NoPreempt at h
  push_neg at h
  obtain ⟨pfn, hp, ht⟩ := h
  have ht1 : (pfn pSetup e).1 = true := by
    cases hb : (pfn pSetup e).1 with
    | false => exact absurd hb ht
    | true => rfl
  unfold USBHandleStandardRequest afterCustom
  simp [hp, ht1]

/-- C25. `USBHandleStandardRequest` returns, and the active configuration
index afterwards is the low byte of `wValue` when the request is a
device-recipient SET_CONFIGURATION that reaches the standard handler (no
custom handler, or one that returns false), and is the index from before for
every other request. -/
theorem bConfiguration_frame (EP : Nat) (s : StdReq) (pSetup : TSetupPacket) (e : Env) :
    ∃ r s1 e1, USBHandleStandardRequest EP s pSetup e = some (r, s1, e1) ∧
      ((NoPreempt s pSetup e ∧ REQTYPE_GET_RECIP pSetup.bmRequestType = REQTYPE_RECIP_DEVICE ∧
          pSetup.bRequest = REQ_SET_CONFIGURATION) →
        s1.bConfiguration = pSetup.wValue &&& 0xFF) ∧
      (¬ (NoPreempt s pSetup e ∧ REQTYPE_GET_RECIP pSetup.bmRequestType = REQTYPE_RECIP_DEVICE ∧
          pSetup.bRequest = REQ_SET_CONFIGURATION) →
        s1.bConfiguration = s.bConfiguration) := by
  by_cases hNo : NoPreempt s pSetup e
  · obtain ⟨x, hx⟩ := dispatchStd_returns EP s pSetup (afterCustom s pSetup e)
    obtain ⟨hc, _⟩ := dispatchStd_effect EP s pSetup (afterCustom s pSetup e) x hx
    obtain ⟨r, s1, e1⟩ := x
    refine ⟨r, s1, e1, by rw [USBHandleStandardRequest_of_noPreempt EP s pSetup e hNo, hx], ?_, ?_⟩
    · intro hh
      rw [hc, if_pos hh.2]
    · intro hh
      rw [hc, if_neg (fun h2 => hh ⟨hNo, h2⟩)]
  · exact ⟨true, s, afterCustom s pSetup e, USBHandleStandardRequest_of_preempt EP s pSetup e hNo,
      fun hh => absurd hh.1 hNo, fun _ => rfl⟩

/-- On the sample device SET_CONFIGURATION(1) leaves the active index 1, and
the endpoint request SET_FEATURE(ENDPOINT_HALT) leaves the index 0 from
before. -/
theorem bConfiguration_frame_witness :
    (∃ r s1 e1, USBHandleStandardRequest 2 sampleStdReq (stdPacket 0 9 1 0) sampleEnv
      = some (r, s1, e1) ∧ s1.bConfiguration = 1) ∧
    (∃ r s1 e1, USBHandleStandardRequest 2 sampleStdReq (stdPacket 2 3 0 0x81) sampleEnv
      = some (r, s1, e1) ∧ s1.bConfiguration = 0) := by
  constructor
  · obtain ⟨r, s1, e1, h, hset, _⟩ :=
      bConfiguration_frame 2 sampleStdReq (stdPacket 0 9 1 0) sampleEnv
    exact ⟨r, s1, e1, h,
      hset ⟨fun pfn hp => absurd hp (by simp [sampleStdReq]), by decide, rfl⟩⟩
  · obtain ⟨r, s1, e1, h, _, hkeep⟩ :=
      bConfiguration_frame 2 sampleStdReq (stdPacket 2 3 0 0x81) sampleEnv
    exact ⟨r, s1, e1, h, hkeep (fun hh => absurd hh.2.1 (by decide))⟩

/-- C26. `USBHandleStandardRequest` returns, the hardware calls afterwards are
those issued up to the end of the custom handler followed by the calls the
standard handlers add, and a set-endpoint-halt call is among the added ones if
and only if the request reaches the standard handlers, its recipient is
ENDPOINT, its request code is CLEAR_FEATURE or SET_FEATURE and its `wValue` is
ENDPOINT_HALT. -/
theorem stall_only_for_endpoint_halt (EP : Nat) (s : StdReq) (pSetup : TSetupPacket) (e : Env) :
    ∃ r s1 e1 added, USBHandleStandardRequest EP s pSetup e = some (r, s1, e1) ∧
      e1.hwCalls = (afterCustom s pSetup e).hwCalls ++ added ∧
      ((∃ c ∈ added, isStall c = true) ↔
        (NoPreempt s pSetup e ∧
          REQTYPE_GET_RECIP pSetup.bmRequestType = REQTYPE_RECIP_ENDPOINT ∧
          (pSetup.bRequest = REQ_CLEAR_FEATURE ∨ pSetup.bRequest = REQ_SET_FEATURE) ∧
          pSetup.wValue = FEA_ENDPOINT_HALT)) := by
  by_cases hNo : NoPreempt s pSetup e
  · obtain ⟨x, hx⟩ := dispatchStd_returns EP s pSetup (afterCustom s pSetup e)
    obtain ⟨_, added, hadd, hiff⟩ := dispatchStd_effect EP s pSetup (afterCustom s pSetup e) x hx
    obtain ⟨r, s1, e1⟩ := x
    refine ⟨r, s1, e1, added,
      by rw [USBHandleStandardRequest_of_noPreempt EP s pSetup e hNo, hx], hadd, ?_⟩
    rw [hiff]
    exact ⟨fun hh => ⟨hNo, hh⟩, fun hh => hh.2⟩
  · refine ⟨true, s, afterCustom s pSetup e, [],
      USBHandleStandardRequest_of_preempt EP s pSetup e hNo, by simp, ?_⟩
    constructor
    · rintro ⟨c, hc, _⟩
      simp at hc
    · intro hh
      exact absurd hh.1 hNo

/-- On the sample device SET_CONFIGURATION(1) adds no set-endpoint-halt call. -/
theorem stall_only_for_endpoint_halt_witness :
    ∃ r s1 e1 added, USBHandleStandardRequest 2 sampleStdReq (stdPacket 0 9 1 0) sampleEnv
        = some (r, s1, e1) ∧
      e1.hwCalls = sampleEnv.hwCalls ++ added ∧ ∀ c ∈ added, isStall c = false := by
  obtain ⟨r, s1, e1, added, h, hadd, hiff⟩ :=
    stall_only_for_endpoint_halt 2 sampleStdReq (stdPacket 0 9 1 0) sampleEnv
  refine ⟨r, s1, e1, added, h, hadd, ?_⟩
  intro c hc
  cases hs : isStall c with
  | false => rfl
  | true =>
    have := (hiff.mp ⟨c, hc, hs⟩).2.1
    exact absurd this (by decide)

/-! ## Termination of the table scans -/

/-- Dropping the counter from the counting lookup loop gives the lookup loop. -/
theorem getDescLoopCount_fst (tbl : List Nat) (T N : Nat) :
    ∀ (fuel p i n : Nat),
      (getDescLoopCount tbl T N fuel p i n).map Prod.fst = getDescLoop tbl T N fuel p i := by
  intro fuel
  induction fuel with
  | zero => intro p i n; rfl
  | succ f ih =>
    intro p i n
    unfold getDescLoopCount getDescLoop
    split_ifs
    · rfl
    · rfl
    · exact ih _ _ _
    · exact ih _ _ _
    · rfl

/-- Dropping the counter from the counting activation loop gives the
activation loop. -/
theorem setConfLoopCount_fst (tbl : List Nat) (k alt : Nat) :
    ∀ (fuel p c a : Nat) (hw : List HwCall) (n : Nat),
      (setConfLoopCount tbl k alt fuel p c a hw n).map Prod.fst
        = setConfLoop tbl k alt fuel p c a hw := by
  intro fuel
  induction fuel with
  | zero => intro p c a hw n; rfl
  | succ f ih =>
    intro p c a hw n
    unfold setConfLoopCount setConfLoop
    split_ifs
    · exact ih _ _ _ _ _
    · exact ih _ _ _ _ _
    · exact ih _ _ _ _ _
    · exact ih _ _ _ _ _
    · exact ih _ _ _ _ _
    · rfl

/-- The counting lookup loop returns when the fuel covers the bytes that are
left, and executes its body at most once per byte that is left. -/
theorem getDescLoopCount_bound (tbl : List Nat) (T N : Nat) :
    ∀ (fuel p i n : Nat), tbl.length ≤ fuel + p →
      ∃ r m, getDescLoopCount tbl T N (fuel + 1) p i n = some (r, m) ∧
        m ≤ n + (tbl.length - p) := by
  intro fuel
  induction fuel with
  | zero =>
    intro p i n h
    rw [getDescLoopCount]
    simp only [DESC_bLength, Nat.add_zero]
    rw [rdByte_of_le tbl p (by omega)]
    exact ⟨.notFound, n, by simp, by omega⟩
  | succ f ih =>
    intro p i n h
    rw [getDescLoopCount]
    simp only [DESC_bLength, Nat.add_zero]
    by_cases h0 : rdByte tbl p = 0
    · exact ⟨.notFound, n, by simp [h0], by omega⟩
    · have hp : p < tbl.length := by
        by_contra hc
        exact h0 (rdByte_of_le tbl p (by omega))
      have hnext : tbl.length ≤ f + (p + rdByte tbl p) := by omega
      simp only [ne_eq, h0, not_false_eq_true, if_true]
      split
      · split
        · split
          · exact ⟨_, _, rfl, by omega⟩
          · exact ⟨_, _, rfl, by omega⟩
        · obtain ⟨r, m, hr, hm⟩ := ih (p + rdByte tbl p) (i + 1) (n + 1) hnext
          exact ⟨r, m, hr, by omega⟩
      · obtain ⟨r, m, hr, hm⟩ := ih (p + rdByte tbl p) i (n + 1) hnext
        exact ⟨r, m, hr, by omega⟩

/-- The counting activation loop returns when the fuel covers the bytes that
are left, and executes its body at most once per byte that is left. -/
theorem setConfLoopCount_bound (tbl : List Nat) (k alt : Nat) :
    ∀ (fuel p c a : Nat) (hw : List HwCall) (n : Nat), tbl.length ≤ fuel + p →
      ∃ r m, setConfLoopCount tbl k alt (fuel + 1) p c a hw n = some (r, m) ∧
        m ≤ n + (tbl.length - p) := by
  intro fuel
  induction fuel with
  | zero =>
    intro p c a hw n h
    rw [setConfLoopCount]
    simp only [DESC_bLength, Nat.add_zero]
    rw [rdByte_of_le tbl p (by omega)]
    exact ⟨hw, n, by simp, by omega⟩
  | succ f ih =>
    intro p c a hw n h
    rw [setConfLoopCount]
    simp only [DESC_bLength, Nat.add_zero]
    by_cases h0 : rdByte tbl p = 0
    · exact ⟨hw, n, by simp [h0], by omega⟩
    · have hp : p < tbl.length := by
        by_contra hc
        exact h0 (rdByte_of_le tbl p (by omega))
      have hnext : tbl.length ≤ f + (p + rdByte tbl p) := by omega
      have step : ∀ c1 a1 hw1, ∃ r m,
          setConfLoopCount tbl k alt (f + 1) (p + rdByte tbl p) c1 a1 hw1 (n + 1) = some (r, m) ∧
            m ≤ n + (tbl.length - p) := by
        intro c1 a1 hw1
        obtain ⟨r, m, hr, hm⟩ := ih (p + rdByte tbl p) c1 a1 hw1 (n + 1) hnext
        exact ⟨r, m, hr, by omega⟩
      simp only [ne_eq, h0, not_false_eq_true, if_true]
      split
      · exact step _ _ _
      · split
        · exact step _ _ _
        · split
          · split
            · exact step _ _ _
            · exact step _ _ _
          · exact step _ _ _

/-- C28. On every finite table, with loads behind its last byte yielding the
zero that ends the scan, and for every argument: the loop of
`USBGetDescriptor` and the loop of `USBSetConfiguration` return after at most
as many executions of the loop body as the table has bytes, with the result
of the function without the counter. -/
theorem scans_terminate (tbl : List Nat) :
    (∀ w lang : Nat, ∃ r n, USBGetDescriptorCount tbl w lang = some (r, n) ∧
      n ≤ tbl.length ∧ USBGetDescriptor tbl w lang = some r) ∧
    (∀ (k alt : Nat) (hw : List HwCall), ∃ r n,
      USBSetConfigurationCount tbl k alt hw = some (r, n) ∧
      n ≤ tbl.length ∧ USBSetConfiguration tbl k alt hw = some r) := by
  constructor
  · intro w lang
    obtain ⟨r, n, hr, hn⟩ :=
      getDescLoopCount_bound tbl (GET_DESC_TYPE w) (GET_DESC_INDEX w) tbl.length 0 0 0 (by omega)
    refine ⟨r, n, hr, by omega, ?_⟩
    have := getDescLoopCount_fst tbl (GET_DESC_TYPE w) (GET_DESC_INDEX w) (tbl.length + 1) 0 0 0
    rw [hr] at this
    exact this.symm
  · intro k alt hw
    by_cases hk : k = 0
    · exact ⟨(true, hw ++ [HwCall.USBHwConfigDevice false]), 0,
        by simp [USBSetConfigurationCount, hk], by omega, by simp [USBSetConfiguration, hk]⟩
    · obtain ⟨r, n, hr, hn⟩ :=
        setConfLoopCount_bound tbl k alt tbl.length 0 0xFF 0xFF hw 0 (by omega)
      have := setConfLoopCount_fst tbl k alt (tbl.length + 1) 0 0xFF 0xFF hw 0
      rw [hr] at this
      refine ⟨(true, r ++ [HwCall.USBHwConfigDevice true]), n, ?_, by omega, ?_⟩
      · unfold USBSetConfigurationCount
        rw [if_neg hk, hr]
      · unfold USBSetConfiguration
        rw [if_neg hk, ← this]
        rfl

/-! ## Byte loads after stores and copies -/

theorem rdByte_set (l : List Nat) (i v j : Nat) :
    rdByte (l.set i v) j = if j = i ∧ i < l.length then v else rdByte l j := by
  unfold rdByte
  by_cases hj : j = i
  · subst hj
    by_cases hl : j < l.length
    · rw [if_pos ⟨rfl, hl⟩, List.getD_eq_getElem _ _ (by rw [List.length_set]; exact hl)]
      simp
    · rw [if_neg (fun h => hl h.2)]
      rw [List.getD_eq_default _ _ (by rw [List.length_set]; omega),
        List.getD_eq_default _ _ (by omega)]
  · rw [if_neg (fun h => hj h.1)]
    simp only [List.getD_eq_getElem?_getD]
    rw [List.getElem?_set_ne (fun h => hj h.symm)]

theorem rdByte_memcpyTo (dst : List Nat) (add sub : Nat) (src : List Nat) (n j : Nat)
    (hj : j < dst.length) :
    rdByte (memcpyTo dst add sub src n) j
      = if add ≤ j + sub ∧ j + sub < add + n then rdByte src (j + sub - add) else rdByte dst j := by
  rw [rdByte_eq_getElem _ _ (by rw [memcpyTo_length]; exact hj)]
  unfold memcpyTo
  rw [List.getElem_map, List.getElem_range]

theorem rdByte_realloc_old (p : Option (List Nat)) (n : Nat) (junk : Nat → Nat) (j : Nat)
    (hj : j < (p.getD []).length) (hn : j < n) :
    rdByte (realloc p n junk) j = rdByte (p.getD []) j := by
  unfold realloc
  rw [rdByte_append_left _ _ _ (by rw [List.length_take]; omega)]
  unfold rdByte
  simp only [List.getD_eq_getElem?_getD]
  rw [List.getElem?_take_of_lt hn]

/-! ## String blocks -/

/-- The block `addStringDescriptor` leaves, byte by byte: the earlier string
blocks, then the byte `len`, the type 0x03, and the `len` bytes of the
string. -/
theorem addStringDescriptor_bytes (b : Builder) (string : List Nat) (len : Nat)
    (junk : Nat → Nat) (hlen : len < 256)
    (hsz : (b.USBStringDescriptors.getD []).length = b.stringSize) :
    ∃ blk, (addStringDescriptor b string len junk).USBStringDescriptors = some blk ∧
      blk.length = b.stringSize + len + 2 ∧
      rdByte blk b.stringSize = len ∧
      rdByte blk (b.stringSize + 1) = 0x03 ∧
      (∀ i, i < len → rdByte blk (b.stringSize + 2 + i) = rdByte string i) ∧
      (∀ i, i < b.stringSize → rdByte blk i = rdByte (b.USBStringDescriptors.getD []) i) := by
  have h256 : len % 256 = len := Nat.mod_eq_of_lt hlen
  have hL : ∀ v w, (((realloc b.USBStringDescriptors (b.stringSize + len + 2) junk).set
      b.stringSize v).set (b.stringSize + 1) w).length = b.stringSize + len + 2 := by
    intro v w
    rw [List.length_set, List.length_set, realloc_length]
  refine ⟨_, by unfold addStringDescriptor; rw [h256], ?_, ?_, ?_, ?_, ?_⟩
  · rw [memcpyTo_length, hL]
  · rw [rdByte_memcpyTo _ _ _ _ _ _ (by rw [hL]; omega), if_neg (by omega), rdByte_set,
      if_neg (by omega), rdByte_set, if_pos ⟨rfl, by rw [realloc_length]; omega⟩]
  · rw [rdByte_memcpyTo _ _ _ _ _ _ (by rw [hL]; omega), if_neg (by omega), rdByte_set,
      if_pos ⟨rfl, by rw [List.length_set, realloc_length]; omega⟩]
  · intro i hi
    rw [rdByte_memcpyTo _ _ _ _ _ _ (by rw [hL]; omega), if_pos (by omega)]
    congr 1
    omega
  · intro i hi
    rw [rdByte_memcpyTo _ _ _ _ _ _ (by rw [hL]; omega), if_neg (by omega), rdByte_set,
      if_neg (by omega), rdByte_set, if_neg (by omega),
      rdByte_realloc_old _ _ _ _ (by omega) (by omega)]

/-- C21 at the failing input: `addStringDescriptor` with the 2-byte payload
09 04 and then with the 2-byte payload 41 00 leaves the two blocks
02 03 09 04 and 02 03 41 00.  The first block occupies 4 bytes and its length
field is 2, not 4; a walker that advances by the length field from the start
of the first block lands on offset 2, its payload, and not on offset 4, the
start of the next block. -/
theorem addStringDescriptor_length_field :
    (addStringDescriptor (addStringDescriptor builderInit [0x09, 0x04] 2 (fun _ => 0xAA))
        [0x41, 0x00] 2 (fun _ => 0xAA)).USBStringDescriptors
      = some [0x02, 0x03, 0x09, 0x04, 0x02, 0x03, 0x41, 0x00] ∧
    (addStringDescriptor builderInit [0x09, 0x04] 2 (fun _ => 0xAA)).USBStringDescriptors
      = some [0x02, 0x03, 0x09, 0x04] ∧
    (addStringDescriptor builderInit [0x09, 0x04] 2 (fun _ => 0xAA)).stringSize = 4 ∧
    rdByte ((addStringDescriptor builderInit [0x09, 0x04] 2
      (fun _ => 0xAA)).USBStringDescriptors.getD []) 0 ≠ 2 + 2 ∧
    0 + rdByte ((addStringDescriptor (addStringDescriptor builderInit [0x09, 0x04] 2
      (fun _ => 0xAA)) [0x41, 0x00] 2 (fun _ => 0xAA)).USBStringDescriptors.getD []) 0 ≠ 4 := by
  decide

/-- C27 at the failing input: `addStringDescriptorChar` with the one
character 'A' (0x41) leaves the block 02 41 00 and one byte the loop never
writes (0xAA here): byte 1 is the character, not the type 0x03, and the
payload at offset 2 is not 41 00.  With the two characters "AB" and their
terminating zero the block is 04 41 00 00 00 and one unwritten byte: the
second store of the loop takes `string[2]`, the character 'B' is never
copied. -/
theorem addStringDescriptorChar_block :
    (addStringDescriptorChar builderInit [0x41] 1 (fun _ => 0xAA)).USBStringDescriptors
      = some [0x02, 0x41, 0x00, 0xAA] ∧
    rdByte ((addStringDescriptorChar builderInit [0x41] 1
      (fun _ => 0xAA)).USBStringDescriptors.getD []) 1 ≠ 0x03 ∧
    ((addStringDescriptorChar builderInit [0x41] 1
      (fun _ => 0xAA)).USBStringDescriptors.getD []).drop 2 ≠ [0x41, 0x00] ∧
    (addStringDescriptorChar builderInit [0x41, 0x42, 0x00] 2
      (fun _ => 0xAA)).USBStringDescriptors = some [0x04, 0x41, 0x00, 0x00, 0x00, 0xAA] ∧
    ((addStringDescriptorChar builderInit [0x41, 0x42, 0x00] 2
      (fun _ => 0xAA)).USBStringDescriptors.getD []).drop 2 ≠ [0x41, 0x00, 0x42, 0x00] := by
  decide

/-! ## The table the seal registers -/

/-- C22 at the failing input: after the device descriptor, one configuration
with one interface with one endpoint, both finalized, the seal registers a
table of 43 bytes that holds the four records and no zero length byte behind
them; walking it from offset 0 by the length bytes leaves the table without
meeting a terminator.  The same holds for the table of the device descriptor
alone. -/
theorem setUSBDescriptor_no_terminator :
    (setUSBDescriptor sampleBuilderComplete sampleStdReq (fun _ => 0xAA)).2.pabDescrip
      = [0x12, 0x01, 0x00, 0x02, 0x00, 0x00, 0x00, 0x40, 0xFF, 0xFF, 0x05, 0x00, 0x00, 0x01,
          0x01, 0x02, 0x03, 0x01,
          0x09, 0x02, 25, 0, 1, 1, 0, 0x80, 50,
          0x09, 0x04, 0, 0, 1, 8, 6, 80, 0,
          0x07, 0x05, 0x81, 0x02, 64, 0, 0] ∧
    walkToTerminator
      (setUSBDescriptor sampleBuilderComplete sampleStdReq (fun _ => 0xAA)).2.pabDescrip 44 0
      = none ∧
    18 + 9 + 9 + 7
      = (setUSBDescriptor sampleBuilderComplete sampleStdReq (fun _ => 0xAA)).2.pabDescrip.length ∧
    walkToTerminator
      (setUSBDescriptor sampleBuilderDevice sampleStdReq (fun _ => 0xAA)).2.pabDescrip 19 0
      = none := by
  decide

/-- With a configuration open, whatever bytes its staging region holds, the
seal does not finalize it: the guard fails on its second test, the sizes and
the staging region stay, and with no string block staged the table registered
is the table from before. -/
theorem setUSBDescriptor_open_config (b : Builder) (s : StdReq) (junk : Nat → Nat)
    (tbl cfg : List Nat) (htbl : b.USBDescriptor = some tbl)
    (hcfg : b.USBConfigDescriptor = some cfg) (h2 : rdByte cfg 2 < 256)
    (h3 : rdByte cfg 3 < 256) :
    ¬ (¬ ((rdByte cfg 2 + rdByte cfg 3) >>> 8 < 25 ∨ rdByte cfg 4 < 1)) ∧
    (setUSBDescriptor b s junk).1.descriptorSize = b.descriptorSize ∧
    (setUSBDescriptor b s junk).1.configSize = b.configSize ∧
    (setUSBDescriptor b s junk).1.USBConfigDescriptor = some cfg ∧
    (b.USBStringDescriptors = none →
      (setUSBDescriptor b s junk).1 = b ∧ (setUSBDescriptor b s junk).2.pabDescrip = tbl) := by
  have hg : (rdByte cfg 2 + rdByte cfg 3) >>> 8 < 25 := by
    rw [Nat.shiftRight_eq_div_pow]
    omega
  have hb1 : (match b.USBConfigDescriptor with
      | none => b
      | some cfg =>
        if ¬ ((rdByte cfg 2 + rdByte cfg 3) >>> 8 < 25 ∨ rdByte cfg 4 < 1) then
          finalizeConfigDescriptor (expandDescriptor b b.configSize junk) junk
        else b) = b := by
    rw [hcfg]
    simp only [hg, true_or, not_true_eq_false, if_false]
  refine ⟨fun h => h (Or.inl hg), ?_, ?_, ?_, ?_⟩
  · unfold setUSBDescriptor
    simp only [htbl, hb1]
    cases b.USBStringDescriptors <;> rfl
  · unfold setUSBDescriptor
    simp only [htbl, hb1]
    cases b.USBStringDescriptors <;> rfl
  · unfold setUSBDescriptor
    simp only [htbl, hb1]
    cases b.USBStringDescriptors <;> exact hcfg
  · intro hstr
    unfold setUSBDescriptor
    simp only [htbl, hb1, hstr]
    simp [USBRegisterDescriptors, htbl]

/-- C29 at the failing input: a configuration begun and not finalized (one
interface, so byte 4 is 1 and only the shift test decides the guard) and one
string block staged.  The seal leaves `descriptorSize` at 18 and the
configuration staging region open and unappended, but the table it registers
does not start with the 18 bytes of the table from before: bytes 0..3 hold
the string block. -/
theorem setUSBDescriptor_open_config_strings :
    sampleBuilderOpenString.USBConfigDescriptor
      = some [0x09, 0x02, 0, 0, 1, 1, 0, 0x80, 50, 0x09, 0x04, 0, 0, 1, 8, 6, 80, 0,
          0x07, 0x05, 0x81, 0x02, 64, 0, 0] ∧
    sampleBuilderOpenString.descriptorSize = 18 ∧
    (setUSBDescriptor sampleBuilderOpenString sampleStdReq (fun _ => 0xAA)).1.descriptorSize
      = 18 ∧
    (setUSBDescriptor sampleBuilderOpenString sampleStdReq (fun _ => 0xAA)).1.USBConfigDescriptor
      = sampleBuilderOpenString.USBConfigDescriptor ∧
    sampleBuilderOpenString.USBDescriptor
      = some [0x12, 0x01, 0x00, 0x02, 0x00, 0x00, 0x00, 0x40, 0xFF, 0xFF, 0x05, 0x00, 0x00, 0x01,
          0x01, 0x02, 0x03, 0x01] ∧
    (setUSBDescriptor sampleBuilderOpenString sampleStdReq (fun _ => 0xAA)).2.pabDescrip
      = [0x02, 0x03, 0x09, 0x04, 0x00, 0x00, 0x00, 0x40, 0xFF, 0xFF, 0x05, 0x00, 0x00, 0x01,
          0x01, 0x02, 0x03, 0x01, 0xAA, 0xAA, 0xAA, 0xAA] ∧
    ((setUSBDescriptor sampleBuilderOpenString sampleStdReq (fun _ => 0xAA)).2.pabDescrip).take 18
      ≠ sampleBuilderOpenString.USBDescriptor.getD [] := by
  decide

/-! ## Configuration values -/

theorem finalizeConfigDescriptor_configNum (b : Builder) (junk : Nat → Nat) :
    (finalizeConfigDescriptor b junk).configNum = b.configNum := by
  unfold finalizeConfigDescriptor
  split
  · rfl
  · rfl

theorem finalizeInterfaceDescriptor_configNum (b : Builder) (junk : Nat → Nat) :
    (finalizeInterfaceDescriptor b junk).configNum = b.configNum := by
  unfold finalizeInterfaceDescriptor
  split
  · rfl
  · rfl

theorem addEndpointDescriptor_configNum (b : Builder) (desc : List Nat) (junk : Nat → Nat) :
    (addEndpointDescriptor b desc junk).configNum = b.configNum := by
  unfold addEndpointDescriptor
  split
  · rfl
  · rfl

theorem addFunctionalDescriptor_configNum (b : Builder) (desc : List Nat) (junk : Nat → Nat) :
    (addFunctionalDescriptor b desc junk).configNum = b.configNum := by
  unfold addFunctionalDescriptor
  split
  · rfl
  · rfl

theorem setUSBDescriptor_configNum (b : Builder) (s : StdReq) (junk : Nat → Nat) :
    (setUSBDescriptor b s junk).1.configNum = b.configNum := by
  unfold setUSBDescriptor
  split
  · rfl
  · have hb1 : (match b.USBConfigDescriptor with
        | none => b
        | some cfg =>
          if ¬ ((rdByte cfg 2 + rdByte cfg 3) >>> 8 < 25 ∨ rdByte cfg 4 < 1) then
            finalizeConfigDescriptor (expandDescriptor b b.configSize junk) junk
          else b).configNum = b.configNum := by
      split
      · rfl
      · split
        · rw [finalizeConfigDescriptor_configNum]
          rfl
        · rfl
    simp only
    split
    · exact hb1
    · exact hb1

/-- Of the builder functions only `setDeviceDescriptor` and
`initConfigDescriptor` write `configNum`. -/
theorem runOp_configNum (st : Builder × StdReq) (op : BuilderOp)
    (h : isSetDevice op = false) :
    (runOp st op).1.configNum
      = if isInitConfig op = true then (st.1.configNum + 1) % 256 else st.1.configNum := by
  cases op with
  | setDeviceDescriptor desc junk => simp [isSetDevice] at h
  | expandDescriptor size junk => rfl
  | expandConfigDescriptor size junk => rfl
  | initConfigDescriptor desc junk => rfl
  | finalizeConfigDescriptor junk => exact finalizeConfigDescriptor_configNum _ _
  | expandInterfaceDescriptor size junk => rfl
  | initInterfaceDescriptor desc junk => rfl
  | finalizeInterfaceDescriptor junk => exact finalizeInterfaceDescriptor_configNum _ _
  | addEndpointDescriptor desc junk => exact addEndpointDescriptor_configNum _ _ _
  | addFunctionalDescriptor desc junk => exact addFunctionalDescriptor_configNum _ _ _
  | addStringDescriptor string len junk => rfl
  | addStringDescriptorChar string len junk => rfl
  | setUSBDescriptor junk => exact setUSBDescriptor_configNum _ _ _

/-- The counter `configNum` after calls that follow a `setDeviceDescriptor`:
one more than the number of `initConfigDescriptor` calls among them, as a
`uint8_t`. -/
theorem runOps_configNum (mid : List BuilderOp) :
    ∀ (st : Builder × StdReq), st.1.configNum = 1 →
      (∀ op ∈ mid, isSetDevice op = false) →
      (runOps st mid).1.configNum = (mid.countP isInitConfig + 1) % 256 := by
  induction mid using List.reverseRecOn with
  | nil =>
    intro st h1 _
    simp [runOps, h1]
  | append_singleton l op ih =>
    intro st h1 hmid
    have hl := ih st h1 (fun o ho => hmid o (List.mem_append_left _ ho))
    have hop := hmid op (List.mem_append_right _ (List.mem_singleton.2 rfl))
    have hrun : runOps st (l ++ [op]) = runOp (runOps st l) op := by
      simp [runOps, List.foldl_append]
    rw [hrun, runOp_configNum _ _ hop, hl, List.countP_append]
    by_cases hi : isInitConfig op = true
    · rw [if_pos hi]
      simp only [List.countP_singleton, hi, if_true]
      omega
    · rw [if_neg hi]
      simp only [List.countP_singleton, hi]
      simp

/-- The counter `configNum` after any calls, a `setDeviceDescriptor` and calls
that follow it. -/
theorem runOps_setDevice_configNum (st0 : Builder × StdReq) (pre mid : List BuilderOp)
    (d : List Nat) (j : Nat → Nat) (hmid : ∀ op ∈ mid, isSetDevice op = false) :
    (runOps st0 (pre ++ BuilderOp.setDeviceDescriptor d j :: mid)).1.configNum
      = (mid.countP isInitConfig + 1) % 256 := by
  have hrun : runOps st0 (pre ++ BuilderOp.setDeviceDescriptor d j :: mid)
      = runOps (runOp (runOps st0 pre) (BuilderOp.setDeviceDescriptor d j)) mid := by
    simp [runOps, List.foldl_append]
  rw [hrun]
  exact runOps_configNum mid _ rfl hmid

/-- The staging region `initConfigDescriptor` leaves: 9 bytes, length 9, type
2, interface count 0, and the counter `configNum` as configuration value. -/
theorem initConfigDescriptor_bytes (b : Builder) (desc : List Nat) (junk : Nat → Nat) :
    ∃ cfg, (initConfigDescriptor b desc junk).USBConfigDescriptor = some cfg ∧
      cfg.length = 9 ∧ rdByte cfg 0 = 9 ∧ rdByte cfg 1 = 2 ∧ rdByte cfg 4 = 0 ∧
      rdByte cfg 5 = b.configNum := by
  have hL : (memcpyTo (realloc none 0x09 junk) 0 0 desc 0x09).length = 9 := by
    rw [memcpyTo_length, realloc_length]
  refine ⟨_, rfl, ?_, ?_, ?_, ?_, ?_⟩
  · simp only [List.length_set, hL]
  · rw [rdByte_set, if_neg (by omega), rdByte_set, if_neg (by omega), rdByte_set,
      if_neg (by omega), rdByte_set, if_pos ⟨rfl, by rw [hL]; omega⟩]
  · rw [rdByte_set, if_neg (by omega), rdByte_set, if_neg (by omega), rdByte_set,
      if_pos ⟨rfl, by simp only [List.length_set, hL]; omega⟩]
  · rw [rdByte_set, if_neg (by omega), rdByte_set,
      if_pos ⟨rfl, by simp only [List.length_set, hL]; omega⟩]
  · rw [rdByte_set, if_pos ⟨rfl, by simp only [List.length_set, hL]; omega⟩]

/-- C30, as the code has it.  After any calls, a `setDeviceDescriptor`, and
further calls none of which is a `setDeviceDescriptor` and `k - 1` of which
are `initConfigDescriptor` calls, the next `initConfigDescriptor` call (the
`k`-th) leaves a 9-byte configuration record with length 9, type 2,
interface count (byte 4) 0 and configuration value (byte 5) `k mod 256`,
whatever the structure passed holds; for `k` up to 255 that value is `k`. -/
theorem initConfigDescriptor_value (st0 : Builder × StdReq) (pre mid : List BuilderOp)
    (d : List Nat) (j : Nat → Nat) (desc : List Nat) (junk : Nat → Nat)
    (hmid : ∀ op ∈ mid, isSetDevice op = false) :
    ∃ cfg,
      (initConfigDescriptor (runOps st0 (pre ++ BuilderOp.setDeviceDescriptor d j :: mid)).1 desc
        junk).USBConfigDescriptor = some cfg ∧
      cfg.length = 9 ∧ rdByte cfg 0 = 9 ∧ rdByte cfg 1 = 2 ∧ rdByte cfg 4 = 0 ∧
      rdByte cfg 5 = (mid.countP isInitConfig + 1) % 256 ∧
      (mid.countP isInitConfig + 1 ≤ 255 → rdByte cfg 5 = mid.countP isInitConfig + 1) := by
  obtain ⟨cfg, hcfg, hlen, h0, h1, h4, h5⟩ :=
    initConfigDescriptor_bytes
      (runOps st0 (pre ++ BuilderOp.setDeviceDescriptor d j :: mid)).1 desc junk
  rw [runOps_setDevice_configNum st0 pre mid d j hmid] at h5
  exact ⟨cfg, hcfg, hlen, h0, h1, h4, h5, fun hk => by rw [h5]; omega⟩

/-- The second `initConfigDescriptor` call after `setDeviceDescriptor`, with a
finalized first configuration in between, gets the configuration value 2
though the structure passed holds 0 there. -/
theorem initConfigDescriptor_value_witness :
    (∀ op ∈ [BuilderOp.initConfigDescriptor sampleConfigDesc (fun _ => 0xAA),
        BuilderOp.finalizeConfigDescriptor (fun _ => 0xAA)], isSetDevice op = false) ∧
    ∃ cfg,
      (initConfigDescriptor (runOps (builderInit, sampleStdReq)
        ([] ++ BuilderOp.setDeviceDescriptor sampleDeviceDesc (fun _ => 0xAA) ::
          [BuilderOp.initConfigDescriptor sampleConfigDesc (fun _ => 0xAA),
            BuilderOp.finalizeConfigDescriptor (fun _ => 0xAA)])).1 sampleConfigDesc
        (fun _ => 0xAA)).USBConfigDescriptor = some cfg ∧
      rdByte cfg 4 = 0 ∧ rdByte cfg 5 = 2 := by
  have hmid : ∀ op ∈ [BuilderOp.initConfigDescriptor sampleConfigDesc (fun _ => 0xAA),
      BuilderOp.finalizeConfigDescriptor (fun _ => 0xAA)], isSetDevice op = false := by
    intro op hop
    simp only [List.mem_cons, List.mem_singleton, List.not_mem_nil, or_false] at hop
    rcases hop with hop | hop
    · rw [hop]; rfl
    · rw [hop]; rfl
  obtain ⟨cfg, hcfg, _, _, _, h4, h5, _⟩ :=
    initConfigDescriptor_value (builderInit, sampleStdReq) []
      [BuilderOp.initConfigDescriptor sampleConfigDesc (fun _ => 0xAA),
        BuilderOp.finalizeConfigDescriptor (fun _ => 0xAA)]
      sampleDeviceDesc (fun _ => 0xAA) sampleConfigDesc (fun _ => 0xAA) hmid
  exact ⟨hmid, cfg, hcfg, h4, by rw [h5]; rfl⟩

/-- The claimed value fails at the 256th call: after `setDeviceDescriptor` and
255 `initConfigDescriptor` calls the next `initConfigDescriptor` call, the
256th, leaves the configuration value 0. -/
theorem initConfigDescriptor_value_counterexample :
    (List.replicate 255
      (BuilderOp.initConfigDescriptor sampleConfigDesc (fun _ => 0xAA))).countP isInitConfig + 1
      = 256 ∧
    rdByte ((initConfigDescriptor (runOps (builderInit, sampleStdReq)
        ([] ++ BuilderOp.setDeviceDescriptor sampleDeviceDesc (fun _ => 0xAA) ::
          List.replicate 255
            (BuilderOp.initConfigDescriptor sampleConfigDesc (fun _ => 0xAA)))).1
        sampleConfigDesc (fun _ => 0xAA)).USBConfigDescriptor.getD []) 5 = 0 ∧
    rdByte ((initConfigDescriptor (runOps (builderInit, sampleStdReq)
        ([] ++ BuilderOp.setDeviceDescriptor sampleDeviceDesc (fun _ => 0xAA) ::
          List.replicate 255
            (BuilderOp.initConfigDescriptor sampleConfigDesc (fun _ => 0xAA)))).1
        sampleConfigDesc (fun _ => 0xAA)).USBConfigDescriptor.getD []) 5 ≠ 256 := by
  have hc : (List.replicate 255
      (BuilderOp.initConfigDescriptor sampleConfigDesc (fun _ => 0xAA))).countP isInitConfig
      = 255 := by
    rw [List.countP_replicate]
    simp [isInitConfig]
  have hmid : ∀ op ∈ List.replicate 255
      (BuilderOp.initConfigDescriptor sampleConfigDesc (fun _ => 0xAA)),
      isSetDevice op = false := by
    intro op hop
    rw [(List.mem_replicate.1 hop).2]
    rfl
  obtain ⟨cfg, hcfg, _, _, _, _, h5⟩ :=
    initConfigDescriptor_bytes
      (runOps (builderInit, sampleStdReq)
        ([] ++ BuilderOp.setDeviceDescriptor sampleDeviceDesc (fun _ => 0xAA) ::
          List.replicate 255
            (BuilderOp.initConfigDescriptor sampleConfigDesc (fun _ => 0xAA)))).1
      sampleConfigDesc (fun _ => 0xAA)
  rw [runOps_setDevice_configNum _ _ _ _ _ hmid, hc] at h5
  rw [hcfg, Option.getD_some, h5, hc]
  exact ⟨rfl, rfl, by decide⟩

end LpcUsb
